import Mathlib

/-!
# Payment notification webhook (`supabase/functions/nowpayments-ipn/index.ts`)

A shallow embedding of the handler passed to `serve`, together with the
parts of the JavaScript runtime it relies on:

* strings are sequences of UTF-16 code units (`JSString`);
* a request carries the value that `JSON.parse(await req.text())` evaluates
  to, or `none` when it throws; the function `JSON.parse` itself is embedded
  too, to read the canonical string back (its conversion of a number literal
  to a Number is a parameter);
* a Number is carried as the text `Number::toString` gives for it, so no
  floating point arithmetic is needed;
* `Object.keys`, `Array.prototype.sort`, property assignment on a fresh
  object and `JSON.stringify` follow ECMA-262, including the rule that own
  keys which are array indices are enumerated first, in numeric order;
* `crypto.subtle.sign("HMAC", …)` with hash SHA-512 follows RFC 2104 and
  FIPS 180-4, `encode` is the lowercase hex encoder of `std/encoding/hex.ts`;
* the record store is an oracle that tells, for each operation the handler
  issues, whether the returned `error` is set; the handler returns its
  response together with the trace of the effects it performed;
* for redelivery, the state of the record store is modelled from the
  specification (accounts with a premium flag, donations keyed by order_id).

The file also embeds the handler of
`supabase/functions/send-feedback-email/index.ts` (namespace `Feedback`), with
the profile table, the mail service and the runtime's exception texts as
collaborators, and the typewriter effect of `web/script.js` as a step function
on the variables of `initTypewriter` and the text of the title lines.
-/

/-! ## Strings -/

/-- A JavaScript string: its UTF-16 code units. -/
abbrev JSString := List Nat

/-- UTF-16 code units of one Unicode scalar value. -/
def utf16Units (c : Char) : List Nat :=
  if c.toNat < 0x10000 then [c.toNat]
  else [0xD800 + (c.toNat - 0x10000) / 0x400, 0xDC00 + (c.toNat - 0x10000) % 0x400]

/-- A string literal of the source as a JavaScript string. -/
def js (s : String) : JSString := s.toList.flatMap utf16Units

/-- Strict string comparison `a < b` of ECMA-262 (IsLessThan on two strings):
lexicographic on code units, a proper prefix being smaller. -/
def strLt : JSString → JSString → Bool
  | [], [] => false
  | [], _ :: _ => true
  | _ :: _, [] => false
  | a :: as, b :: bs => if a < b then true else if b < a then false else strLt as bs

/-- The order `Array.prototype.sort()` without comparator puts strings in:
`a` may precede `b` when `b < a` is false. -/
def strLe (a b : JSString) : Prop := strLt b a = false

instance strLe.decidable : DecidableRel strLe := fun a b =>
  inferInstanceAs (Decidable (strLt b a = false))

/-- The call `Array.prototype.sort()` on an array of strings, default comparator.  The
order is total and two strings that compare equal are the same string, so the
result does not depend on the sorting algorithm; insertion sort is used. -/
def sort (keys : List JSString) : List JSString := keys.insertionSort strLe

/-- The method `String.prototype.startsWith(searchString)`. -/
def startsWith : JSString → JSString → Bool
  | _, [] => true
  | [], _ :: _ => false
  | c :: s, p :: ps => c == p && startsWith s ps

/-- The method `String.prototype.split(sep)` for a separator of one code unit: `cur` is
the segment being read, in reverse. -/
def splitAux (sep : Nat) : JSString → JSString → List JSString
  | [], cur => [cur.reverse]
  | c :: s, cur => if c = sep then cur.reverse :: splitAux sep s [] else splitAux sep s (c :: cur)

/-- The call `s.split(sep)` with a one-character separator: split at every occurrence of the code unit. -/
def split (s : JSString) (sep : Nat) : List JSString := splitAux sep s []

/-- Decimal digits of a natural number, as a JavaScript string. -/
def natToString (n : Nat) : JSString := (Nat.toDigits 10 n).map Char.toNat

/-- Value of a string of decimal digits. -/
def decValue (s : JSString) : Nat := s.foldl (fun acc u => acc * 10 + (u - 48)) 0

/-- Array index of ECMA-262: a canonical numeric string (no sign, no leading
zero) whose value is below `2^32 - 1`.  Returns the index. -/
def arrayIndex (s : JSString) : Option Nat :=
  match s with
  | [] => none
  | d :: ds =>
    if s.all (fun u => decide (48 ≤ u ∧ u ≤ 57)) && (d != 48 || ds.isEmpty)
        && decide (decValue s < 2 ^ 32 - 1)
    then some (decValue s) else none

/-- Lowercase hexadecimal digit, as a code unit. -/
def hexDigit (n : Nat) : Nat := if n < 10 then 48 + n else 87 + n

/-! ## JSON values -/

/-- A value produced by `JSON.parse`.  `num` carries the text that
`Number::toString` gives for the number; `obj` lists the own properties in
creation order. -/
inductive Json where
  | null
  | bool (b : Bool)
  | num (text : JSString)
  | str (s : JSString)
  | arr (items : List Json)
  | obj (props : List (JSString × Json))

/-- Own property order of an ordinary object (OrdinaryOwnPropertyKeys): the
array-index keys in ascending numeric order, then the other string keys in
creation order. -/
def ownPropertyOrder {α : Type} (entries : List (JSString × α)) : List (JSString × α) :=
  ((entries.filterMap (fun e => (arrayIndex e.1).map (fun i => (i, e)))).insertionSort
      (fun a b => a.1 ≤ b.1)).map (fun p => p.2)
    ++ entries.filter (fun e => (arrayIndex e.1).isNone)

/-- Four lowercase hex digits of a code unit, for a `\uXXXX` escape. -/
def hex4 (u : Nat) : JSString :=
  [hexDigit (u / 4096 % 16), hexDigit (u / 256 % 16), hexDigit (u / 16 % 16), hexDigit (u % 16)]

/-- Body of QuoteJSONString: escape the code units of a string. -/
def quoteUnits : JSString → JSString
  | [] => []
  | u :: v :: rest =>
    if 0xD800 ≤ u ∧ u < 0xDC00 ∧ 0xDC00 ≤ v ∧ v < 0xE000 then u :: v :: quoteUnits rest
    else
      (if u = 0x08 then js "\\b" else if u = 0x09 then js "\\t" else if u = 0x0A then js "\\n"
       else if u = 0x0C then js "\\f" else if u = 0x0D then js "\\r"
       else if u = 0x22 then js "\\\"" else if u = 0x5C then js "\\\\"
       else if u < 0x20 ∨ (0xD800 ≤ u ∧ u < 0xE000) then js "\\u" ++ hex4 u
       else [u]) ++ quoteUnits (v :: rest)
  | [u] =>
      if u = 0x08 then js "\\b" else if u = 0x09 then js "\\t" else if u = 0x0A then js "\\n"
      else if u = 0x0C then js "\\f" else if u = 0x0D then js "\\r"
      else if u = 0x22 then js "\\\"" else if u = 0x5C then js "\\\\"
      else if u < 0x20 ∨ (0xD800 ≤ u ∧ u < 0xE000) then js "\\u" ++ hex4 u
      else [u]

/-- QuoteJSONString of ECMA-262: the string between double quotes, with the
two-character escapes, `\u00xx` for other control characters and `\udxxx` for
lone surrogates. -/
def quoteJSONString (s : JSString) : JSString := js "\"" ++ quoteUnits s ++ js "\""

/-- Join the pieces with a comma between them. -/
def joinComma : List JSString → JSString
  | [] => []
  | [x] => x
  | x :: y :: rest => x ++ js "," ++ joinComma (y :: rest)

/-- Serialisation of a Number by `JSON.stringify`: its text when finite,
`null` otherwise. -/
def numberToJSON (text : JSString) : JSString :=
  if text = js "Infinity" ∨ text = js "-Infinity" ∨ text = js "NaN" then js "null" else text

mutual
/-- The call `JSON.stringify(value)` without replacer or indentation, for a value whose
parts all come from `JSON.parse`. -/
def JSON.stringify : Json → JSString
  | .null => js "null"
  | .bool b => if b then js "true" else js "false"
  | .num text => numberToJSON text
  | .str s => quoteJSONString s
  | .arr items => js "[" ++ joinComma (JSON.stringifyItems items) ++ js "]"
  | .obj props =>
    js "\x7b" ++ joinComma ((ownPropertyOrder (JSON.stringifyProps props)).map
      (fun e => quoteJSONString e.1 ++ js ":" ++ e.2)) ++ js "\x7d"
/-- The serialised elements of an array. -/
def JSON.stringifyItems : List Json → List JSString
  | [] => []
  | x :: xs => JSON.stringify x :: JSON.stringifyItems xs
/-- The own properties of an object, each value serialised. -/
def JSON.stringifyProps : List (JSString × Json) → List (JSString × JSString)
  | [] => []
  | (k, v) :: ps => (k, JSON.stringify v) :: JSON.stringifyProps ps
end

/-! ## SHA-512 (FIPS 180-4) and HMAC (RFC 2104)

Words are natural numbers below `2^64`; bytes are natural numbers below 256. -/

namespace SHA512

/-- The round constants of FIPS 180-4 §4.2.3. -/
def K : List Nat :=
  [0x428a2f98d728ae22, 0x7137449123ef65cd, 0xb5c0fbcfec4d3b2f, 0xe9b5dba58189dbbc,
   0x3956c25bf348b538, 0x59f111f1b605d019, 0x923f82a4af194f9b, 0xab1c5ed5da6d8118,
   0xd807aa98a3030242, 0x12835b0145706fbe, 0x243185be4ee4b28c, 0x550c7dc3d5ffb4e2,
   0x72be5d74f27b896f, 0x80deb1fe3b1696b1, 0x9bdc06a725c71235, 0xc19bf174cf692694,
   0xe49b69c19ef14ad2, 0xefbe4786384f25e3, 0x0fc19dc68b8cd5b5, 0x240ca1cc77ac9c65,
   0x2de92c6f592b0275, 0x4a7484aa6ea6e483, 0x5cb0a9dcbd41fbd4, 0x76f988da831153b5,
   0x983e5152ee66dfab, 0xa831c66d2db43210, 0xb00327c898fb213f, 0xbf597fc7beef0ee4,
   0xc6e00bf33da88fc2, 0xd5a79147930aa725, 0x06ca6351e003826f, 0x142929670a0e6e70,
   0x27b70a8546d22ffc, 0x2e1b21385c26c926, 0x4d2c6dfc5ac42aed, 0x53380d139d95b3df,
   0x650a73548baf63de, 0x766a0abb3c77b2a8, 0x81c2c92e47edaee6, 0x92722c851482353b,
   0xa2bfe8a14cf10364, 0xa81a664bbc423001, 0xc24b8b70d0f89791, 0xc76c51a30654be30,
   0xd192e819d6ef5218, 0xd69906245565a910, 0xf40e35855771202a, 0x106aa07032bbd1b8,
   0x19a4c116b8d2d0c8, 0x1e376c085141ab53, 0x2748774cdf8eeb99, 0x34b0bcb5e19b48a8,
   0x391c0cb3c5c95a63, 0x4ed8aa4ae3418acb, 0x5b9cca4f7763e373, 0x682e6ff3d6b2b8a3,
   0x748f82ee5defb2fc, 0x78a5636f43172f60, 0x84c87814a1f0ab72, 0x8cc702081a6439ec,
   0x90befffa23631e28, 0xa4506cebde82bde9, 0xbef9a3f7b2c67915, 0xc67178f2e372532b,
   0xca273eceea26619c, 0xd186b8c721c0c207, 0xeada7dd6cde0eb1e, 0xf57d4f7fee6ed178,
   0x06f067aa72176fba, 0x0a637dc5a2c898a6, 0x113f9804bef90dae, 0x1b710b35131c471b,
   0x28db77f523047d84, 0x32caab7b40c72493, 0x3c9ebe0a15c9bebc, 0x431d67c49c100d4c,
   0x4cc5d4becb3e42b6, 0x597f299cfc657e2a, 0x5fcb6fab3ad6faec, 0x6c44198c4a475817]

/-- The initial hash value of FIPS 180-4 §5.3.5. -/
def H0 : List Nat :=
  [0x6a09e667f3bcc908, 0xbb67ae8584caa73b, 0x3c6ef372fe94f82b, 0xa54ff53a5f1d36f1,
   0x510e527fade682d1, 0x9b05688c2b3e6c1f, 0x1f83d9abfb41bd6b, 0x5be0cd19137e2179]

/-- Addition modulo `2^64`. -/
def add64 (x y : Nat) : Nat := (x + y) % 2 ^ 64

/-- Rotate a 64-bit word right by `n` bits. -/
def rotr (n x : Nat) : Nat := ((x >>> n) ||| (x <<< (64 - n))) % 2 ^ 64

def ch (x y z : Nat) : Nat := (x &&& y) ^^^ ((x ^^^ (2 ^ 64 - 1)) &&& z)
def maj (x y z : Nat) : Nat := (x &&& y) ^^^ (x &&& z) ^^^ (y &&& z)
def bigSigma0 (x : Nat) : Nat := rotr 28 x ^^^ rotr 34 x ^^^ rotr 39 x
def bigSigma1 (x : Nat) : Nat := rotr 14 x ^^^ rotr 18 x ^^^ rotr 41 x
def smallSigma0 (x : Nat) : Nat := rotr 1 x ^^^ rotr 8 x ^^^ (x >>> 7)
def smallSigma1 (x : Nat) : Nat := rotr 19 x ^^^ rotr 61 x ^^^ (x >>> 6)

/-- Big-endian value of a list of bytes. -/
def beNat (bs : List Nat) : Nat := bs.foldl (fun acc b => acc * 256 + b) 0

/-- The `n` low-order bytes of `x`, most significant first. -/
def beBytes : Nat → Nat → List Nat
  | 0, _ => []
  | n + 1, x => (x / 256 ^ n) % 256 :: beBytes n x

/-- Padding of FIPS 180-4 §5.1.2: a 1 bit, zero bits up to 112 bytes modulo
128, then the bit length of the message as a 128-bit number. -/
def pad (msg : List Nat) : List Nat :=
  msg ++ 0x80 :: List.replicate ((239 - msg.length % 128) % 128) 0 ++ beBytes 16 (8 * msg.length)

/-- The first `n` 64-bit words of a byte list. -/
def words : Nat → List Nat → List Nat
  | 0, _ => []
  | n + 1, bs => beNat (bs.take 8) :: words n (bs.drop 8)

/-- Message schedule of §6.4.2 step 1: `w` holds the last 16 words, oldest
first; produce the next `n` words. -/
def schedule : Nat → List Nat → List Nat
  | 0, _ => []
  | n + 1, w =>
    let x := add64 (add64 (smallSigma1 (w.getD 14 0)) (w.getD 9 0))
                   (add64 (smallSigma0 (w.getD 1 0)) (w.getD 0 0))
    x :: schedule n (w.drop 1 ++ [x])

/-- The eight working variables. -/
structure Vars where
  a : Nat
  b : Nat
  c : Nat
  d : Nat
  e : Nat
  f : Nat
  g : Nat
  h : Nat

/-- One round of §6.4.2 step 3. -/
def round (v : Vars) (k w : Nat) : Vars :=
  let t1 := add64 (add64 (add64 v.h (bigSigma1 v.e)) (add64 (ch v.e v.f v.g) k)) w
  let t2 := add64 (bigSigma0 v.a) (maj v.a v.b v.c)
  ⟨add64 t1 t2, v.a, v.b, v.c, add64 v.d t1, v.e, v.f, v.g⟩

def rounds : Vars → List Nat → List Nat → Vars
  | v, k :: ks, w :: ws => rounds (round v k w) ks ws
  | v, _, _ => v

/-- Process one 128-byte block: the next intermediate hash value. -/
def compress (h : List Nat) (block : List Nat) : List Nat :=
  let w16 := words 16 block
  let v0 : Vars := ⟨h.getD 0 0, h.getD 1 0, h.getD 2 0, h.getD 3 0,
                    h.getD 4 0, h.getD 5 0, h.getD 6 0, h.getD 7 0⟩
  let v := rounds v0 K (w16 ++ schedule 64 w16)
  [add64 v0.a v.a, add64 v0.b v.b, add64 v0.c v.c, add64 v0.d v.d,
   add64 v0.e v.e, add64 v0.f v.f, add64 v0.g v.g, add64 v0.h v.h]

/-- Process `n` consecutive blocks. -/
def blocks : Nat → List Nat → List Nat → List Nat
  | 0, h, _ => h
  | n + 1, h, bs => blocks n (compress h (bs.take 128)) (bs.drop 128)

/-- The SHA-512 digest (64 bytes) of a byte list. -/
def hash (msg : List Nat) : List Nat :=
  (blocks ((pad msg).length / 128) H0 (pad msg)).flatMap (beBytes 8)

end SHA512

/-- The bytes `crypto.subtle.sign("HMAC", key, msg)` returns for a key imported
with hash SHA-512 (RFC 2104 with block size 128). -/
def hmacSha512 (key msg : List Nat) : List Nat :=
  let k0 := if key.length > 128 then SHA512.hash key else key
  let k := k0 ++ List.replicate (128 - k0.length) 0
  SHA512.hash (k.map (fun b => b ^^^ 0x5c) ++ SHA512.hash (k.map (fun b => b ^^^ 0x36) ++ msg))

/-- UTF-8 bytes of a Unicode scalar value. -/
def utf8Scalar (c : Nat) : List Nat :=
  if c < 0x80 then [c]
  else if c < 0x800 then [0xC0 + c / 64, 0x80 + c % 64]
  else if c < 0x10000 then [0xE0 + c / 4096, 0x80 + c / 64 % 64, 0x80 + c % 64]
  else [0xF0 + c / 262144, 0x80 + c / 4096 % 64, 0x80 + c / 64 % 64, 0x80 + c % 64]

/-- The bytes `new TextEncoder().encode(s)` returns: UTF-8, a surrogate pair
giving one scalar value and a lone surrogate giving U+FFFD. -/
def TextEncoder.encode : JSString → List Nat
  | [] => []
  | u :: v :: rest =>
    if 0xD800 ≤ u ∧ u < 0xDC00 ∧ 0xDC00 ≤ v ∧ v < 0xE000 then
      utf8Scalar (0x10000 + (u - 0xD800) * 0x400 + (v - 0xDC00)) ++ TextEncoder.encode rest
    else if 0xD800 ≤ u ∧ u < 0xE000 then utf8Scalar 0xFFFD ++ TextEncoder.encode (v :: rest)
    else utf8Scalar u ++ TextEncoder.encode (v :: rest)
  | [u] => if 0xD800 ≤ u ∧ u < 0xE000 then utf8Scalar 0xFFFD else utf8Scalar u

/-- The function `encode` of `std/encoding/hex.ts`: two lowercase hex digits
(as ASCII bytes) for each byte. -/
def encode (bytes : List Nat) : List Nat :=
  bytes.flatMap (fun b => [hexDigit (b / 16), hexDigit (b % 16)])

/-- The string `new TextDecoder().decode(bytes)` returns for ASCII bytes: one
code unit per byte, of the same value.  The handler only decodes the output
of `encode`, which is ASCII. -/
def TextDecoder.decode (bytes : List Nat) : JSString := bytes

/-! ## The runtime interface of the handler -/

/-- A value a JavaScript expression of the handler evaluates to: `undefined`
(`none`) or a JSON value. -/
abbrev JSValue := Option Json

/-- The call `Object.keys(value)`: `none` when it throws (TypeError on `null`).
The own enumerable string keys, in own property order; for an array or a
string these are the indices. -/
def Object.keys : Json → Option (List JSString)
  | .null => none
  | .bool _ => some []
  | .num _ => some []
  | .str s => some ((List.range s.length).map natToString)
  | .arr items => some ((List.range items.length).map natToString)
  | .obj props => some ((ownPropertyOrder props).map (fun e => e.1))

/-- First property of that name in a property list. -/
def lookup (key : JSString) : List (JSString × Json) → JSValue
  | [] => none
  | (k, v) :: ps => if k = key then some v else lookup key ps

/-- Property read `value[key]` (or `value.key`) on a value that is not
`null`: the own property of an object, the element of an array, the code unit
of a string, `undefined` when there is none.  Properties inherited from the
built-in prototypes (`length`, `constructor`, methods) are not modelled: the
handler reads own keys and the names `payment_status`, `order_id`,
`payment_id`, `price_amount`, `price_currency` only. -/
def Json.get : Json → JSString → JSValue
  | .obj props, key => lookup key props
  | .arr items, key => (arrayIndex key).bind (fun i => items.get? i)
  | .str s, key => (arrayIndex key).bind (fun i => (s.get? i).map (fun u => Json.str [u]))
  | _, _ => none

/-- Property read where the base may be `null`: `none` when it throws. -/
def getProp (value : Json) (key : JSString) : Option JSValue :=
  match value with
  | .null => none
  | v => some (v.get key)

/-- Assignment `o[key] = v` on an ordinary object given by its properties in
creation order: an existing property keeps its place, a new one is created
last.  The key `__proto__` is taken to be an ordinary key, as on Deno, whose
runtime removes the accessor from `Object.prototype`. -/
def setProp (o : List (JSString × Json)) (key : JSString) (v : Json) : List (JSString × Json) :=
  if o.any (fun e => e.1 == key) then o.map (fun e => if e.1 = key then (key, v) else e)
  else o ++ [(key, v)]

/-- The environment variables the module reads when it is loaded.
`SUPABASE_URL` and `SUPABASE_SERVICE_ROLE_KEY` are asserted to be set by the
source (`SUPABASE_URL!`), so `createClient` is taken to succeed. -/
structure Env where
  /-- Value of `Deno.env.get('NOWPAYMENTS_IPN_SECRET')`, `none` for `undefined`. -/
  IPN_SECRET : Option JSString

/-- Truthiness of a string or `undefined`/`null`: set and not empty. -/
def truthy : Option JSString → Bool
  | none => false
  | some [] => false
  | some (_ :: _) => true

/-- What the handler looks at in the request. -/
structure Request where
  /-- Value of `req.method`. -/
  method : JSString
  /-- Value of `req.headers.get('x-nowpayments-sig')`, `none` for `null`. -/
  signature : Option JSString
  /-- Value of `JSON.parse(await req.text())`, `none` when it throws. -/
  body : Option Json

/-- A record store call the handler awaits. -/
inductive StoreOp where
  /-- The call `supabase.from(table).update(values).eq(column, value)`. -/
  | update (table : String) (values : List (String × Json)) (column : String) (value : JSString)
  /-- The call `supabase.from(table).upsert(record, { onConflict })`. -/
  | upsert (table : String) (record : List (String × JSValue)) (onConflict : String)

/-- An effect of the handler, in the order performed. -/
inductive Event where
  /-- The read `req.headers.get('x-nowpayments-sig')`. -/
  | headersGet
  /-- The read `await req.text()`. -/
  | text
  /-- The call `JSON.parse(bodyText)`. -/
  | parse
  /-- A call `console.error`, `console.warn` or `console.log` with its first argument. -/
  | console (level : String) (message : JSString)
  /-- The call `createClient(SUPABASE_URL!, SUPABASE_SERVICE_ROLE_KEY!)`. -/
  | createClient
  /-- A record store call. -/
  | store (op : StoreOp)

/-- A `new Response(body, { status })`. -/
structure Response where
  body : String
  status : Nat
deriving DecidableEq

/-- The response of one invocation and the effects it performed. -/
structure Outcome where
  response : Response
  trace : List Event

/-- The record store calls in a trace. -/
def storeOps : List Event → List StoreOp
  | [] => []
  | .store op :: es => op :: storeOps es
  | _ :: es => storeOps es

/-! ## The handler -/

/-- The callback of the `forEach`: `sortedBody[key] = body[key]`, on the
properties of `sortedBody`.  (A key whose value is `undefined` would be
skipped by `JSON.stringify`; own keys always have a value.) -/
def copyKey (body : Json) (acc : List (JSString × Json)) (key : JSString) :
    List (JSString × Json) :=
  match body.get key with
  | some v => setProp acc key v
  | none => acc

/-- The object `sortedBody` after the `forEach`: starting from `{}`, assign
`body[key]` to `key` for each key in turn. -/
def sortedBody (body : Json) (sortedKeys : List JSString) : List (JSString × Json) :=
  sortedKeys.foldl (copyKey body) []

/-- The string `sortedBodyString` of the source, the canonical string that is
signed: `none` when `Object.keys(body)` throws. -/
def sortedBodyString (body : Json) : Option JSString :=
  (Object.keys body).map (fun keys => JSON.stringify (.obj (sortedBody body (sort keys))))

/-- The string `generatedSignature` of the source: lowercase hex of the HMAC-SHA-512
of the canonical string under the secret, both UTF-8 encoded. -/
def generatedSignature (secret : JSString) (body : Json) : Option JSString :=
  (sortedBodyString body).map (fun s =>
    TextDecoder.decode (encode (hmacSha512 (TextEncoder.encode secret) (TextEncoder.encode s))))

/-- The test `value === s` against a string. -/
def strictEquals : JSValue → JSString → Bool
  | some (.str t), s => t == s
  | _, _ => false

/-- The `catch` block: log and answer 400. -/
def caught (trace : List Event) : Outcome :=
  ⟨⟨"Bad Request", 400⟩, trace ++ [.console "error" (js "IPN Processing Error:")]⟩

/-- The final `return new Response('OK', { status: 200 })`. -/
def ok (trace : List Event) : Outcome := ⟨⟨"OK", 200⟩, trace⟩

/-- The trace up to and including `JSON.parse`. -/
def parsedTrace : List Event := [.headersGet, .text, .parse]

/-- The trace when `IPN_SECRET` is falsy: the trace up to `JSON.parse` and the
warning that verification is skipped. -/
def skippedTrace : List Event :=
  [.headersGet, .text, .parse,
    .console "warn" (js ("NOWPAYMENTS_IPN_SECRET not set, skipping signature verification "
      ++ "(NOT RECOMMENDED FOR PRODUCTION)"))]

/-- The return for `!signature`, the header being absent or empty: the error
is logged and the answer is 401. -/
def missingSignature : Outcome :=
  ⟨⟨"Unauthorized", 401⟩, [.headersGet, .console "error" (js "Missing x-nowpayments-sig header")]⟩

/-- The return for `generatedSignature !== signature`: the error is logged and
the answer is 401. -/
def invalidSignature : Outcome :=
  ⟨⟨"Unauthorized", 401⟩, [.headersGet, .text, .parse, .console "error" (js "Invalid signature")]⟩

/-- Section `// 2. Process Payment` of the source, entered with the trace so
far.  `store op` tells whether the awaited call returns an `error`.
The call `orderId?.startsWith(…)` is `undefined` when `orderId` is `undefined`
or `null`, the method of the string when it is a string, and throws a
TypeError for any other value, which has no such method. -/
def processPayment (store : StoreOp → Bool) (body : Json) (trace : List Event) : Outcome :=
  match getProp body (js "payment_status"), getProp body (js "order_id") with
  | some paymentStatus, some orderId =>
    if strictEquals paymentStatus (js "finished") then
      match orderId with
      | none => ok (trace ++ [.createClient])
      | some .null => ok (trace ++ [.createClient])
      | some (.str orderId) =>
        if startsWith orderId (js "premium_") then
          let parts := split orderId 95
          if parts.length ≥ 2 then
            let userId := parts.getD 1 []
            let op := StoreOp.update "user_profiles" [("is_premium", .bool true)] "id" userId
            if store op then
              ⟨⟨"Internal Server Error", 500⟩,
                trace ++ [.createClient, .store op, .console "error" (js "Error updating user status:")]⟩
            else
              ok (trace ++ [.createClient, .store op,
                .console "log" (js "User " ++ userId ++ js " upgraded to premium successfully")])
          else ok (trace ++ [.createClient])
        else if startsWith orderId (js "donation_") then
          let op := StoreOp.upsert "donations"
            [("order_id", some (.str orderId)), ("payment_id", body.get (js "payment_id")),
             ("amount", body.get (js "price_amount")), ("currency", body.get (js "price_currency")),
             ("status", paymentStatus)] "order_id"
          if store op then
            ⟨⟨"Internal Server Error", 500⟩,
              trace ++ [.createClient, .store op, .console "error" (js "Error recording donation:")]⟩
          else
            ok (trace ++ [.createClient, .store op,
              .console "log" (js "Donation " ++ orderId ++ js " recorded successfully")])
        else ok (trace ++ [.createClient])
      | some _ => caught (trace ++ [.createClient])
    else ok trace
  | _, _ => caught trace

/-- The handler passed to `serve`. -/
def handler (env : Env) (store : StoreOp → Bool) (req : Request) : Outcome :=
  if req.method ≠ js "POST" then ⟨⟨"Method Not Allowed", 405⟩, []⟩
  else
    match req.signature with
    | none => missingSignature
    | some [] => missingSignature
    | some (u :: us) =>
      match req.body with
      | none => caught parsedTrace
      | some body =>
        match env.IPN_SECRET with
        | some (c :: cs) =>
          match generatedSignature (c :: cs) body with
          | none => caught parsedTrace
          | some generated =>
            if generated ≠ u :: us then invalidSignature
            else processPayment store body parsedTrace
        | _ => processPayment store body skippedTrace

/-! ## Example requests -/

/-- The notification `{"payment_status":"finished","order_id":"premium_42_999"}`. -/
def premiumBody : Json :=
  .obj [(js "payment_status", .str (js "finished")), (js "order_id", .str (js "premium_42_999"))]

/-- HMAC-SHA-512 of the canonical string of `premiumBody` under the key
`topsecret`, in lowercase hex, as computed by an independent implementation. -/
def premiumSignature : JSString :=
  js ("86e21b5225fdfa0d125d0d98772dc984a73867573cce9b3fdad19413665000ed"
    ++ "3e6a4bc5f4d205f9f4cb0be452eab0b77295d50bb097ad877743bc3ab55b3ed1")

/-- The same digest with its first hex digit changed from 8 to 9. -/
def flippedSignature : JSString :=
  js ("96e21b5225fdfa0d125d0d98772dc984a73867573cce9b3fdad19413665000ed"
    ++ "3e6a4bc5f4d205f9f4cb0be452eab0b77295d50bb097ad877743bc3ab55b3ed1")

/-- The notification `{"payment_status":"waiting"}`. -/
def waitingBody : Json := .obj [(js "payment_status", .str (js "waiting"))]

/-- A record store whose calls all succeed. -/
def storeOk : StoreOp → Bool := fun _ => false

/-- A record store whose calls all return an error. -/
def storeFailing : StoreOp → Bool := fun _ => true

/-- The body `{"10":1,"9":2}`, whose keys are array indices. -/
def integerKeysBody : Json := .obj [(js "10", .num (js "1")), (js "9", .num (js "2"))]

/-- The notification `premiumBody` with its two properties in the other order. -/
def premiumBodySwapped : Json :=
  .obj [(js "order_id", .str (js "premium_42_999")), (js "payment_status", .str (js "finished"))]

/-- A finished donation notification. -/
def donationBody : Json :=
  .obj [(js "payment_id", .num (js "5077125051")), (js "payment_status", .str (js "finished")),
    (js "price_amount", .num (js "9.99")), (js "price_currency", .str (js "usd")),
    (js "order_id", .str (js "donation_1700000000"))]

/-! ## Verified notifications -/

/-- A verified POST notification: the method is POST, the signature header is
present and not empty, the body parses, and either no secret is configured
(verification is skipped) or the header equals the generated signature. -/
def verified (env : Env) (req : Request) : Bool :=
  req.method == js "POST" && truthy req.signature &&
    match req.body with
    | none => false
    | some body =>
      match env.IPN_SECRET with
      | some (c :: cs) => generatedSignature (c :: cs) body == req.signature
      | _ => true

/-- The trace of a verified notification when the payment is processed. -/
def verifiedTrace (env : Env) : List Event :=
  if truthy env.IPN_SECRET then parsedTrace else skippedTrace

/-! ## More example requests, and names used in the statements -/

/-- The table a record store call is made on. -/
def StoreOp.table : StoreOp → String
  | .update table _ _ _ => table
  | .upsert table _ _ => table

/-- The notification `{"payment_status":"Finished","order_id":"premium_42_999"}`,
whose status differs from `finished` in case only. -/
def capitalisedBody : Json :=
  .obj [(js "payment_status", .str (js "Finished")), (js "order_id", .str (js "premium_42_999"))]

/-- The notification `{"order_id":"premium_42_999"}`, without a status. -/
def statuslessBody : Json := .obj [(js "order_id", .str (js "premium_42_999"))]

/-- The notification `{"payment_status":1,"order_id":7}`, with a status that is not a string. -/
def numericStatusBody : Json :=
  .obj [(js "payment_status", .num (js "1")), (js "order_id", .num (js "7"))]

/-- A finished notification with the given order identifier. -/
def finishedBody (orderId : JSString) : Json :=
  .obj [(js "payment_status", .str (js "finished")), (js "order_id", .str orderId)]

/-- Whether a record store call is an `update`. -/
def StoreOp.isUpdate : StoreOp → Bool
  | .update _ _ _ _ => true
  | .upsert _ _ _ => false

/-- Whether a record store call is an `upsert`. -/
def StoreOp.isUpsert : StoreOp → Bool
  | .update _ _ _ _ => false
  | .upsert _ _ _ => true

/-! ## A record store with update-by-id and upsert-by-order_id -/

/-- Modelled from the spec: an account record of the external record store
(§3), identified by its account identifier, with the boolean premium flag. -/
structure Account where
  id : JSString
  is_premium : Bool

/-- Modelled from the spec: a donation record of the external record store
(§3), identified by its order identifier, with the payment identifier,
amount, currency and status. -/
structure Donation where
  order_id : JSString
  payment_id : JSValue
  amount : JSValue
  currency : JSValue
  status : JSValue

/-- Modelled from the spec: the state of the external record store, its
account records and its donation records. -/
structure Store where
  user_profiles : List Account
  donations : List Donation

/-- The column of that name in a record passed to `upsert`. -/
def column (record : List (String × JSValue)) (name : String) : JSValue :=
  match record with
  | [] => none
  | (c, v) :: rest => if c = name then v else column rest name

/-- Modelled from the spec: upsert by order_id (§3, create-or-replace keyed by
the order identifier): the records with the order identifier of the new
record are replaced by it; when there is none the new record is added. -/
def upsertRow (row : Donation) (rows : List Donation) : List Donation :=
  if rows.any (fun d => d.order_id == row.order_id) then
    rows.map (fun d => if d.order_id = row.order_id then row else d)
  else rows ++ [row]

/-- Modelled from the spec: the effect of a record store call on the store
(§6: update account by id, setting the premium flag; upsert donation by
order_id; both atomic).  An update of `user_profiles` sets the flag given
under `is_premium` on the accounts whose id matches, and matches none without
error when there is no such account; an upsert into `donations` with conflict
key `order_id` upserts the record.  Calls of another shape, which the handler
does not make, leave the store unchanged. -/
def Store.apply (s : Store) : StoreOp → Store
  | .update table values col value =>
    match table, values, col with
    | "user_profiles", [("is_premium", .bool flag)], "id" =>
      ⟨s.user_profiles.map (fun a => if a.id = value then ⟨a.id, flag⟩ else a), s.donations⟩
    | _, _, _ => s
  | .upsert table record onConflict =>
    match table, column record "order_id", onConflict with
    | "donations", some (.str orderId), "order_id" =>
      ⟨s.user_profiles, upsertRow
          ⟨orderId, column record "payment_id", column record "amount",
            column record "currency", column record "status"⟩ s.donations⟩
    | _, _, _ => s

/-- One delivery of a notification to the handler over the store `s`, which
accepts every write: the outcome, and the store after the calls of the trace. -/
def deliver (env : Env) (s : Store) (req : Request) : Outcome × Store :=
  (handler env storeOk req, (storeOps (handler env storeOk req).trace).foldl Store.apply s)

/-- A store with the account 42, not premium, and one earlier donation. -/
def exampleStore : Store :=
  ⟨[⟨js "42", false⟩, ⟨js "43", false⟩],
   [⟨js "donation_1600000000", some (.num (js "1")), some (.num (js "5")),
      some (.str (js "usd")), some (.str (js "finished"))⟩]⟩

/-! ## The feedback mail forwarder (`supabase/functions/send-feedback-email/index.ts`) -/

/-- Truthiness of a JSON value: `null`, `false`, the numbers 0 and NaN and the
empty string are falsy, every other value is truthy. -/
def Json.isTruthy : Json → Bool
  | .null => false
  | .bool b => b
  | .num text => text != js "0" && text != js "NaN"
  | .str s => !s.isEmpty
  | .arr _ => true
  | .obj _ => true

/-- Truthiness of a value that may be `undefined`. -/
def JSValue.isTruthy : JSValue → Bool
  | none => false
  | some v => v.isTruthy

/-- The value `a || b` for a default `b` that is a string. -/
def orElse (a : JSValue) (b : JSString) : Json :=
  match a with
  | some v => if v.isTruthy then v else .str b
  | none => .str b

namespace Feedback

/-- The environment variables the module reads when it is loaded.
`SUPABASE_URL` and `SUPABASE_SERVICE_ROLE_KEY` are asserted to be set by the
source, so `createClient` is taken to succeed. -/
structure Env where
  /-- Value of `Deno.env.get('RESEND_API_KEY')`. -/
  RESEND_API_KEY : Option JSString
  /-- Value of `Deno.env.get('ADMIN_EMAIL')`. -/
  ADMIN_EMAIL_VAR : Option JSString

/-- The constant `ADMIN_EMAIL`: the variable, or the default address when it
is unset or empty. -/
def ADMIN_EMAIL (env : Env) : JSString :=
  if truthy env.ADMIN_EMAIL_VAR then env.ADMIN_EMAIL_VAR.getD [] else js "pushinn.ltd@gmail.com"

/-- What the handler looks at in the request. -/
structure Request where
  /-- Value of `req.method`. -/
  method : JSString
  /-- Value of `await req.json()`, `none` when it rejects. -/
  payload : Option Json

/-- The request sent to `https://api.resend.com/emails`: the bearer token and
the values the body is built from.  The subject and the HTML are fixed
templates around `username`, `email`, `userId` and `feedbackHtml`. -/
structure Email where
  /-- The key in `Bearer ${RESEND_API_KEY}`. -/
  apiKey : JSString
  /-- The only recipient, `ADMIN_EMAIL`. -/
  recipient : JSString
  /-- The value interpolated as `${username}`. -/
  username : Json
  /-- The value interpolated as `${email}`. -/
  email : Json
  /-- The value of `user_id || 'untracked'`. -/
  userId : Json
  /-- The value of `feedback_text.replace(/\n/g, '<br/>')`. -/
  feedbackHtml : JSString

/-- What awaiting `fetch(…)` and then `resendResponse.json()` gives. -/
inductive SendResult where
  /-- The `fetch` promise rejects. -/
  | fetchRejected
  /-- The response arrives and `resendResponse.json()` rejects. -/
  | jsonRejected
  /-- The response arrives and its body parses to `result`. -/
  | result (result : Json)

/-- The exceptions that reach the `catch` block. -/
inductive Failure where
  /-- The promise `req.json()` rejects. -/
  | payload
  /-- The payload is `null`: `const { record } = payload` throws a TypeError. -/
  | destructure
  /-- The statement `throw new Error('No record found in payload')`. -/
  | noRecord
  /-- The value `feedback_text` is not a string: calling `replace` throws a TypeError. -/
  | replace
  /-- The promise `fetch(…)` rejects. -/
  | fetch
  /-- The promise `resendResponse.json()` rejects. -/
  | resultJson

/-- The collaborators of the handler: the profile table, the mail service, and
the texts of the exceptions the runtime raises. -/
structure World where
  /-- The `data` of `from('user_profiles').select('username, email').eq('id', user_id).single()`,
  `none` or `null` when there is no such row. -/
  profile : Json → JSValue
  /-- The outcome of the mail request. -/
  send : Email → SendResult
  /-- The `message` of an exception raised by the runtime. -/
  message : Failure → JSString

/-- The `err.message` seen by the `catch` block. -/
def message (world : World) : Failure → JSString
  | .noRecord => js "No record found in payload"
  | failure => world.message failure

/-- An effect of the handler, in the order performed. -/
inductive Event where
  /-- The read `await req.json()`. -/
  | json
  /-- The call `createClient(SUPABASE_URL!, SUPABASE_SERVICE_ROLE_KEY!)`. -/
  | createClient
  /-- The profile lookup `from('user_profiles').select('username, email').eq('id', user_id).single()`. -/
  | select (userId : Json)
  /-- The mail request `fetch('https://api.resend.com/emails', …)`. -/
  | fetch (email : Email)
  /-- The read `await resendResponse.json()`. -/
  | resultJson
  /-- A call of `console.error` or `console.log` with its first argument. -/
  | console (level : String) (message : JSString)

/-- A `new Response(body, { headers, status })`. -/
structure Response where
  body : JSString
  status : Nat
  /-- The `Content-Type` header, when one is given. -/
  contentType : Option String

/-- The response of one invocation and the effects it performed. -/
structure Outcome where
  response : Response
  trace : List Event

/-- The `catch` block: log, and answer 400 with `JSON.stringify({ error: err.message })`. -/
def caught (world : World) (failure : Failure) (trace : List Event) : Outcome :=
  ⟨⟨JSON.stringify (.obj [(js "error", .str (message world failure))]), 400,
      some "application/json"⟩,
    trace ++ [.console "error" (js "Email Transmission Error:")]⟩

/-- The call `feedback_text.replace(/\n/g, '<br/>')` on a string. -/
def replaceNewlines (text : JSString) : JSString :=
  text.flatMap (fun u => if u = 10 then js "<br/>" else [u])

/-- The part of the handler after the profile lookup, entered with the values
of `username` and `email` and the trace so far. -/
def transmit (env : Env) (world : World) (feedbackText userId : JSValue) (username email : Json)
    (trace : List Event) : Outcome :=
  match env.RESEND_API_KEY with
  | some (c :: cs) =>
    match feedbackText with
    | some (.str text) =>
      let mail : Email :=
        ⟨c :: cs, ADMIN_EMAIL env, username, email, orElse userId (js "untracked"),
          replaceNewlines text⟩
      match world.send mail with
      | .fetchRejected => caught world .fetch (trace ++ [.fetch mail])
      | .jsonRejected => caught world .resultJson (trace ++ [.fetch mail, .resultJson])
      | .result result =>
        ⟨⟨JSON.stringify result, 200, some "application/json"⟩,
          trace ++ [.fetch mail, .resultJson, .console "log" (js "Email transmit response:")]⟩
    | _ => caught world .replace trace
  | _ =>
    ⟨⟨js "Internal Server Error", 500, none⟩,
      trace ++ [.console "error" (js "RESEND_API_KEY is not set")]⟩

/-- The handler passed to `serve`. -/
def handler (env : Env) (world : World) (req : Request) : Outcome :=
  if req.method ≠ js "POST" then ⟨⟨js "Method Not Allowed", 405, none⟩, []⟩
  else
    match req.payload with
    | none => caught world .payload [.json]
    | some .null => caught world .destructure [.json]
    | some payload =>
      let record := payload.get (js "record")
      match record with
      | none => caught world .noRecord [.json]
      | some record =>
        if !record.isTruthy then caught world .noRecord [.json]
        else
          let feedbackText := record.get (js "feedback_text")
          let userId := record.get (js "user_id")
          match userId with
          | none =>
            transmit env world feedbackText userId (.str (js "Anonymous")) (.str (js "No Email"))
              [.json, .createClient]
          | some id =>
            if id.isTruthy then
              match world.profile id with
              | none =>
                transmit env world feedbackText userId (.str (js "Anonymous"))
                  (.str (js "No Email")) [.json, .createClient, .select id]
              | some profile =>
                if profile.isTruthy then
                  transmit env world feedbackText userId
                    (orElse (profile.get (js "username")) (js "Anonymous"))
                    (orElse (profile.get (js "email")) (js "No Email"))
                    [.json, .createClient, .select id]
                else
                  transmit env world feedbackText userId (.str (js "Anonymous"))
                    (.str (js "No Email")) [.json, .createClient, .select id]
            else
              transmit env world feedbackText userId (.str (js "Anonymous"))
                (.str (js "No Email")) [.json, .createClient]

/-- A world for examples: no profile is found, the mail service answers `{}`. -/
def quietWorld : World :=
  ⟨fun _ => none, fun _ => .result (.obj []), fun _ => js "error"⟩

end Feedback

/-! ## The typewriter effect (`web/script.js`, `initTypewriter`) -/

/-- The call `text.substring(0, stop)`: the code units before position `stop`,
a negative `stop` counting as 0 and one beyond the end as the length. -/
def substring (text : JSString) (stop : Int) : JSString := text.take stop.toNat

/-- The variables of `initTypewriter` and the text content of the elements
`titleLines`, which `typeWriter` reads and writes. -/
structure Typewriter where
  /-- The `textContent` of each `.title-line` element. -/
  titleLines : List JSString
  lineIndex : Nat
  charIndex : Int
  isDeleting : Bool
deriving DecidableEq

/-- The state when `initTypewriter` schedules the first call of `typeWriter`. -/
def initTypewriter (titleLines : List JSString) : Typewriter := ⟨titleLines, 0, 0, false⟩

/-- One call of `typeWriter`: the state after it, and the delay `typeSpeed` of
the timeout it sets, `none` when it returns without setting one. -/
def typeWriter (s : Typewriter) : Typewriter × Option Nat :=
  if s.lineIndex ≥ s.titleLines.length then (s, none)
  else
    let text := s.titleLines.getD s.lineIndex []
    let content := if s.isDeleting then substring text (s.charIndex - 1)
      else substring text (s.charIndex + 1)
    let charIndex := if s.isDeleting then s.charIndex - 1 else s.charIndex + 1
    let titleLines := s.titleLines.set s.lineIndex content
    if !s.isDeleting && charIndex == text.length then
      (⟨titleLines, s.lineIndex, charIndex, true⟩, some 2000)
    else if s.isDeleting && charIndex == 0 then
      (⟨titleLines, s.lineIndex + 1, charIndex, false⟩, some 500)
    else (⟨titleLines, s.lineIndex, charIndex, s.isDeleting⟩, some (if s.isDeleting then 50 else 100))

/-- The state after `n` calls of `typeWriter`, each made by the timeout of the
one before. -/
def ticks : Nat → Typewriter → Typewriter
  | 0, s => s
  | n + 1, s => ticks n (typeWriter s).1

/-- A finished notification whose `order_id` is the given value, or absent. -/
def finishedWith (orderId : JSValue) : Json :=
  match orderId with
  | none => .obj [(js "payment_status", .str (js "finished"))]
  | some v => .obj [(js "payment_status", .str (js "finished")), (js "order_id", v)]

/-- A world whose runtime words the TypeError of `const { record } = null` as
V8 does; no profile is found and the mail service answers `{}`. -/
def Feedback.v8World : Feedback.World :=
  ⟨fun _ => none, fun _ => .result (.obj []),
    fun failure => match failure with
      | .destructure =>
        js "Cannot destructure property \x27record\x27 of \x27payload\x27 as it is null."
      | _ => js "error"⟩

/-! ## Parsing JSON text

The function `JSON.parse` of ECMA-262 on a string of UTF-16 code units.  The
conversion of a number literal to the Number it denotes is floating point
arithmetic; it is a parameter `num`, which gives, for a literal, the text
`Number::toString` gives for that Number (the text a `Json.num` carries). -/

/-- JSON whitespace: space, tab, line feed, carriage return. -/
def isWhitespace (u : Nat) : Bool := u == 0x20 || u == 0x09 || u == 0x0A || u == 0x0D

/-- The text after its leading whitespace. -/
def skipWhitespace : JSString → JSString
  | [] => []
  | u :: s => if isWhitespace u then skipWhitespace s else u :: s

/-- Value of a hexadecimal digit, of either case. -/
def hexValue (u : Nat) : Option Nat :=
  if 48 ≤ u ∧ u ≤ 57 then some (u - 48)
  else if 97 ≤ u ∧ u ≤ 102 then some (u - 87)
  else if 65 ≤ u ∧ u ≤ 70 then some (u - 55)
  else none

/-- The code unit a two-character escape `\e` stands for. -/
def unescape (e : Nat) : Option Nat :=
  if e = 0x22 then some 0x22 else if e = 0x5C then some 0x5C else if e = 0x2F then some 0x2F
  else if e = 0x62 then some 0x08 else if e = 0x66 then some 0x0C else if e = 0x6E then some 0x0A
  else if e = 0x72 then some 0x0D else if e = 0x74 then some 0x09 else none

/-- A JSON string after its opening quote: its value and the text after the
closing quote; `none` for a syntax error (no closing quote, a control
character, an escape that does not exist). -/
def parseStringBody : JSString → Option (JSString × JSString)
  | [] => none
  | u :: s =>
    if u = 0x22 then some ([], s)
    else if u = 0x5C then
      match s with
      | [] => none
      | e :: s₁ =>
        if e = 0x75 then
          match s₁ with
          | a :: b :: c :: d :: s₂ =>
            match hexValue a, hexValue b, hexValue c, hexValue d with
            | some a, some b, some c, some d =>
              (parseStringBody s₂).map (fun p => ((a * 4096 + b * 256 + c * 16 + d) :: p.1, p.2))
            | _, _, _, _ => none
          | _ => none
        else
          match unescape e with
          | some x => (parseStringBody s₁).map (fun p => (x :: p.1, p.2))
          | none => none
    else if u < 0x20 then none
    else (parseStringBody s).map (fun p => (u :: p.1, p.2))

/-- The code units a JSON number literal is made of: digits, signs, the
decimal point and the exponent letters. -/
def isNumberChar (u : Nat) : Bool :=
  decide (48 ≤ u ∧ u ≤ 57) || u == 0x2B || u == 0x2D || u == 0x2E || u == 0x45 || u == 0x65

/-- A decimal digit. -/
def isDigit (u : Nat) : Bool := decide (48 ≤ u ∧ u ≤ 57)

/-- The exponent part of a number literal, or nothing. -/
def isExponent : JSString → Bool
  | [] => true
  | e :: r =>
    (e == 0x45 || e == 0x65) &&
      match r with
      | [] => false
      | sign :: digits =>
        if sign == 0x2B || sign == 0x2D then !digits.isEmpty && digits.all isDigit
        else (sign :: digits).all isDigit

/-- The fraction and exponent parts of a number literal, or nothing. -/
def isFractionExponent : JSString → Bool
  | 0x2E :: r => !(r.takeWhile isDigit).isEmpty && isExponent (r.dropWhile isDigit)
  | r => isExponent r

/-- The grammar of a JSON number literal: an optional minus sign, `0` or a
digit from 1 to 9 followed by digits, an optional fraction, an optional
exponent. -/
def isNumberLiteral (t : JSString) : Bool :=
  let unsigned := match t with
    | 0x2D :: r => r
    | r => r
  match unsigned with
  | [] => false
  | d :: r =>
    if d == 0x30 then isFractionExponent r
    else isDigit d && isFractionExponent (r.dropWhile isDigit)

/-- A number: the longest run of number characters must be a number literal. -/
def parseNumber (num : JSString → JSString) (s : JSString) : Option (Json × JSString) :=
  if isNumberLiteral (s.takeWhile isNumberChar) then
    some (.num (num (s.takeWhile isNumberChar)), s.dropWhile isNumberChar)
  else none

mutual
/-- A JSON value at the start of the text, after whitespace: the value and
the text after it.  The first argument bounds the depth of the calls. -/
def parseValue (num : JSString → JSString) : Nat → JSString → Option (Json × JSString)
  | 0, _ => none
  | n + 1, s =>
    match skipWhitespace s with
    | [] => none
    | c :: r =>
      if c = 0x22 then (parseStringBody r).map (fun p => (Json.str p.1, p.2))
      else if c = 0x5B then
        match skipWhitespace r with
        | [] => none
        | d :: r₁ =>
          if d = 0x5D then some (.arr [], r₁)
          else (parseElements num n r).map (fun p => (Json.arr p.1, p.2))
      else if c = 0x7B then
        match skipWhitespace r with
        | [] => none
        | d :: r₁ =>
          if d = 0x7D then some (.obj [], r₁)
          else (parseMembers num n r []).map (fun p => (Json.obj p.1, p.2))
      else if startsWith (c :: r) (js "true") then some (.bool true, r.drop 3)
      else if startsWith (c :: r) (js "false") then some (.bool false, r.drop 4)
      else if startsWith (c :: r) (js "null") then some (.null, r.drop 3)
      else parseNumber num (c :: r)
/-- The elements of an array up to and including the closing bracket. -/
def parseElements (num : JSString → JSString) : Nat → JSString → Option (List Json × JSString)
  | 0, _ => none
  | n + 1, s =>
    match parseValue num n s with
    | none => none
    | some (v, r) =>
      match skipWhitespace r with
      | [] => none
      | c :: r₁ =>
        if c = 0x2C then (parseElements num n r₁).map (fun p => (v :: p.1, p.2))
        else if c = 0x5D then some ([v], r₁)
        else none
/-- The members of an object up to and including the closing brace, added to
the properties `acc` created so far: a name that occurred before keeps its
place and takes the later value. -/
def parseMembers (num : JSString → JSString) :
    Nat → JSString → List (JSString × Json) → Option (List (JSString × Json) × JSString)
  | 0, _, _ => none
  | n + 1, s, acc =>
    match skipWhitespace s with
    | [] => none
    | q :: r =>
      if q = 0x22 then
        match parseStringBody r with
        | none => none
        | some (key, r₁) =>
          match skipWhitespace r₁ with
          | [] => none
          | colon :: r₂ =>
            if colon = 0x3A then
              match parseValue num n r₂ with
              | none => none
              | some (v, r₃) =>
                match skipWhitespace r₃ with
                | [] => none
                | c :: r₄ =>
                  if c = 0x2C then parseMembers num n r₄ (setProp acc key v)
                  else if c = 0x7D then some (setProp acc key v, r₄)
                  else none
            else none
      else none
end

/-- The call `JSON.parse(text)`: the value of the text, `none` when it throws a
SyntaxError.  The depth bound given to `parseValue` grows with the text. -/
def JSON.parse (num : JSString → JSString) (text : JSString) : Option Json :=
  match parseValue num (2 * text.length + 2) text with
  | none => none
  | some (v, rest) => if skipWhitespace rest = [] then some v else none

/-- The escape of one code unit in a JSON string, when it is not part of a
surrogate pair (the case distinction of `quoteUnits`). -/
def escapeUnit (u : Nat) : JSString :=
  if u = 0x08 then js "\\b" else if u = 0x09 then js "\\t" else if u = 0x0A then js "\\n"
  else if u = 0x0C then js "\\f" else if u = 0x0D then js "\\r"
  else if u = 0x22 then js "\\\"" else if u = 0x5C then js "\\\\"
  else if u < 0x20 ∨ (0xD800 ≤ u ∧ u < 0xE000) then js "\\u" ++ hex4 u
  else [u]

mutual
/-- What a value is after `JSON.parse(JSON.stringify(value))`: a number that
is not finite has become `null`, and the properties of every object are
created in the order `JSON.stringify` lists them, the own property order. -/
def Json.normalize : Json → Json
  | .null => .null
  | .bool b => .bool b
  | .num text =>
    if text = js "Infinity" ∨ text = js "-Infinity" ∨ text = js "NaN" then .null else .num text
  | .str s => .str s
  | .arr items => .arr (Json.normalizeItems items)
  | .obj props => .obj (ownPropertyOrder (Json.normalizeProps props))
/-- The elements of an array, each normalised. -/
def Json.normalizeItems : List Json → List Json
  | [] => []
  | v :: vs => Json.normalize v :: Json.normalizeItems vs
/-- The properties of an object, each value normalised. -/
def Json.normalizeProps : List (JSString × Json) → List (JSString × Json)
  | [] => []
  | (k, v) :: ps => (k, Json.normalize v) :: Json.normalizeProps ps
end

mutual
/-- Whether a value is one `JSON.parse` can give under the number conversion
`num`: no object has two properties of the same name, and the text of every
finite number is a JSON number literal that denotes that number. -/
def Json.wellFormed (num : JSString → JSString) : Json → Bool
  | .null => true
  | .bool _ => true
  | .num text =>
    (text == js "Infinity" || text == js "-Infinity" || text == js "NaN") ||
      (text.all isNumberChar && isNumberLiteral text && num text == text)
  | .str _ => true
  | .arr items => Json.wellFormedItems num items
  | .obj props => decide (props.map (fun e => e.1)).Nodup && Json.wellFormedProps num props
/-- Whether the elements of an array are well formed. -/
def Json.wellFormedItems (num : JSString → JSString) : List Json → Bool
  | [] => true
  | v :: vs => Json.wellFormed num v && Json.wellFormedItems num vs
/-- Whether the values of the properties of an object are well formed. -/
def Json.wellFormedProps (num : JSString → JSString) : List (JSString × Json) → Bool
  | [] => true
  | (_, v) :: ps => Json.wellFormed num v && Json.wellFormedProps num ps
end


/-! ## Bodies with a nested object -/

/-- The body `{"a":{"x":1,"y":2}}`. -/
def nestedBody : Json :=
  .obj [(js "a", .obj [(js "x", .num (js "1")), (js "y", .num (js "2"))])]

/-- The body `{"a":{"y":2,"x":1}}`: `nestedBody` with the keys of the nested
object in the other order. -/
def nestedBodySwapped : Json :=
  .obj [(js "a", .obj [(js "y", .num (js "2")), (js "x", .num (js "1"))])]

/-- The body `{"a":{"1":1,"2":2}}`, whose nested object has integer-like keys. -/
def nestedIndexBody : Json :=
  .obj [(js "a", .obj [(js "1", .num (js "1")), (js "2", .num (js "2"))])]

/-- The body `{"a":{"2":2,"1":1}}`: `nestedIndexBody` with the keys of the
nested object in the other order. -/
def nestedIndexBodySwapped : Json :=
  .obj [(js "a", .obj [(js "2", .num (js "2")), (js "1", .num (js "1"))])]

/-- HMAC-SHA-512 of the canonical string of `nestedBody` under the key
`topsecret`, in lowercase hex, as computed by an independent implementation. -/
def nestedSignature : JSString :=
  js ("c33de53999e7a26562fc5525dc42e86219af62f23d2ff3ae7ead0832b78b1164"
    ++ "e3570cbc72b96cc4cf90269233aaea26c92d4a24df78c3f65818eb00acb4c3af")

/-- HMAC-SHA-512 of the canonical string of `nestedBodySwapped` under the key
`topsecret`, in lowercase hex, as computed by an independent implementation. -/
def nestedSwappedSignature : JSString :=
  js ("3e0e40b0bbe2cf1e3e7143f26b557338412cfb5a7cb8db98eec06b8393a5fa1c"
    ++ "b5d6447b5d69b4762a51cda39bc20572b81ca323543fc661c746016a7857a896")
/-! # Theorems -/

/-! ## Auxiliary facts -/

theorem SHA512.blocks_length (n : Nat) (h bs : List Nat) (hh : h.length = 8) :
    (SHA512.blocks n h bs).length = 8 := by
  induction n generalizing h bs with
  | zero => simpa [SHA512.blocks] using hh
  | succ n ih => exact ih _ _ (by simp [SHA512.compress])

theorem SHA512.beBytes_length (n x : Nat) : (SHA512.beBytes n x).length = n := by
  induction n with
  | zero => rfl
  | succ n ih => simp [SHA512.beBytes, ih]

theorem flatMap_length_const {α β : Type} (f : α → List β) (c : Nat) (hf : ∀ a, (f a).length = c)
    (l : List α) : (l.flatMap f).length = c * l.length := by
  induction l with
  | nil => simp
  | cons a l ih => simp [List.flatMap_cons, hf, ih, Nat.mul_succ, Nat.add_comm]

theorem SHA512.hash_length (msg : List Nat) : (SHA512.hash msg).length = 64 := by
  unfold SHA512.hash
  rw [flatMap_length_const _ 8 (SHA512.beBytes_length 8), SHA512.blocks_length _ _ _ (by decide)]

theorem hmacSha512_length (key msg : List Nat) : (hmacSha512 key msg).length = 64 := by
  simp only [hmacSha512, SHA512.hash_length]

theorem encode_length (bytes : List Nat) : (encode bytes).length = 2 * bytes.length := by
  unfold encode
  exact flatMap_length_const _ 2 (by intro b; rfl) bytes

/-- The generated signature always has 128 code units. -/
theorem generatedSignature_length {secret : JSString} {body : Json} {g : JSString}
    (h : generatedSignature secret body = some g) : g.length = 128 := by
  unfold generatedSignature at h
  cases hs : sortedBodyString body with
  | none => simp [hs] at h
  | some s =>
    simp only [hs, Option.map_some', Option.some.injEq] at h
    subst h
    simp [TextDecoder.decode, encode_length, hmacSha512_length]

/-- Processing a payment never answers 401 or 405. -/
theorem processPayment_status (store : StoreOp → Bool) (body : Json) (trace : List Event) :
    (processPayment store body trace).response.status = 200 ∨
    (processPayment store body trace).response.status = 400 ∨
    (processPayment store body trace).response.status = 500 := by
  unfold processPayment
  repeat' split
  all_goals try dsimp only
  all_goals try split_ifs
  all_goals simp [ok, caught]

/-! ## The paths through the handler -/

theorem handler_not_post (env : Env) (store : StoreOp → Bool) (req : Request)
    (hm : req.method ≠ js "POST") :
    handler env store req = ⟨⟨"Method Not Allowed", 405⟩, []⟩ := by
  simp [handler, hm]

theorem handler_missing (env : Env) (store : StoreOp → Bool) (req : Request)
    (hm : req.method = js "POST") (hsig : truthy req.signature = false) :
    handler env store req = missingSignature := by
  unfold handler
  rw [if_neg (by simp [hm])]
  cases h : req.signature with
  | none => rfl
  | some sig =>
    cases sig with
    | nil => rfl
    | cons u us => simp [h, truthy] at hsig

theorem handler_unparsed (env : Env) (store : StoreOp → Bool) (req : Request)
    (hm : req.method = js "POST") (hsig : truthy req.signature = true) (hb : req.body = none) :
    handler env store req = caught parsedTrace := by
  unfold handler
  rw [if_neg (by simp [hm])]
  cases h : req.signature with
  | none => simp [h, truthy] at hsig
  | some sig =>
    cases sig with
    | nil => simp [h, truthy] at hsig
    | cons u us => simp [hb, parsedTrace]

theorem handler_skipped (env : Env) (store : StoreOp → Bool) (req : Request) (body : Json)
    (hm : req.method = js "POST") (hsig : truthy req.signature = true)
    (hb : req.body = some body) (hs : truthy env.IPN_SECRET = false) :
    handler env store req = processPayment store body skippedTrace := by
  unfold handler
  rw [if_neg (by simp [hm])]
  cases h : req.signature with
  | none => simp [h, truthy] at hsig
  | some sig =>
    cases sig with
    | nil => simp [h, truthy] at hsig
    | cons u us =>
      cases h2 : env.IPN_SECRET with
      | none => simp [hb, skippedTrace]
      | some secret =>
        cases secret with
        | nil => simp [hb, skippedTrace]
        | cons c cs => simp [h2, truthy] at hs

theorem handler_checked (env : Env) (store : StoreOp → Bool) (req : Request) (body : Json)
    (secret sig : JSString)
    (hm : req.method = js "POST") (hsig : req.signature = some sig) (hne : sig ≠ [])
    (hb : req.body = some body) (hs : env.IPN_SECRET = some secret) (hsne : secret ≠ []) :
    handler env store req =
      match generatedSignature secret body with
      | none => caught parsedTrace
      | some generated =>
        if generated ≠ sig then invalidSignature else processPayment store body parsedTrace := by
  unfold handler
  rw [if_neg (by simp [hm])]
  cases sig with
  | nil => exact absurd rfl hne
  | cons u us =>
    cases secret with
    | nil => exact absurd rfl hsne
    | cons c cs => simp only [hsig, hb, hs, parsedTrace, invalidSignature]

theorem storeOps_caught (trace : List Event) (h : storeOps trace = []) :
    storeOps (caught trace).trace = [] := by
  induction trace with
  | nil => rfl
  | cons e es ih =>
    cases e <;> simp_all [caught, storeOps]

set_option maxRecDepth 100000 in
/-- The signature the handler generates for `premiumBody` under `topsecret`. -/
theorem premiumSignature_generated :
    generatedSignature (js "topsecret") premiumBody = some premiumSignature := by
  decide

/-! ## Signature verification (C1 to C5) -/

/-- C1: for a POST request with a configured (non-empty) secret, a present
signature header and a body that parses to a JSON object, the canonical string
exists, and the request passes verification (is not answered 401) exactly when
the header equals the lowercase hex encoding of the HMAC-SHA-512 of the
canonical string under the secret; when they differ the response is 401
Unauthorized. -/
theorem C1_verification_passes_iff_header_is_hmac_hex
    (env : Env) (store : StoreOp → Bool) (req : Request) (secret sig : JSString)
    (props : List (JSString × Json))
    (hm : req.method = js "POST") (hs : env.IPN_SECRET = some secret) (hsne : secret ≠ [])
    (hsig : req.signature = some sig) (hb : req.body = some (.obj props)) :
    ∃ canonical expected : JSString,
      sortedBodyString (.obj props) = some canonical ∧
      expected = TextDecoder.decode
        (encode (hmacSha512 (TextEncoder.encode secret) (TextEncoder.encode canonical))) ∧
      ((handler env store req).response.status ≠ 401 ↔ sig = expected) ∧
      (sig = expected → handler env store req = processPayment store (.obj props) parsedTrace) ∧
      (sig ≠ expected → (handler env store req).response = ⟨"Unauthorized", 401⟩) := by
  obtain ⟨canonical, hc⟩ : ∃ c, sortedBodyString (.obj props) = some c := ⟨_, rfl⟩
  have hg : generatedSignature secret (.obj props) = some (TextDecoder.decode
      (encode (hmacSha512 (TextEncoder.encode secret) (TextEncoder.encode canonical)))) := by
    simp [generatedSignature, hc]
  refine ⟨canonical, _, hc, rfl, ?_⟩
  generalize TextDecoder.decode
      (encode (hmacSha512 (TextEncoder.encode secret) (TextEncoder.encode canonical))) = expected
    at hg
  have hlen := generatedSignature_length hg
  by_cases hnil : sig = []
  · subst hnil
    have h401 : handler env store req = missingSignature :=
      handler_missing env store req hm (by simp [hsig, truthy])
    have hne : ([] : JSString) ≠ expected := by
      intro h
      rw [← h] at hlen
      simp at hlen
    refine ⟨?_, fun h => absurd h hne, fun _ => ?_⟩
    · simp [h401, missingSignature, hne]
    · simp [h401, missingSignature]
  · have h := handler_checked env store req (.obj props) secret sig hm hsig hnil hb hs hsne
    rw [hg] at h
    simp only [ne_eq] at h
    by_cases heq : sig = expected
    · rw [if_neg (by simp [← heq])] at h
      refine ⟨?_, fun _ => h, fun hne => absurd heq hne⟩
      rw [h]
      have := processPayment_status store (.obj props) parsedTrace
      constructor
      · intro _; exact heq
      · intro _; omega
    · rw [if_pos (by intro h2; exact heq h2.symm)] at h
      refine ⟨?_, fun he => absurd he heq, fun _ => by simp [h, invalidSignature]⟩
      simp [h, invalidSignature, heq]

/-- Witness for C1: the request `premiumBody` signed under `topsecret` passes
verification. -/
theorem C1_witness :
    ∃ canonical expected : JSString,
      sortedBodyString premiumBody = some canonical ∧
      expected = TextDecoder.decode
        (encode (hmacSha512 (TextEncoder.encode (js "topsecret")) (TextEncoder.encode canonical))) ∧
      ((handler ⟨some (js "topsecret")⟩ storeOk
          ⟨js "POST", some premiumSignature, some premiumBody⟩).response.status ≠ 401
        ↔ premiumSignature = expected) ∧
      (premiumSignature = expected →
        handler ⟨some (js "topsecret")⟩ storeOk ⟨js "POST", some premiumSignature, some premiumBody⟩
          = processPayment storeOk premiumBody parsedTrace) ∧
      (premiumSignature ≠ expected →
        (handler ⟨some (js "topsecret")⟩ storeOk
          ⟨js "POST", some premiumSignature, some premiumBody⟩).response = ⟨"Unauthorized", 401⟩) :=
  C1_verification_passes_iff_header_is_hmac_hex ⟨some (js "topsecret")⟩ storeOk
    ⟨js "POST", some premiumSignature, some premiumBody⟩ (js "topsecret") premiumSignature _
    rfl rfl (by decide) rfl rfl

/-- C2: a POST request whose signature check fails while a secret is
configured (the header is missing or empty, or it differs from the generated
digest in any way) is answered 401 and issues no record store operation. -/
theorem C2_failed_check_is_401_and_no_store_operation
    (env : Env) (store : StoreOp → Bool) (req : Request) (secret : JSString)
    (hm : req.method = js "POST") (hs : env.IPN_SECRET = some secret) (hsne : secret ≠ [])
    (hfail : truthy req.signature = false ∨
      ∃ sig body generated, req.signature = some sig ∧ req.body = some body ∧
        generatedSignature secret body = some generated ∧ sig ≠ generated) :
    (handler env store req).response = ⟨"Unauthorized", 401⟩ ∧
      storeOps (handler env store req).trace = [] := by
  rcases hfail with hmiss | ⟨sig, body, generated, hsig, hb, hg, hne⟩
  · rw [handler_missing env store req hm hmiss]
    exact ⟨rfl, rfl⟩
  · by_cases hnil : sig = []
    · rw [handler_missing env store req hm (by simp [hsig, hnil, truthy])]
      exact ⟨rfl, rfl⟩
    · rw [handler_checked env store req body secret sig hm hsig hnil hb hs hsne, hg]
      simp only [ne_eq]
      rw [if_pos (fun h => hne h.symm)]
      exact ⟨rfl, rfl⟩

/-- Witness for C2: the digest of `premiumBody` with one hex digit changed is
rejected, also over a store that would fail. -/
theorem C2_witness :
    (handler ⟨some (js "topsecret")⟩ storeFailing
        ⟨js "POST", some flippedSignature, some premiumBody⟩).response = ⟨"Unauthorized", 401⟩ ∧
      storeOps (handler ⟨some (js "topsecret")⟩ storeFailing
        ⟨js "POST", some flippedSignature, some premiumBody⟩).trace = [] :=
  C2_failed_check_is_401_and_no_store_operation ⟨some (js "topsecret")⟩ storeFailing
    ⟨js "POST", some flippedSignature, some premiumBody⟩ (js "topsecret") rfl rfl (by decide)
    (Or.inr ⟨flippedSignature, premiumBody, premiumSignature, rfl, rfl,
      premiumSignature_generated, by decide⟩)

/-- Counterexample to C3: with no secret configured, a POST request without the
signature header and with body `{"payment_status":"waiting"}` is answered 401,
not 200. -/
theorem C3_counterexample :
    (⟨none⟩ : Env).IPN_SECRET = none ∧
    (⟨js "POST", none, some waitingBody⟩ : Request).signature = none ∧
    (handler ⟨none⟩ storeOk ⟨js "POST", none, some waitingBody⟩).response
      = ⟨"Unauthorized", 401⟩ := by
  decide

/-- C3 (amended): when no secret is configured (unset or empty), the handler
still requires the signature header: a POST request without it (or with an
empty one) is answered 401 before the body is read.  When the header is
present and not empty its value is not checked and the request is processed
normally; for example a JSON object body with payment_status "waiting" is
answered 200 and issues no record store operation. -/
theorem C3_header_required_but_not_checked_without_secret
    (env : Env) (store : StoreOp → Bool) (req : Request)
    (hm : req.method = js "POST") (hs : truthy env.IPN_SECRET = false) :
    (truthy req.signature = false → handler env store req = missingSignature) ∧
    (∀ body, truthy req.signature = true → req.body = some body →
      handler env store req = processPayment store body skippedTrace) ∧
    (∀ props, truthy req.signature = true → req.body = some (.obj props) →
      lookup (js "payment_status") props = some (.str (js "waiting")) →
      (handler env store req).response = ⟨"OK", 200⟩ ∧
        storeOps (handler env store req).trace = []) := by
  refine ⟨fun h => handler_missing env store req hm h,
    fun body h hb => handler_skipped env store req body hm h hb hs, fun props h hb hw => ?_⟩
  rw [handler_skipped env store req (.obj props) hm h hb hs]
  have hne : strictEquals (some (Json.str (js "waiting"))) (js "finished") = false := by decide
  simp only [processPayment, getProp, Json.get, hw, hne]
  exact ⟨rfl, rfl⟩

/-- Witness for C3 (amended): with no secret, the waiting notification is
refused without a header and acknowledged with an arbitrary header. -/
theorem C3_witness :
    handler ⟨none⟩ storeOk ⟨js "POST", none, some waitingBody⟩ = missingSignature ∧
    (handler ⟨none⟩ storeOk ⟨js "POST", some (js "anything"), some waitingBody⟩).response
      = ⟨"OK", 200⟩ ∧
    storeOps (handler ⟨none⟩ storeOk ⟨js "POST", some (js "anything"), some waitingBody⟩).trace
      = [] :=
  ⟨(C3_header_required_but_not_checked_without_secret ⟨none⟩ storeOk
      ⟨js "POST", none, some waitingBody⟩ rfl rfl).1 rfl,
   (C3_header_required_but_not_checked_without_secret ⟨none⟩ storeOk
      ⟨js "POST", some (js "anything"), some waitingBody⟩ rfl rfl).2.2 _ rfl rfl rfl⟩

/-- Counterexample to C4: a POST request whose body does not parse as JSON and
that carries no signature header is answered 401, not 400, whether or not a
secret is configured. -/
theorem C4_counterexample :
    (⟨js "POST", none, none⟩ : Request).body = none ∧
    (handler ⟨none⟩ storeOk ⟨js "POST", none, none⟩).response = ⟨"Unauthorized", 401⟩ ∧
    (handler ⟨some (js "topsecret")⟩ storeOk ⟨js "POST", none, none⟩).response
      = ⟨"Unauthorized", 401⟩ :=
  ⟨rfl, by decide, by decide⟩

/-- C4 (amended): a POST request that carries a non-empty signature header and
whose body text does not parse as JSON is answered 400 and issues no record
store operation, whatever the header's value and whether or not a secret is
configured. -/
theorem C4_unparsable_body_with_header_is_400
    (env : Env) (store : StoreOp → Bool) (req : Request)
    (hm : req.method = js "POST") (hsig : truthy req.signature = true) (hb : req.body = none) :
    (handler env store req).response = ⟨"Bad Request", 400⟩ ∧
      storeOps (handler env store req).trace = [] := by
  rw [handler_unparsed env store req hm hsig hb]
  exact ⟨rfl, rfl⟩

/-- Witness for C4 (amended), with a secret configured and a failing store. -/
theorem C4_witness :
    (handler ⟨some (js "topsecret")⟩ storeFailing
        ⟨js "POST", some premiumSignature, none⟩).response = ⟨"Bad Request", 400⟩ ∧
      storeOps (handler ⟨some (js "topsecret")⟩ storeFailing
        ⟨js "POST", some premiumSignature, none⟩).trace = [] :=
  C4_unparsable_body_with_header_is_400 ⟨some (js "topsecret")⟩ storeFailing
    ⟨js "POST", some premiumSignature, none⟩ rfl (by decide) rfl

/-- C5: a request whose method is not POST is answered 405 Method Not Allowed
with an empty trace: the signature header is not read, the body is neither
read nor parsed, and no record store operation is issued, whatever the
headers, the body, the secret and the store. -/
theorem C5_non_post_is_405_before_anything_else
    (env : Env) (store : StoreOp → Bool) (req : Request) (hm : req.method ≠ js "POST") :
    (handler env store req).response = ⟨"Method Not Allowed", 405⟩ ∧
      (handler env store req).trace = [] ∧
      storeOps (handler env store req).trace = [] := by
  rw [handler_not_post env store req hm]
  exact ⟨rfl, rfl, rfl⟩

/-- Witness for C5: a GET request that carries a valid signature and body. -/
theorem C5_witness :
    (handler ⟨some (js "topsecret")⟩ storeOk
        ⟨js "GET", some premiumSignature, some premiumBody⟩).response
      = ⟨"Method Not Allowed", 405⟩ ∧
    (handler ⟨some (js "topsecret")⟩ storeOk
        ⟨js "GET", some premiumSignature, some premiumBody⟩).trace = [] ∧
    storeOps (handler ⟨some (js "topsecret")⟩ storeOk
        ⟨js "GET", some premiumSignature, some premiumBody⟩).trace = [] :=
  C5_non_post_is_405_before_anything_else ⟨some (js "topsecret")⟩ storeOk
    ⟨js "GET", some premiumSignature, some premiumBody⟩ (by decide)

/-! ## The order of keys -/

theorem strLt_asymm : ∀ a b : JSString, strLt a b = true → strLt b a = false
  | [], [] => by simp [strLt]
  | [], _ :: _ => by simp [strLt]
  | _ :: _, [] => by simp [strLt]
  | x :: xs, y :: ys => by
    have ih := strLt_asymm xs ys
    simp only [strLt]
    split_ifs <;> first | omega | simp_all

theorem strLe_antisymm : ∀ a b : JSString, strLe a b → strLe b a → a = b
  | [], [] => by simp
  | [], _ :: _ => by simp [strLe, strLt]
  | _ :: _, [] => by simp [strLe, strLt]
  | x :: xs, y :: ys => by
    have ih := strLe_antisymm xs ys
    simp only [strLe, strLt] at ih ⊢
    split_ifs <;> first | omega | simp_all
    intro h1 h2
    exact ⟨by omega, ih h1 h2⟩

theorem strLe_trans : ∀ a b c : JSString, strLe a b → strLe b c → strLe a c
  | [], _, [] => by simp [strLe, strLt]
  | [], _, _ :: _ => by simp [strLe, strLt]
  | _ :: _, [], _ => by simp [strLe, strLt]
  | _ :: _, _ :: _, [] => by simp [strLe, strLt]
  | x :: xs, y :: ys, z :: zs => by
    have ih := strLe_trans xs ys zs
    simp only [strLe, strLt] at ih ⊢
    split_ifs <;> first | omega | simp_all

instance strLe.isTotal : IsTotal JSString strLe :=
  ⟨fun a b => by
    cases h : strLt b a with
    | false => exact Or.inl h
    | true => exact Or.inr (strLt_asymm b a h)⟩

instance strLe.isTrans : IsTrans JSString strLe := ⟨strLe_trans⟩

instance strLe.isAntisymm : IsAntisymm JSString strLe := ⟨strLe_antisymm⟩

/-- Sorting gives the same array for every arrangement of the same keys. -/
theorem sort_eq_of_perm {ks₁ ks₂ : List JSString} (h : ks₁.Perm ks₂) : sort ks₁ = sort ks₂ :=
  List.eq_of_perm_of_sorted
    (((List.perm_insertionSort strLe ks₁).trans h).trans (List.perm_insertionSort strLe ks₂).symm)
    (List.sorted_insertionSort strLe ks₁) (List.sorted_insertionSort strLe ks₂)

/-- The own property order is an arrangement of the properties. -/
theorem ownPropertyOrder_perm {α : Type} (entries : List (JSString × α)) :
    (ownPropertyOrder entries).Perm entries := by
  unfold ownPropertyOrder
  have h1 : (((entries.filterMap (fun e => (arrayIndex e.1).map (fun i => (i, e)))).insertionSort
      (fun a b => a.1 ≤ b.1)).map (fun p => p.2)).Perm
      (entries.filter (fun e => (arrayIndex e.1).isSome)) := by
    refine ((List.perm_insertionSort _ _).map _).trans (List.Perm.of_eq ?_)
    induction entries with
    | nil => rfl
    | cons e es ih =>
      cases h : arrayIndex e.1 <;> simp [List.filterMap_cons, List.filter_cons, h, ih]
  have h2 : (fun e : JSString × α => (arrayIndex e.1).isNone)
      = (fun e => !(arrayIndex e.1).isSome) := by
    funext e; cases arrayIndex e.1 <;> rfl
  rw [h2]
  exact (h1.append_right _).trans (List.filter_append_perm _ _)

/-- The value found under a key does not depend on the arrangement of the
properties when no key occurs twice. -/
theorem lookup_eq_of_perm {ps₁ ps₂ : List (JSString × Json)} (h : ps₁.Perm ps₂)
    (hnd : (ps₁.map (fun e => e.1)).Nodup) (key : JSString) : lookup key ps₁ = lookup key ps₂ := by
  induction h with
  | nil => rfl
  | cons e _ ih =>
    obtain ⟨k, v⟩ := e
    simp only [List.map_cons, List.nodup_cons] at hnd
    simp only [lookup, ih hnd.2]
  | swap e₁ e₂ l =>
    obtain ⟨k₁, v₁⟩ := e₁
    obtain ⟨k₂, v₂⟩ := e₂
    simp only [List.map_cons, List.nodup_cons, List.mem_cons] at hnd
    simp only [lookup]
    split_ifs with h1 h2 <;> first | rfl | (exfalso; apply hnd.1; left; rw [h1, h2])
  | trans h₁ _ ih₁ ih₂ =>
    exact (ih₁ hnd).trans (ih₂ ((h₁.map _).nodup_iff.mp hnd))

/-- A verified notification goes on to the payment processing. -/
theorem handler_verified (env : Env) (store : StoreOp → Bool) (req : Request) (body : Json)
    (hv : verified env req = true) (hb : req.body = some body) :
    handler env store req = processPayment store body (verifiedTrace env) := by
  simp only [verified, hb, Bool.and_eq_true, beq_iff_eq] at hv
  obtain ⟨⟨hm, hsig⟩, hv⟩ := hv
  cases hs : env.IPN_SECRET with
  | none =>
    rw [handler_skipped env store req body hm hsig hb (by simp [hs, truthy])]
    simp [verifiedTrace, hs, truthy]
  | some secret =>
    cases secret with
    | nil =>
      rw [handler_skipped env store req body hm hsig hb (by simp [hs, truthy])]
      simp [verifiedTrace, hs, truthy]
    | cons c cs =>
      simp only [hs, beq_iff_eq] at hv
      cases hsg : req.signature with
      | none => simp [hsg, truthy] at hsig
      | some sig =>
        have hne : sig ≠ [] := by
          rintro rfl
          simp [hsg, truthy] at hsig
        rw [handler_checked env store req body (c :: cs) sig hm hsg hne hb hs (by simp), hv, hsg]
        simp [verifiedTrace, hs, truthy]

/-- The record store calls of a trace followed by more events. -/
theorem storeOps_append (t₁ t₂ : List Event) : storeOps (t₁ ++ t₂) = storeOps t₁ ++ storeOps t₂ := by
  induction t₁ with
  | nil => rfl
  | cons e es ih => cases e <;> simp [storeOps, ih]

/-- No record store call precedes the payment processing. -/
theorem storeOps_verifiedTrace (env : Env) : storeOps (verifiedTrace env) = [] := by
  unfold verifiedTrace
  split <;> rfl

theorem startsWith_iff (s p : JSString) : startsWith s p = true ↔ ∃ r, s = p ++ r := by
  induction p generalizing s with
  | nil => cases s <;> simp [startsWith]
  | cons c cs ih =>
    cases s with
    | nil => simp [startsWith]
    | cons d ds =>
      simp only [startsWith, Bool.and_eq_true, beq_iff_eq, ih, List.cons_append, List.cons.injEq]
      constructor
      · rintro ⟨rfl, r, rfl⟩; exact ⟨r, rfl, rfl⟩
      · rintro ⟨r, rfl, rfl⟩; exact ⟨rfl, r, rfl⟩

/-- The segments of an order identifier that starts with `premium_`: the first
is `premium`, the others are the segments of what follows the underscore. -/
theorem split_premium (r : JSString) :
    split (js "premium_" ++ r) 95 = js "premium" :: split r 95 := by
  have h : js "premium_" = [112, 114, 101, 109, 105, 117, 109, 95] := by decide
  have h2 : js "premium" = [112, 114, 101, 109, 105, 117, 109] := by decide
  rw [h, h2]
  simp [split, splitAux]

theorem splitAux_ne_nil (sep : Nat) (s cur : JSString) : splitAux sep s cur ≠ [] := by
  induction s generalizing cur with
  | nil => simp [splitAux]
  | cons c s ih =>
    simp only [splitAux]
    split_ifs
    · simp
    · exact ih _

/-! ## The canonical string (C6 to C8) -/

/-- C6, at the failing input `{"10":1,"9":2}`: the sorted keys are `10`, `9`
(ascending code unit order), but the canonical string lists `9` before `10`,
because a fresh object enumerates array-index keys in numeric order whatever
the order they were assigned in. -/
theorem C6_integer_like_keys_are_listed_in_numeric_order :
    (Object.keys integerKeysBody).map sort = some [js "10", js "9"] ∧
    strLt (js "10") (js "9") = true ∧
    sortedBodyString integerKeysBody = some (js "\x7b\"9\":2,\"10\":1\x7d") := by
  decide

/-- Processing depends on the body through its property reads only. -/
theorem processPayment_congr (store : StoreOp → Bool) (ps₁ ps₂ : List (JSString × Json))
    (trace : List Event) (h : ∀ key, lookup key ps₁ = lookup key ps₂) :
    processPayment store (.obj ps₁) trace = processPayment store (.obj ps₂) trace := by
  simp only [processPayment, getProp, Json.get, h]

/-- The canonical string depends on the set of properties only. -/
theorem sortedBodyString_eq_of_perm {ps₁ ps₂ : List (JSString × Json)} (hperm : ps₁.Perm ps₂)
    (hnd : (ps₁.map (fun e => e.1)).Nodup) :
    sortedBodyString (.obj ps₁) = sortedBodyString (.obj ps₂) := by
  have hkeys : sort ((ownPropertyOrder ps₁).map (fun e => e.1))
      = sort ((ownPropertyOrder ps₂).map (fun e => e.1)) :=
    sort_eq_of_perm ((((ownPropertyOrder_perm ps₁).trans hperm).trans
      (ownPropertyOrder_perm ps₂).symm).map _)
  have hcopy : copyKey (.obj ps₁) = copyKey (.obj ps₂) := by
    funext acc key
    simp only [copyKey, Json.get, lookup_eq_of_perm hperm hnd]
  simp only [sortedBodyString, Object.keys, Option.map_some', sortedBody, hkeys, hcopy]

/-- C7: two object bodies with the same top-level key/value pairs in a
different order (no key twice, as in every parsed object) have the same
canonical string, hence the same generated signature under every secret, and
the handler gives the same outcome for both on every request that differs in
the body only: a signature header accepted for one is accepted for the other. -/
theorem C7_canonical_string_is_order_independent
    (props₁ props₂ : List (JSString × Json)) (hperm : props₁.Perm props₂)
    (hnd : (props₁.map (fun e => e.1)).Nodup) :
    sortedBodyString (.obj props₁) = sortedBodyString (.obj props₂) ∧
    (∀ secret, generatedSignature secret (.obj props₁) = generatedSignature secret (.obj props₂)) ∧
    (∀ env store method signature,
      handler env store ⟨method, signature, some (.obj props₁)⟩
        = handler env store ⟨method, signature, some (.obj props₂)⟩) := by
  have hs := sortedBodyString_eq_of_perm hperm hnd
  have hg : ∀ secret,
      generatedSignature secret (.obj props₁) = generatedSignature secret (.obj props₂) := by
    intro secret
    simp only [generatedSignature, hs]
  refine ⟨hs, hg, fun env store method signature => ?_⟩
  simp only [handler, hg,
    processPayment_congr store props₁ props₂ _ (lookup_eq_of_perm hperm hnd)]

/-- Witness for C7: `premiumBody` and the same notification with its keys
swapped; the signature of the one is accepted for the other. -/
theorem C7_witness :
    sortedBodyString premiumBody = sortedBodyString premiumBodySwapped ∧
    (∀ secret, generatedSignature secret premiumBody
      = generatedSignature secret premiumBodySwapped) ∧
    (∀ env store method signature,
      handler env store ⟨method, signature, some premiumBody⟩
        = handler env store ⟨method, signature, some premiumBodySwapped⟩) :=
  C7_canonical_string_is_order_independent _ _ (List.Perm.swap _ _ _) (by decide)

set_option maxRecDepth 100000 in
/-- Test case 2 of RFC 4231 for HMAC-SHA-512: key `Jefe`, data
`what do ya want for nothing?`. -/
theorem hmacSha512_rfc4231_case2 :
    encode (hmacSha512 (TextEncoder.encode (js "Jefe"))
      (TextEncoder.encode (js "what do ya want for nothing?")))
    = js ("164b7a7bfcf819e2e395fbe73b56e0a387bd64222e831fd610270cd7ea250554"
      ++ "9758bf75c05a994a6d034f65f8f0e6fdcaeab1a34d4a6b4b636e070a38bce737") := by
  decide

set_option maxRecDepth 100000 in
/-- C8: for secret `topsecret` and the body
`{"payment_status":"finished","order_id":"premium_42_999"}` the canonical
string is `{"order_id":"premium_42_999","payment_status":"finished"}`, and the
generated signature is the hex encoding of the HMAC-SHA-512 of the UTF-8 bytes
of that string under the UTF-8 bytes of the secret; it equals the digest an
independent implementation gives (`premiumSignature`), which has 128 characters,
all of them lowercase hex digits. -/
theorem C8_example_canonical_string_and_signature :
    sortedBodyString premiumBody
      = some (js "\x7b\"order_id\":\"premium_42_999\",\"payment_status\":\"finished\"\x7d") ∧
    generatedSignature (js "topsecret") premiumBody
      = some (TextDecoder.decode (encode (hmacSha512 (TextEncoder.encode (js "topsecret"))
          (TextEncoder.encode
            (js "\x7b\"order_id\":\"premium_42_999\",\"payment_status\":\"finished\"\x7d"))))) ∧
    TextEncoder.encode (js "topsecret") = [116, 111, 112, 115, 101, 99, 114, 101, 116] ∧
    generatedSignature (js "topsecret") premiumBody = some premiumSignature ∧
    premiumSignature.length = 128 ∧
    premiumSignature.all (fun u => decide ((48 ≤ u ∧ u ≤ 57) ∨ (97 ≤ u ∧ u ≤ 102))) = true := by
  have hc : sortedBodyString premiumBody
      = some (js "\x7b\"order_id\":\"premium_42_999\",\"payment_status\":\"finished\"\x7d") := by
    decide
  refine ⟨hc, ?_, by decide, premiumSignature_generated, by decide, by decide⟩
  simp only [generatedSignature, hc, Option.map_some']

/-! ## The canonical string of an object without array-index keys -/

/-- Without array-index keys the own property order is the creation order. -/
theorem ownPropertyOrder_of_plain {α : Type} (entries : List (JSString × α))
    (h : ∀ e ∈ entries, arrayIndex e.1 = none) : ownPropertyOrder entries = entries := by
  unfold ownPropertyOrder
  have h1 : entries.filterMap (fun e => (arrayIndex e.1).map (fun i => (i, e))) = [] := by
    rw [List.filterMap_eq_nil_iff]
    intro e he
    simp [h e he]
  have h2 : entries.filter (fun e => (arrayIndex e.1).isNone) = entries := by
    rw [List.filter_eq_self]
    intro e he
    simp [h e he]
  rw [h1, h2]
  rfl

/-- Assigning distinct new keys to an object appends them in turn. -/
theorem sortedBody_fold (props : List (JSString × Json)) (keys : List JSString)
    (acc : List (JSString × Json)) (hnd : keys.Nodup)
    (hnew : ∀ k ∈ keys, ∀ e ∈ acc, e.1 ≠ k) :
    keys.foldl (copyKey (.obj props)) acc
      = acc ++ keys.filterMap (fun k => (lookup k props).map (fun v => (k, v))) := by
  induction keys generalizing acc with
  | nil => simp
  | cons k ks ih =>
    simp only [List.nodup_cons] at hnd
    simp only [List.foldl_cons, List.filterMap_cons]
    cases hk : lookup k props with
    | none =>
      have hstep : copyKey (.obj props) acc k = acc := by simp [copyKey, Json.get, hk]
      rw [hstep]
      exact ih acc hnd.2 (fun k' hk' => hnew k' (List.mem_cons_of_mem _ hk'))
    | some v =>
      have hfresh : acc.any (fun e => e.1 == k) = false := by
        rw [List.any_eq_false]
        intro e he
        simpa using hnew k (List.mem_cons_self _ _) e he
      have hstep : copyKey (.obj props) acc k = acc ++ [(k, v)] := by
        simp [copyKey, Json.get, hk, setProp, hfresh]
      rw [hstep, ih (acc ++ [(k, v)]) hnd.2]
      · simp
      · intro k' hk' e he
        rcases List.mem_append.mp he with he | he
        · exact hnew k' (List.mem_cons_of_mem _ hk') e he
        · simp only [List.mem_singleton] at he
          subst he
          rintro rfl
          exact hnd.1 hk'

/-- Reading every key of an object without repeated keys gives its properties. -/
theorem filterMap_lookup_keys (props : List (JSString × Json))
    (hnd : (props.map (fun e => e.1)).Nodup) :
    (props.map (fun e => e.1)).filterMap (fun k => (lookup k props).map (fun v => (k, v)))
      = props := by
  induction props with
  | nil => rfl
  | cons e ps ih =>
    obtain ⟨k, v⟩ := e
    simp only [List.map_cons, List.nodup_cons] at hnd
    have htail : (ps.map (fun e => e.1)).filterMap
          (fun k' => (lookup k' ((k, v) :: ps)).map (fun v => (k', v)))
        = (ps.map (fun e => e.1)).filterMap (fun k' => (lookup k' ps).map (fun v => (k', v))) := by
      apply List.filterMap_congr
      intro k' hk'
      have hne : k ≠ k' := by
        rintro rfl
        exact hnd.1 hk'
      simp [lookup, hne]
    simp only [List.map_cons, List.filterMap_cons]
    rw [htail, ih hnd.2]
    simp [lookup]

theorem stringifyProps_eq_map (props : List (JSString × Json)) :
    JSON.stringifyProps props = props.map (fun e => (e.1, JSON.stringify e.2)) := by
  induction props with
  | nil => rfl
  | cons e ps ih =>
    obtain ⟨k, v⟩ := e
    simp [JSON.stringifyProps, ih]

/-- For an object body without array-index keys (and no key twice) the
canonical string lists the properties of the body in ascending order of their
keys, each value serialised by `JSON.stringify`, separated by commas only. -/
theorem sortedBodyString_of_plain_keys (props : List (JSString × Json))
    (hnd : (props.map (fun e => e.1)).Nodup) (hplain : ∀ e ∈ props, arrayIndex e.1 = none) :
    ∃ entries : List (JSString × Json),
      entries.Perm props ∧ (entries.map (fun e => e.1)).Sorted strLe ∧
      sortedBodyString (.obj props)
        = some (js "\x7b" ++ joinComma (entries.map
            (fun e => quoteJSONString e.1 ++ js ":" ++ JSON.stringify e.2)) ++ js "\x7d") := by
  have hkeys : sort ((ownPropertyOrder props).map (fun e => e.1)) = sort (props.map (fun e => e.1)) := by
    rw [ownPropertyOrder_of_plain props hplain]
  have hperm : (sort (props.map (fun e => e.1))).Perm (props.map (fun e => e.1)) :=
    List.perm_insertionSort _ _
  have hentries : ((sort (props.map (fun e => e.1))).filterMap
      (fun k => (lookup k props).map (fun v => (k, v)))).Perm props := by
    have := hperm.filterMap (fun k => (lookup k props).map (fun v => (k, v)))
    rwa [filterMap_lookup_keys props hnd] at this
  have hfst : ((sort (props.map (fun e => e.1))).filterMap
      (fun k => (lookup k props).map (fun v => (k, v)))).map (fun e => e.1)
      = (sort (props.map (fun e => e.1))).filterMap (fun k => (lookup k props).map (fun _ => k)) := by
    rw [List.map_filterMap]
    apply List.filterMap_congr
    intro k _
    cases lookup k props <;> rfl
  refine ⟨_, hentries, ?_, ?_⟩
  · rw [hfst]
    exact (List.sorted_insertionSort strLe _).sublist
      (by
        have : ∀ l : List JSString,
            (l.filterMap (fun k => (lookup k props).map (fun _ => k))).Sublist l := by
          intro l
          induction l with
          | nil => simp
          | cons a l ih =>
            simp only [List.filterMap_cons]
            cases lookup a props with
            | none => exact ih.cons _
            | some v => exact ih.cons₂ _
        exact this _)
  · simp only [sortedBodyString, Object.keys, Option.map_some', hkeys, sortedBody]
    rw [sortedBody_fold props _ [] (hperm.nodup_iff.mpr hnd) (by simp)]
    simp only [List.nil_append, JSON.stringify, stringifyProps_eq_map]
    rw [ownPropertyOrder_of_plain]
    · simp [List.map_map, Function.comp_def]
    · intro e he
      obtain ⟨e', he', rfl⟩ := List.mem_map.mp he
      exact hplain e' (hentries.mem_iff.mp he')

/-! ## Applying a finished payment (C9, C10) -/

/-- Only an object has a property under a name that is not an array index. -/
theorem obj_of_get {body : Json} {key : JSString} {v : Json} (hk : arrayIndex key = none)
    (h : body.get key = some v) : ∃ props, body = .obj props := by
  cases body <;> simp [Json.get, hk] at h ⊢

theorem verified_of_generated (env : Env) (req : Request) (body : Json) (secret : JSString)
    (hm : req.method = js "POST") (hsig : truthy req.signature = true)
    (hb : req.body = some body) (hs : env.IPN_SECRET = some secret) (hsne : secret ≠ [])
    (hg : generatedSignature secret body = req.signature) : verified env req = true := by
  cases secret with
  | nil => exact absurd rfl hsne
  | cons c cs => simp [verified, hm, hsig, hb, hs, hg]

theorem verified_of_no_secret (env : Env) (req : Request) (body : Json)
    (hm : req.method = js "POST") (hsig : truthy req.signature = true)
    (hb : req.body = some body) (hs : truthy env.IPN_SECRET = false) : verified env req = true := by
  cases h : env.IPN_SECRET with
  | none => simp [verified, hm, hsig, hb, h]
  | some secret =>
    cases secret with
    | nil => simp [verified, hm, hsig, hb, h]
    | cons c cs => simp [h, truthy] at hs

/-- C9: a verified POST notification with payment_status "finished" and a
string order_id that starts with `premium_` issues exactly one record store
operation, the update of `user_profiles` setting `is_premium` to true where
`id` equals the segment of index 1 of `order_id.split('_')` (which exists), and
is answered 200 when that update returns no error; for order_id
`premium_42_999` the id is `42`. -/
theorem C9_premium_updates_exactly_one_account
    (env : Env) (store : StoreOp → Bool) (req : Request) (body : Json) (orderId : JSString)
    (hv : verified env req = true) (hb : req.body = some body)
    (hstatus : body.get (js "payment_status") = some (.str (js "finished")))
    (horder : body.get (js "order_id") = some (.str orderId))
    (hpre : startsWith orderId (js "premium_") = true) :
    ∃ userId, (split orderId 95).get? 1 = some userId ∧
      storeOps (handler env store req).trace
        = [StoreOp.update "user_profiles" [("is_premium", .bool true)] "id" userId] ∧
      (store (StoreOp.update "user_profiles" [("is_premium", .bool true)] "id" userId) = false →
        (handler env store req).response = ⟨"OK", 200⟩) ∧
      (orderId = js "premium_42_999" → userId = js "42") := by
  obtain ⟨r, rfl⟩ := (startsWith_iff _ _).mp hpre
  have hsplit := split_premium r
  obtain ⟨userId, rest, hr⟩ : ∃ u rest, split r 95 = u :: rest := by
    cases h : split r 95 with
    | nil => exact absurd h (splitAux_ne_nil 95 r [])
    | cons u rest => exact ⟨u, rest, rfl⟩
  rw [hr] at hsplit
  obtain ⟨props, rfl⟩ := obj_of_get (by decide) hstatus
  have hfin : strictEquals (some (Json.str (js "finished"))) (js "finished") = true := by decide
  rw [handler_verified env store req _ hv hb]
  simp only [processPayment, getProp, hstatus, horder, hfin, hpre, hsplit]
  refine ⟨userId, by simp [hsplit], ?_, ?_, ?_⟩
  · split_ifs <;>
      simp [ok, storeOps_append, storeOps_verifiedTrace, storeOps] <;> simp_all
  · intro hok
    simp [ok, hok]
  · intro h
    have h42 : split (js "premium_42_999") 95 = [js "premium", js "42", js "999"] := by decide
    rw [← h, hsplit] at h42
    simp only [List.cons.injEq] at h42
    exact h42.2.1

/-- Witness for C9: `premiumBody`, signed under `topsecret`, updates account 42. -/
theorem C9_witness :
    ∃ userId, (split (js "premium_42_999") 95).get? 1 = some userId ∧
      storeOps (handler ⟨some (js "topsecret")⟩ storeOk
          ⟨js "POST", some premiumSignature, some premiumBody⟩).trace
        = [StoreOp.update "user_profiles" [("is_premium", .bool true)] "id" userId] ∧
      (storeOk (StoreOp.update "user_profiles" [("is_premium", .bool true)] "id" userId) = false →
        (handler ⟨some (js "topsecret")⟩ storeOk
          ⟨js "POST", some premiumSignature, some premiumBody⟩).response = ⟨"OK", 200⟩) ∧
      (js "premium_42_999" = js "premium_42_999" → userId = js "42") :=
  C9_premium_updates_exactly_one_account ⟨some (js "topsecret")⟩ storeOk
    ⟨js "POST", some premiumSignature, some premiumBody⟩ premiumBody (js "premium_42_999")
    (verified_of_generated _ _ premiumBody (js "topsecret") rfl (by decide) rfl rfl (by decide)
      premiumSignature_generated)
    rfl rfl rfl (by decide)

/-- A string that starts with `donation_` does not start with `premium_`. -/
theorem not_premium_of_donation (s : JSString) (h : startsWith s (js "donation_") = true) :
    startsWith s (js "premium_") = false := by
  obtain ⟨r, rfl⟩ := (startsWith_iff _ _).mp h
  have h1 : js "donation_" = [100, 111, 110, 97, 116, 105, 111, 110, 95] := by decide
  have h2 : js "premium_" = [112, 114, 101, 109, 105, 117, 109, 95] := by decide
  rw [h1, h2]
  simp [startsWith]

/-- C10: a verified POST notification with payment_status "finished" and a
string order_id that starts with `donation_` issues exactly one record store
operation, the upsert into `donations` with conflict key `order_id` of the
record whose order_id is the whole order_id, payment_id is body.payment_id,
amount is body.price_amount, currency is body.price_currency and status is
"finished"; no account update is issued, and the response is 200 when the
upsert returns no error. -/
theorem C10_donation_upserts_exactly_one_record
    (env : Env) (store : StoreOp → Bool) (req : Request) (body : Json) (orderId : JSString)
    (hv : verified env req = true) (hb : req.body = some body)
    (hstatus : body.get (js "payment_status") = some (.str (js "finished")))
    (horder : body.get (js "order_id") = some (.str orderId))
    (hpre : startsWith orderId (js "donation_") = true) :
    storeOps (handler env store req).trace
      = [StoreOp.upsert "donations"
          [("order_id", some (.str orderId)), ("payment_id", body.get (js "payment_id")),
           ("amount", body.get (js "price_amount")), ("currency", body.get (js "price_currency")),
           ("status", some (.str (js "finished")))] "order_id"] ∧
    (store (StoreOp.upsert "donations"
          [("order_id", some (.str orderId)), ("payment_id", body.get (js "payment_id")),
           ("amount", body.get (js "price_amount")), ("currency", body.get (js "price_currency")),
           ("status", some (.str (js "finished")))] "order_id") = false →
      (handler env store req).response = ⟨"OK", 200⟩) := by
  obtain ⟨props, rfl⟩ := obj_of_get (by decide) hstatus
  have hfin : strictEquals (some (Json.str (js "finished"))) (js "finished") = true := by decide
  have hnp := not_premium_of_donation orderId hpre
  rw [handler_verified env store req _ hv hb]
  simp only [processPayment, getProp, hstatus, horder, hfin, hpre, hnp]
  refine ⟨?_, fun hok => by simp [ok, hok]⟩
  split_ifs <;>
    simp [ok, storeOps_append, storeOps_verifiedTrace, storeOps] <;> simp_all

/-- Witness for C10: the donation `donation_1700000000`, with no secret
configured and an arbitrary signature header. -/
theorem C10_witness :
    storeOps (handler ⟨none⟩ storeOk ⟨js "POST", some (js "abc"), some donationBody⟩).trace
      = [StoreOp.upsert "donations"
          [("order_id", some (.str (js "donation_1700000000"))),
           ("payment_id", donationBody.get (js "payment_id")),
           ("amount", donationBody.get (js "price_amount")),
           ("currency", donationBody.get (js "price_currency")),
           ("status", some (.str (js "finished")))] "order_id"] ∧
    (storeOk (StoreOp.upsert "donations"
          [("order_id", some (.str (js "donation_1700000000"))),
           ("payment_id", donationBody.get (js "payment_id")),
           ("amount", donationBody.get (js "price_amount")),
           ("currency", donationBody.get (js "price_currency")),
           ("status", some (.str (js "finished")))] "order_id") = false →
      (handler ⟨none⟩ storeOk ⟨js "POST", some (js "abc"), some donationBody⟩).response
        = ⟨"OK", 200⟩) :=
  C10_donation_upserts_exactly_one_record ⟨none⟩ storeOk
    ⟨js "POST", some (js "abc"), some donationBody⟩ donationBody (js "donation_1700000000")
    (verified_of_no_secret _ _ donationBody rfl (by decide) rfl rfl) rfl rfl rfl (by decide)

/-! ## All paths of the handler -/

theorem strictEquals_eq_true_iff (v : JSValue) (s : JSString) :
    strictEquals v s = true ↔ v = some (.str s) := by
  cases v with
  | none => simp [strictEquals]
  | some j => cases j <;> simp [strictEquals]

/-- What processing a payment can do: nothing to the store (and the answer is
200 or the `catch` block ran), or exactly one write, an account update or a
donation upsert, answered 500 when it returns an error and 200 otherwise. -/
theorem processPayment_cases (store : StoreOp → Bool) (body : Json) (trace : List Event)
    (ht : storeOps trace = []) :
    (storeOps (processPayment store body trace).trace = [] ∧
      ((processPayment store body trace).response = ⟨"OK", 200⟩ ∨
        ∃ t, processPayment store body trace = caught t)) ∨
    (∃ op, storeOps (processPayment store body trace).trace = [op] ∧
      (processPayment store body trace).response
        = (if store op then ⟨"Internal Server Error", 500⟩ else ⟨"OK", 200⟩) ∧
      ((∃ id, op = StoreOp.update "user_profiles" [("is_premium", .bool true)] "id" id) ∨
        ∃ record, op = StoreOp.upsert "donations" record "order_id")) := by
  unfold processPayment
  split
  · split_ifs with h1
    · split
      · exact Or.inl ⟨by simp [ok, storeOps_append, ht, storeOps], Or.inl rfl⟩
      · exact Or.inl ⟨by simp [ok, storeOps_append, ht, storeOps], Or.inl rfl⟩
      · rename_i orderId _
        dsimp only
        split_ifs with h2 h3 h4 h5 h6
        · exact Or.inr ⟨StoreOp.update "user_profiles" [("is_premium", .bool true)] "id"
              ((split orderId 95).getD 1 []),
            by simp [storeOps_append, ht, storeOps], by rw [if_pos h4], Or.inl ⟨_, rfl⟩⟩
        · exact Or.inr ⟨StoreOp.update "user_profiles" [("is_premium", .bool true)] "id"
              ((split orderId 95).getD 1 []),
            by simp [ok, storeOps_append, ht, storeOps], by rw [if_neg h4]; rfl, Or.inl ⟨_, rfl⟩⟩
        · exact Or.inl ⟨by simp [ok, storeOps_append, ht, storeOps], Or.inl rfl⟩
        · exact Or.inr ⟨_, by simp only [storeOps_append, ht, storeOps]; rfl, by rw [if_pos h6],
            Or.inr ⟨_, rfl⟩⟩
        · exact Or.inr ⟨_, by simp only [ok, storeOps_append, ht, storeOps]; rfl, by rw [if_neg h6]; rfl,
            Or.inr ⟨_, rfl⟩⟩
        · exact Or.inl ⟨by simp [ok, storeOps_append, ht, storeOps], Or.inl rfl⟩
      · exact Or.inl ⟨by simp [caught, storeOps_append, ht, storeOps], Or.inr ⟨_, rfl⟩⟩
    · exact Or.inl ⟨by simp [ok, ht], Or.inl rfl⟩
  · exact Or.inl ⟨by simp [caught, storeOps_append, ht, storeOps], Or.inr ⟨_, rfl⟩⟩

/-- The six ways an invocation can go. -/
theorem handler_paths (env : Env) (store : StoreOp → Bool) (req : Request) :
    (req.method ≠ js "POST" ∧ handler env store req = ⟨⟨"Method Not Allowed", 405⟩, []⟩) ∨
    (req.method = js "POST" ∧ truthy req.signature = false ∧
      handler env store req = missingSignature) ∨
    (req.method = js "POST" ∧ truthy req.signature = true ∧ req.body = none ∧
      handler env store req = caught parsedTrace) ∨
    (req.method = js "POST" ∧ ∃ sig body secret, req.signature = some sig ∧ sig ≠ [] ∧
      req.body = some body ∧ env.IPN_SECRET = some secret ∧ secret ≠ [] ∧
      generatedSignature secret body = none ∧ handler env store req = caught parsedTrace) ∨
    (req.method = js "POST" ∧ ∃ sig body secret generated, req.signature = some sig ∧ sig ≠ [] ∧
      req.body = some body ∧ env.IPN_SECRET = some secret ∧ secret ≠ [] ∧
      generatedSignature secret body = some generated ∧ sig ≠ generated ∧
      handler env store req = invalidSignature) ∨
    (∃ body, verified env req = true ∧ req.body = some body ∧
      handler env store req = processPayment store body (verifiedTrace env)) := by
  by_cases hm : req.method = js "POST"
  swap
  · exact Or.inl ⟨hm, handler_not_post env store req hm⟩
  right
  cases hsig : truthy req.signature with
  | false => exact Or.inl ⟨hm, rfl, handler_missing env store req hm hsig⟩
  | true =>
    right
    cases hb : req.body with
    | none => exact Or.inl ⟨hm, rfl, rfl, handler_unparsed env store req hm hsig hb⟩
    | some body =>
      right
      cases hs : truthy env.IPN_SECRET with
      | false =>
        have hv := verified_of_no_secret env req body hm hsig hb hs
        exact Or.inr (Or.inr ⟨body, hv, rfl, handler_verified env store req body hv hb⟩)
      | true =>
        obtain ⟨sig, hsg, hne⟩ : ∃ sig, req.signature = some sig ∧ sig ≠ [] := by
          cases h : req.signature with
          | none => simp [h, truthy] at hsig
          | some sig =>
            cases sig with
            | nil => simp [h, truthy] at hsig
            | cons u us => exact ⟨_, rfl, by simp⟩
        obtain ⟨secret, hsec, hsne⟩ : ∃ secret, env.IPN_SECRET = some secret ∧ secret ≠ [] := by
          cases h : env.IPN_SECRET with
          | none => simp [h, truthy] at hs
          | some secret =>
            cases secret with
            | nil => simp [h, truthy] at hs
            | cons u us => exact ⟨_, rfl, by simp⟩
        have hc := handler_checked env store req body secret sig hm hsg hne hb hsec hsne
        cases hg : generatedSignature secret body with
        | none =>
          rw [hg] at hc
          exact Or.inl ⟨hm, sig, body, secret, hsg, hne, rfl, hsec, hsne, hg, hc⟩
        | some generated =>
          rw [hg] at hc
          by_cases heq : generated = sig
          · have hv := verified_of_generated env req body secret hm hsig hb hsec hsne
              (by rw [hg, heq, hsg])
            exact Or.inr (Or.inr ⟨body, hv, rfl, handler_verified env store req body hv hb⟩)
          · simp only [ne_eq, heq, not_false_eq_true, if_true] at hc
            exact Or.inr (Or.inl ⟨hm, sig, body, secret, generated, hsg, hne, rfl, hsec, hsne, hg,
              fun h => heq h.symm, hc⟩)

/-- The response and the store calls of an invocation, path by path: no store
call with one of the four early answers, or what `processPayment_cases` says. -/
theorem handler_cases (env : Env) (store : StoreOp → Bool) (req : Request) :
    (storeOps (handler env store req).trace = [] ∧
      ((handler env store req).response = ⟨"Method Not Allowed", 405⟩ ∨
       (handler env store req).response = ⟨"Unauthorized", 401⟩ ∨
       (handler env store req).response = ⟨"Bad Request", 400⟩ ∨
       (handler env store req).response = ⟨"OK", 200⟩)) ∨
    (∃ op, storeOps (handler env store req).trace = [op] ∧
      (handler env store req).response
        = (if store op then ⟨"Internal Server Error", 500⟩ else ⟨"OK", 200⟩) ∧
      ((∃ id, op = StoreOp.update "user_profiles" [("is_premium", .bool true)] "id" id) ∨
        ∃ record, op = StoreOp.upsert "donations" record "order_id")) := by
  rcases handler_paths env store req with ⟨_, h⟩ | ⟨_, _, h⟩ | ⟨_, _, _, h⟩ |
    ⟨_, _, _, _, _, _, _, _, _, _, h⟩ | ⟨_, _, _, _, _, _, _, _, _, _, _, _, h⟩ | ⟨body, _, _, h⟩
  · rw [h]; exact Or.inl ⟨rfl, Or.inl rfl⟩
  · rw [h]; exact Or.inl ⟨rfl, Or.inr (Or.inl rfl)⟩
  · rw [h]; exact Or.inl ⟨rfl, Or.inr (Or.inr (Or.inl rfl))⟩
  · rw [h]; exact Or.inl ⟨rfl, Or.inr (Or.inr (Or.inl rfl))⟩
  · rw [h]; exact Or.inl ⟨rfl, Or.inr (Or.inl rfl)⟩
  · rw [h]
    rcases processPayment_cases store body (verifiedTrace env) (storeOps_verifiedTrace env) with
      ⟨h0, hr | ⟨t, ht⟩⟩ | hop
    · exact Or.inl ⟨h0, Or.inr (Or.inr (Or.inr hr))⟩
    · exact Or.inl ⟨h0, Or.inr (Or.inr (Or.inl (by rw [ht]; rfl)))⟩
    · exact Or.inr hop

theorem getProp_of_ne_null {body : Json} (h : body ≠ .null) (key : JSString) :
    getProp body key = some (body.get key) := by
  cases body <;> first | exact absurd rfl h | rfl

/-! ## No-op notifications (C11, C12) -/

/-- Counterexample to C11: with no secret configured, the POST request with
the header `abc` and the body `null` is a verified notification whose
payment_status is not the string "finished" (the body has no property at
all), and it is answered 400, not 200: reading `body.payment_status` throws. -/
theorem C11_counterexample :
    verified ⟨none⟩ ⟨js "POST", some (js "abc"), some .null⟩ = true ∧
    strictEquals (Json.get .null (js "payment_status")) (js "finished") = false ∧
    (handler ⟨none⟩ storeOk ⟨js "POST", some (js "abc"), some .null⟩).response
      = ⟨"Bad Request", 400⟩ ∧
    (handler ⟨none⟩ storeOk ⟨js "POST", some (js "abc"), some .null⟩).response.status ≠ 200 := by
  decide

/-- C11 (amended): a verified POST notification whose payment_status is
anything but the string "finished" issues no record store operation, whatever
order_id is.  It is answered 200 OK when the body is not the JSON value
`null`; when the body is `null` (which is verified only while no secret is
configured) reading `body.payment_status` throws and the answer is 400 Bad
Request. -/
theorem C11_other_status_issues_no_store_operation
    (env : Env) (store : StoreOp → Bool) (req : Request) (body : Json)
    (hv : verified env req = true) (hb : req.body = some body)
    (hne : body.get (js "payment_status") ≠ some (.str (js "finished"))) :
    storeOps (handler env store req).trace = [] ∧
    (body ≠ .null → (handler env store req).response = ⟨"OK", 200⟩) ∧
    (body = .null →
      truthy env.IPN_SECRET = false ∧
        (handler env store req).response = ⟨"Bad Request", 400⟩) := by
  have hs : strictEquals (body.get (js "payment_status")) (js "finished") = false := by
    cases h : strictEquals (body.get (js "payment_status")) (js "finished") with
    | false => rfl
    | true => exact absurd ((strictEquals_eq_true_iff _ _).mp h) hne
  have hh := handler_verified env store req body hv hb
  by_cases hnull : body = .null
  · subst hnull
    have hcaught : handler env store req = caught (verifiedTrace env) := by
      rw [hh]
      rfl
    have hsecret : truthy env.IPN_SECRET = false := by
      cases h : env.IPN_SECRET with
      | none => rfl
      | some secret =>
        cases secret with
        | nil => rfl
        | cons c cs =>
          exfalso
          simp only [verified, hb, h, Bool.and_eq_true, beq_iff_eq] at hv
          have hg : generatedSignature (c :: cs) .null = none := rfl
          rw [hg] at hv
          have := hv.2
          cases hsig : req.signature with
          | none => simp [hsig, truthy] at hv
          | some sig => simp [hsig] at this
    refine ⟨?_, fun h => absurd rfl h, fun _ => ⟨hsecret, ?_⟩⟩
    · rw [hcaught]
      exact storeOps_caught _ (storeOps_verifiedTrace env)
    · rw [hcaught]
      rfl
  · have hok : handler env store req = ok (verifiedTrace env) := by
      rw [hh]
      simp only [processPayment, getProp_of_ne_null hnull, hs]
      rfl
    refine ⟨?_, fun _ => ?_, fun h => absurd h hnull⟩
    · rw [hok]
      exact storeOps_verifiedTrace env
    · rw [hok]
      rfl

/-- Witness for C11 (amended): the statuses "waiting", "Finished", missing and
a number, and the body `null`, with no secret configured and over a store
that would fail. -/
theorem C11_witness :
    ((handler ⟨none⟩ storeFailing ⟨js "POST", some (js "abc"), some waitingBody⟩).response
        = ⟨"OK", 200⟩ ∧
      storeOps (handler ⟨none⟩ storeFailing ⟨js "POST", some (js "abc"), some waitingBody⟩).trace
        = []) ∧
    ((handler ⟨none⟩ storeFailing ⟨js "POST", some (js "abc"), some capitalisedBody⟩).response
        = ⟨"OK", 200⟩ ∧
      storeOps (handler ⟨none⟩ storeFailing
        ⟨js "POST", some (js "abc"), some capitalisedBody⟩).trace = []) ∧
    ((handler ⟨none⟩ storeFailing ⟨js "POST", some (js "abc"), some statuslessBody⟩).response
        = ⟨"OK", 200⟩ ∧
      storeOps (handler ⟨none⟩ storeFailing
        ⟨js "POST", some (js "abc"), some statuslessBody⟩).trace = []) ∧
    ((handler ⟨none⟩ storeFailing ⟨js "POST", some (js "abc"), some numericStatusBody⟩).response
        = ⟨"OK", 200⟩ ∧
      storeOps (handler ⟨none⟩ storeFailing
        ⟨js "POST", some (js "abc"), some numericStatusBody⟩).trace = []) ∧
    ((handler ⟨none⟩ storeFailing ⟨js "POST", some (js "abc"), some .null⟩).response
        = ⟨"Bad Request", 400⟩ ∧
      storeOps (handler ⟨none⟩ storeFailing ⟨js "POST", some (js "abc"), some .null⟩).trace
        = []) :=
  ⟨⟨(C11_other_status_issues_no_store_operation ⟨none⟩ storeFailing
        ⟨js "POST", some (js "abc"), some waitingBody⟩ waitingBody
        (verified_of_no_secret _ _ waitingBody rfl (by decide) rfl rfl) rfl
        (fun h => absurd (congrArg (fun v => strictEquals v (js "finished")) h)
          (by decide))).2.1 (by intro h; cases h),
      (C11_other_status_issues_no_store_operation ⟨none⟩ storeFailing
        ⟨js "POST", some (js "abc"), some waitingBody⟩ waitingBody
        (verified_of_no_secret _ _ waitingBody rfl (by decide) rfl rfl) rfl
        (fun h => absurd (congrArg (fun v => strictEquals v (js "finished")) h)
          (by decide))).1⟩,
    ⟨(C11_other_status_issues_no_store_operation ⟨none⟩ storeFailing
        ⟨js "POST", some (js "abc"), some capitalisedBody⟩ capitalisedBody
        (verified_of_no_secret _ _ capitalisedBody rfl (by decide) rfl rfl) rfl
        (fun h => absurd (congrArg (fun v => strictEquals v (js "finished")) h)
          (by decide))).2.1 (by intro h; cases h),
      (C11_other_status_issues_no_store_operation ⟨none⟩ storeFailing
        ⟨js "POST", some (js "abc"), some capitalisedBody⟩ capitalisedBody
        (verified_of_no_secret _ _ capitalisedBody rfl (by decide) rfl rfl) rfl
        (fun h => absurd (congrArg (fun v => strictEquals v (js "finished")) h)
          (by decide))).1⟩,
    ⟨(C11_other_status_issues_no_store_operation ⟨none⟩ storeFailing
        ⟨js "POST", some (js "abc"), some statuslessBody⟩ statuslessBody
        (verified_of_no_secret _ _ statuslessBody rfl (by decide) rfl rfl) rfl
        (fun h => absurd (congrArg (fun v => strictEquals v (js "finished")) h)
          (by decide))).2.1 (by intro h; cases h),
      (C11_other_status_issues_no_store_operation ⟨none⟩ storeFailing
        ⟨js "POST", some (js "abc"), some statuslessBody⟩ statuslessBody
        (verified_of_no_secret _ _ statuslessBody rfl (by decide) rfl rfl) rfl
        (fun h => absurd (congrArg (fun v => strictEquals v (js "finished")) h)
          (by decide))).1⟩,
    ⟨(C11_other_status_issues_no_store_operation ⟨none⟩ storeFailing
        ⟨js "POST", some (js "abc"), some numericStatusBody⟩ numericStatusBody
        (verified_of_no_secret _ _ numericStatusBody rfl (by decide) rfl rfl) rfl
        (fun h => absurd (congrArg (fun v => strictEquals v (js "finished")) h)
          (by decide))).2.1 (by intro h; cases h),
      (C11_other_status_issues_no_store_operation ⟨none⟩ storeFailing
        ⟨js "POST", some (js "abc"), some numericStatusBody⟩ numericStatusBody
        (verified_of_no_secret _ _ numericStatusBody rfl (by decide) rfl rfl) rfl
        (fun h => absurd (congrArg (fun v => strictEquals v (js "finished")) h)
          (by decide))).1⟩,
    ⟨((C11_other_status_issues_no_store_operation ⟨none⟩ storeFailing
        ⟨js "POST", some (js "abc"), some .null⟩ .null
        (verified_of_no_secret _ _ .null rfl (by decide) rfl rfl) rfl
        (fun h => absurd (congrArg (fun v => strictEquals v (js "finished")) h)
          (by decide))).2.2 rfl).2,
      (C11_other_status_issues_no_store_operation ⟨none⟩ storeFailing
        ⟨js "POST", some (js "abc"), some .null⟩ .null
        (verified_of_no_secret _ _ .null rfl (by decide) rfl rfl) rfl
        (fun h => absurd (congrArg (fun v => strictEquals v (js "finished")) h)
          (by decide))).1⟩⟩

/-- C12: a verified POST notification with payment_status "finished" whose
string order_id starts with neither `premium_` nor `donation_` is answered
200 OK and issues no record store operation. -/
theorem C12_unrecognised_order_id_is_acknowledged_without_store_operation
    (env : Env) (store : StoreOp → Bool) (req : Request) (body : Json) (orderId : JSString)
    (hv : verified env req = true) (hb : req.body = some body)
    (hstatus : body.get (js "payment_status") = some (.str (js "finished")))
    (horder : body.get (js "order_id") = some (.str orderId))
    (hp : startsWith orderId (js "premium_") = false)
    (hd : startsWith orderId (js "donation_") = false) :
    (handler env store req).response = ⟨"OK", 200⟩ ∧
      storeOps (handler env store req).trace = [] := by
  obtain ⟨props, rfl⟩ := obj_of_get (by decide) hstatus
  have hfin : strictEquals (some (Json.str (js "finished"))) (js "finished") = true := by decide
  rw [handler_verified env store req _ hv hb]
  simp only [processPayment, getProp, hstatus, horder, hfin, hp, hd]
  simp [ok, storeOps_append, storeOps_verifiedTrace, storeOps]

/-- Witness for C12: the order identifiers `premium`, `Premium_1`, `donation` and
the empty string, with no secret configured and over a store that would fail. -/
theorem C12_witness :
    ((handler ⟨none⟩ storeFailing
          ⟨js "POST", some (js "abc"), some (finishedBody (js "premium"))⟩).response = ⟨"OK", 200⟩ ∧
      storeOps (handler ⟨none⟩ storeFailing
          ⟨js "POST", some (js "abc"), some (finishedBody (js "premium"))⟩).trace = []) ∧
    ((handler ⟨none⟩ storeFailing
          ⟨js "POST", some (js "abc"), some (finishedBody (js "Premium_1"))⟩).response = ⟨"OK", 200⟩ ∧
      storeOps (handler ⟨none⟩ storeFailing
          ⟨js "POST", some (js "abc"), some (finishedBody (js "Premium_1"))⟩).trace = []) ∧
    ((handler ⟨none⟩ storeFailing
          ⟨js "POST", some (js "abc"), some (finishedBody (js "donation"))⟩).response = ⟨"OK", 200⟩ ∧
      storeOps (handler ⟨none⟩ storeFailing
          ⟨js "POST", some (js "abc"), some (finishedBody (js "donation"))⟩).trace = []) ∧
    ((handler ⟨none⟩ storeFailing
          ⟨js "POST", some (js "abc"), some (finishedBody (js ""))⟩).response = ⟨"OK", 200⟩ ∧
      storeOps (handler ⟨none⟩ storeFailing
          ⟨js "POST", some (js "abc"), some (finishedBody (js ""))⟩).trace = []) :=
  ⟨C12_unrecognised_order_id_is_acknowledged_without_store_operation ⟨none⟩ storeFailing
      ⟨js "POST", some (js "abc"), some (finishedBody (js "premium"))⟩ (finishedBody (js "premium"))
      (js "premium") (verified_of_no_secret _ _ (finishedBody (js "premium")) rfl (by decide) rfl rfl)
      rfl rfl rfl (by decide) (by decide),
    C12_unrecognised_order_id_is_acknowledged_without_store_operation ⟨none⟩ storeFailing
      ⟨js "POST", some (js "abc"), some (finishedBody (js "Premium_1"))⟩ (finishedBody (js "Premium_1"))
      (js "Premium_1") (verified_of_no_secret _ _ (finishedBody (js "Premium_1")) rfl (by decide) rfl rfl)
      rfl rfl rfl (by decide) (by decide),
    C12_unrecognised_order_id_is_acknowledged_without_store_operation ⟨none⟩ storeFailing
      ⟨js "POST", some (js "abc"), some (finishedBody (js "donation"))⟩ (finishedBody (js "donation"))
      (js "donation") (verified_of_no_secret _ _ (finishedBody (js "donation")) rfl (by decide) rfl rfl)
      rfl rfl rfl (by decide) (by decide),
    C12_unrecognised_order_id_is_acknowledged_without_store_operation ⟨none⟩ storeFailing
      ⟨js "POST", some (js "abc"), some (finishedBody (js ""))⟩ (finishedBody (js ""))
      (js "") (verified_of_no_secret _ _ (finishedBody (js "")) rfl (by decide) rfl rfl)
      rfl rfl rfl (by decide) (by decide)⟩

/-! ## Store failures and the frame of the handler (C13, C14, C16, C18) -/

/-- C13: the response is 500 exactly when a record store write was issued and
returned an error; every write the handler issues is the account update of the
premium branch or the donation upsert of the donation branch, and a 500
response is `Internal Server Error`. -/
theorem C13_status_500_iff_a_store_write_returned_an_error
    (env : Env) (store : StoreOp → Bool) (req : Request) :
    ((handler env store req).response.status = 500 ↔
      ∃ op ∈ storeOps (handler env store req).trace, store op = true) ∧
    (∀ op ∈ storeOps (handler env store req).trace,
      (∃ id, op = StoreOp.update "user_profiles" [("is_premium", .bool true)] "id" id) ∨
        ∃ record, op = StoreOp.upsert "donations" record "order_id") ∧
    ((handler env store req).response.status = 500 →
      (handler env store req).response = ⟨"Internal Server Error", 500⟩) := by
  rcases handler_cases env store req with ⟨h0, hr⟩ | ⟨op, hops, hr, hkind⟩
  · refine ⟨?_, by simp [h0], ?_⟩
    · constructor
      · intro h
        rcases hr with hr | hr | hr | hr <;> simp [hr] at h
      · simp [h0]
    · intro h
      rcases hr with hr | hr | hr | hr <;> simp [hr] at h
  · refine ⟨?_, ?_, ?_⟩
    · rw [hr, hops]
      cases hs : store op <;> simp [hs]
    · intro op' hop'
      rw [hops, List.mem_singleton] at hop'
      subst hop'
      exact hkind
    · rw [hr]
      cases hs : store op <;> simp

/-- C14: an invocation issues at most one record store call, so never both an
account update and a donation upsert; and no order identifier starts with both
`premium_` and `donation_`. -/
theorem C14_at_most_one_store_mutation
    (env : Env) (store : StoreOp → Bool) (req : Request) :
    (storeOps (handler env store req).trace).length ≤ 1 ∧
    ¬ (∃ op₁ ∈ storeOps (handler env store req).trace,
        ∃ op₂ ∈ storeOps (handler env store req).trace,
          op₁.isUpdate = true ∧ op₂.isUpsert = true) ∧
    (∀ orderId, ¬ (startsWith orderId (js "premium_") = true ∧
      startsWith orderId (js "donation_") = true)) := by
  refine ⟨?_, ?_, ?_⟩
  · rcases handler_cases env store req with ⟨h0, _⟩ | ⟨op, hops, _, _⟩
    · simp [h0]
    · simp [hops]
  · rintro ⟨op₁, h₁, op₂, h₂, hu, hi⟩
    rcases handler_cases env store req with ⟨h0, _⟩ | ⟨op, hops, _, _⟩
    · simp [h0] at h₁
    · rw [hops, List.mem_singleton] at h₁ h₂
      subst h₁ h₂
      cases op₂ <;> simp [StoreOp.isUpdate, StoreOp.isUpsert] at hu hi
  · rintro orderId ⟨hp, hd⟩
    rw [not_premium_of_donation orderId hd] at hp
    exact absurd hp (by simp)

/-- C18: every record store call the handler issues on the table
`user_profiles` is the update with payload `{ is_premium: true }` of the rows
whose `id` equals a string; the flag is never set to false, and no read,
insert or delete is part of the calls the handler makes. -/
theorem C18_accounts_are_only_set_to_premium
    (env : Env) (store : StoreOp → Bool) (req : Request) :
    ∀ op ∈ storeOps (handler env store req).trace, op.table = "user_profiles" →
      op.isUpdate = true ∧
      ∃ id, op = StoreOp.update "user_profiles" [("is_premium", .bool true)] "id" id := by
  intro op hop htable
  rcases handler_cases env store req with ⟨h0, _⟩ | ⟨op', hops, _, hkind⟩
  · simp [h0] at hop
  · rw [hops, List.mem_singleton] at hop
    subst hop
    rcases hkind with ⟨id, rfl⟩ | ⟨record, rfl⟩
    · exact ⟨rfl, id, rfl⟩
    · simp [StoreOp.table] at htable

/-- Witness for C18: the one store call of the premium notification. -/
theorem C18_witness :
    (StoreOp.update "user_profiles" [("is_premium", .bool true)] "id" (js "42")).isUpdate = true ∧
      ∃ id, StoreOp.update "user_profiles" [("is_premium", .bool true)] "id" (js "42")
        = StoreOp.update "user_profiles" [("is_premium", .bool true)] "id" id :=
  C18_accounts_are_only_set_to_premium ⟨none⟩ storeOk
    ⟨js "POST", some (js "abc"), some premiumBody⟩
    (StoreOp.update "user_profiles" [("is_premium", .bool true)] "id" (js "42"))
    (List.Mem.head []) rfl

/-- A request that fails the signature check is answered by one of the two
`Unauthorized` returns. -/
theorem handler_unauthorized (env : Env) (store : StoreOp → Bool) (req : Request)
    (hm : req.method = js "POST")
    (hfail : truthy req.signature = false ∨
      ∃ sig body secret generated, req.signature = some sig ∧ req.body = some body ∧
        env.IPN_SECRET = some secret ∧ secret ≠ [] ∧
        generatedSignature secret body = some generated ∧ sig ≠ generated) :
    handler env store req = missingSignature ∨ handler env store req = invalidSignature := by
  rcases hfail with hmiss | ⟨sig, body, secret, generated, hsig, hb, hs, hsne, hg, hne⟩
  · exact Or.inl (handler_missing env store req hm hmiss)
  · by_cases hnil : sig = []
    · exact Or.inl (handler_missing env store req hm (by simp [hsig, hnil, truthy]))
    · right
      rw [handler_checked env store req body secret sig hm hsig hnil hb hs hsne, hg]
      simp only [ne_eq]
      rw [if_pos (fun h => hne h.symm)]

/-- C16: every invocation returns one response, which is one of `200 OK`,
`400 Bad Request`, `401 Unauthorized`, `405 Method Not Allowed` and
`500 Internal Server Error`.  The status is 405 exactly for a wrong method;
401 exactly for an authentication failure (POST with the header absent or
empty, or with a header that differs from the generated signature); 400
exactly when the `catch` block ran, which it does for a body that does not
parse; 500 exactly when a record store write returned an error; every other
path, the no-op branches included, returns 200 with body `OK`. -/
theorem C16_every_outcome_has_its_status_code
    (env : Env) (store : StoreOp → Bool) (req : Request) :
    ((handler env store req).response = ⟨"OK", 200⟩ ∨
      (handler env store req).response = ⟨"Bad Request", 400⟩ ∨
      (handler env store req).response = ⟨"Unauthorized", 401⟩ ∨
      (handler env store req).response = ⟨"Method Not Allowed", 405⟩ ∨
      (handler env store req).response = ⟨"Internal Server Error", 500⟩) ∧
    ((handler env store req).response.status = 405 ↔ req.method ≠ js "POST") ∧
    ((handler env store req).response.status = 401 ↔
      req.method = js "POST" ∧ (truthy req.signature = false ∨
        ∃ sig body secret generated, req.signature = some sig ∧ req.body = some body ∧
          env.IPN_SECRET = some secret ∧ secret ≠ [] ∧
          generatedSignature secret body = some generated ∧ sig ≠ generated)) ∧
    ((handler env store req).response.status = 400 ↔ ∃ t, handler env store req = caught t) ∧
    (req.method = js "POST" → truthy req.signature = true → req.body = none →
      (handler env store req).response.status = 400) ∧
    ((handler env store req).response.status = 500 ↔
      ∃ op ∈ storeOps (handler env store req).trace, store op = true) := by
  have hpp : ∀ body, (processPayment store body (verifiedTrace env)).response.status ≠ 401 ∧
      (processPayment store body (verifiedTrace env)).response.status ≠ 405 := by
    intro body
    have := processPayment_status store body (verifiedTrace env)
    constructor <;> omega
  refine ⟨?_, ?_, ?_, ?_, ?_, ?_⟩
  · rcases handler_cases env store req with ⟨_, hr | hr | hr | hr⟩ | ⟨op, _, hr, _⟩
    · exact Or.inr (Or.inr (Or.inr (Or.inl hr)))
    · exact Or.inr (Or.inr (Or.inl hr))
    · exact Or.inr (Or.inl hr)
    · exact Or.inl hr
    · rw [hr]
      cases store op <;> simp
  · rcases handler_paths env store req with ⟨hm, h⟩ | ⟨hm, _, h⟩ | ⟨hm, _, _, h⟩ |
      ⟨hm, _, _, _, _, _, _, _, _, _, h⟩ | ⟨hm, _, _, _, _, _, _, _, _, _, _, _, h⟩ |
      ⟨body, hv, _, h⟩
    · simp [h, hm]
    · simp [h, hm, missingSignature]
    · simp [h, hm, caught]
    · simp [h, hm, caught]
    · simp [h, hm, invalidSignature]
    · have hm : req.method = js "POST" := by
        simp only [verified, Bool.and_eq_true, beq_iff_eq] at hv
        exact hv.1.1
      rw [h]
      simp [hm, (hpp body).2]
  · constructor
    · intro h401
      rcases handler_paths env store req with ⟨_, h⟩ | ⟨hm, hs, _⟩ | ⟨_, _, _, h⟩ |
        ⟨_, _, _, _, _, _, _, _, _, _, h⟩ |
        ⟨hm, sig, body, secret, generated, hsig, _, hb, hs, hsne, hg, hne, _⟩ | ⟨body, _, _, h⟩
      · simp [h] at h401
      · exact ⟨hm, Or.inl hs⟩
      · simp [h, caught] at h401
      · simp [h, caught] at h401
      · exact ⟨hm, Or.inr ⟨sig, body, secret, generated, hsig, hb, hs, hsne, hg, hne⟩⟩
      · rw [h] at h401
        exact absurd h401 (hpp body).1
    · rintro ⟨hm, hfail⟩
      rcases handler_unauthorized env store req hm hfail with h | h <;> rw [h] <;> rfl
  · constructor
    · intro h400
      rcases handler_paths env store req with ⟨_, h⟩ | ⟨_, _, h⟩ | ⟨_, _, _, h⟩ |
        ⟨_, _, _, _, _, _, _, _, _, _, h⟩ | ⟨_, _, _, _, _, _, _, _, _, _, _, _, h⟩ |
        ⟨body, _, _, h⟩
      · simp [h] at h400
      · simp [h, missingSignature] at h400
      · exact ⟨_, h⟩
      · exact ⟨_, h⟩
      · simp [h, invalidSignature] at h400
      · rw [h] at h400 ⊢
        rcases processPayment_cases store body (verifiedTrace env) (storeOps_verifiedTrace env)
          with ⟨_, hr | ht⟩ | ⟨op, _, hr, _⟩
        · simp [hr] at h400
        · exact ht
        · rw [hr] at h400
          cases hs : store op <;> simp [hs] at h400
    · rintro ⟨t, h⟩
      rw [h]
      rfl
  · intro hm hsig hb
    rw [handler_unparsed env store req hm hsig hb]
    rfl
  · rcases handler_cases env store req with ⟨h0, hr⟩ | ⟨op, hops, hr, _⟩
    · constructor
      · intro h
        rcases hr with hr | hr | hr | hr <;> simp [hr] at h
      · simp [h0]
    · rw [hr, hops]
      cases hs : store op <;> simp [hs]

/-! ## Skipped verification (C17) -/

/-- An empty signature header is a missing one for the handler: with no secret
configured, the same body is answered 401 with an empty header value and 200
with the value `abc`. -/
theorem empty_header_is_missing :
    (⟨none⟩ : Env).IPN_SECRET = none ∧
    (handler ⟨none⟩ storeOk ⟨js "POST", some (js ""), some waitingBody⟩).response
      = ⟨"Unauthorized", 401⟩ ∧
    (handler ⟨none⟩ storeOk ⟨js "POST", some (js "abc"), some waitingBody⟩).response
      = ⟨"OK", 200⟩ := by
  decide

/-- C17: when no secret is configured (unset or empty), two POST requests with
the same body that both carry a signature header (present and not empty, which
is what the handler tests) have the same outcome whatever the two header
values are: the same response and the same trace, hence the same status and
the same record store operations. -/
theorem C17_header_value_is_irrelevant_without_secret
    (env : Env) (store : StoreOp → Bool) (body : Option Json) (sig₁ sig₂ : JSString)
    (hs : truthy env.IPN_SECRET = false) (h₁ : sig₁ ≠ []) (h₂ : sig₂ ≠ []) :
    handler env store ⟨js "POST", some sig₁, body⟩
      = handler env store ⟨js "POST", some sig₂, body⟩ := by
  have ht : ∀ sig : JSString, sig ≠ [] → truthy (some sig) = true := by
    intro sig h
    cases sig with
    | nil => exact absurd rfl h
    | cons u us => rfl
  cases body with
  | none =>
    rw [handler_unparsed env store ⟨js "POST", some sig₁, none⟩ rfl (ht _ h₁) rfl,
      handler_unparsed env store ⟨js "POST", some sig₂, none⟩ rfl (ht _ h₂) rfl]
  | some b =>
    rw [handler_skipped env store ⟨js "POST", some sig₁, some b⟩ b rfl (ht _ h₁) rfl hs,
      handler_skipped env store ⟨js "POST", some sig₂, some b⟩ b rfl (ht _ h₂) rfl hs]

/-- Witness for C17: the premium notification with two different header values
and no secret. -/
theorem C17_witness :
    handler ⟨none⟩ storeOk ⟨js "POST", some (js "abc"), some premiumBody⟩
      = handler ⟨none⟩ storeOk ⟨js "POST", some premiumSignature, some premiumBody⟩ :=
  C17_header_value_is_irrelevant_without_secret ⟨none⟩ storeOk (some premiumBody) (js "abc")
    premiumSignature rfl (by decide) (by decide)

/-! ## Redelivery (C15) -/

theorem upsertRow_idem (row : Donation) (rows : List Donation) :
    upsertRow row (upsertRow row rows) = upsertRow row rows := by
  unfold upsertRow
  by_cases h : rows.any (fun d => d.order_id == row.order_id) = true
  · have h2 : (rows.map (fun d => if d.order_id = row.order_id then row else d)).any
        (fun d => d.order_id == row.order_id) = true := by
      simp only [List.any_eq_true, beq_iff_eq, List.mem_map] at h ⊢
      obtain ⟨d, hd, hk⟩ := h
      exact ⟨row, ⟨d, hd, by simp [hk]⟩, rfl⟩
    simp only [h, h2, if_true, List.map_map]
    apply List.map_congr_left
    intro d _
    by_cases hk : d.order_id = row.order_id <;> simp [hk]
  · have h3 : (rows ++ [row]).any (fun d => d.order_id == row.order_id) = true := by
      simp
    simp only [h, h3, if_true, Bool.false_eq_true, if_false, List.map_append, List.map_cons,
      List.map_nil]
    congr 1
    conv_rhs => rw [← List.map_id rows]
    apply List.map_congr_left
    intro d hd
    have : d.order_id ≠ row.order_id := by
      intro hk
      exact h (List.any_eq_true.mpr ⟨d, hd, by simp [hk]⟩)
    simp [this]

theorem upsertRow_count (row : Donation) (rows : List Donation)
    (h : (rows.filter (fun d => d.order_id = row.order_id)).length ≤ 1) :
    ((upsertRow row rows).filter (fun d => d.order_id = row.order_id)).length = 1 := by
  unfold upsertRow
  by_cases ha : rows.any (fun d => d.order_id == row.order_id) = true
  · simp only [ha, if_true]
    have hlen : ∀ l : List Donation,
        ((l.map (fun d => if d.order_id = row.order_id then row else d)).filter
          (fun d => d.order_id = row.order_id)).length
        = (l.filter (fun d => d.order_id = row.order_id)).length := by
      intro l
      induction l with
      | nil => rfl
      | cons d l ih =>
        by_cases hk : d.order_id = row.order_id <;> simp [List.filter_cons, hk, ih]
    rw [hlen]
    have hpos : 0 < (rows.filter (fun d => d.order_id = row.order_id)).length := by
      rw [List.length_pos_iff_exists_mem]
      obtain ⟨d, hd, hk⟩ := List.any_eq_true.mp ha
      exact ⟨d, List.mem_filter.mpr ⟨hd, by simpa using hk⟩⟩
    omega
  · simp only [ha, Bool.false_eq_true, if_false, List.filter_append]
    have hnone : rows.filter (fun d => d.order_id = row.order_id) = [] := by
      rw [List.filter_eq_nil_iff]
      intro d hd hk
      exact ha (List.any_eq_true.mpr ⟨d, hd, by simpa using hk⟩)
    simp [hnone]

/-- Applying one of the two calls the handler makes a second time changes nothing. -/
theorem Store.apply_idem (s : Store) (op : StoreOp)
    (hkind : (∃ id, op = StoreOp.update "user_profiles" [("is_premium", .bool true)] "id" id) ∨
      ∃ record, op = StoreOp.upsert "donations" record "order_id") :
    (s.apply op).apply op = s.apply op := by
  rcases hkind with ⟨id, rfl⟩ | ⟨record, rfl⟩
  · simp only [Store.apply, List.map_map]
    congr 1
    apply List.map_congr_left
    intro a _
    by_cases h : a.id = id <;> simp [h]
  · simp only [Store.apply]
    cases hc : column record "order_id" with
    | none => rfl
    | some v =>
      cases v <;> first | rfl | (simp only [upsertRow_idem])

/-- The record store call of the premium branch. -/
theorem storeOps_premium (env : Env) (store : StoreOp → Bool) (req : Request) (body : Json)
    (orderId : JSString) (hv : verified env req = true) (hb : req.body = some body)
    (hstatus : body.get (js "payment_status") = some (.str (js "finished")))
    (horder : body.get (js "order_id") = some (.str orderId))
    (hpre : startsWith orderId (js "premium_") = true) :
    storeOps (handler env store req).trace
      = [StoreOp.update "user_profiles" [("is_premium", .bool true)] "id"
          ((split orderId 95).getD 1 [])] := by
  obtain ⟨r, rfl⟩ := (startsWith_iff _ _).mp hpre
  have hlen : (split (js "premium_" ++ r) 95).length ≥ 2 := by
    rw [split_premium]
    have := splitAux_ne_nil 95 r []
    cases h : split r 95 with
    | nil => exact absurd h this
    | cons u rest => simp
  obtain ⟨props, rfl⟩ := obj_of_get (by decide) hstatus
  have hfin : strictEquals (some (Json.str (js "finished"))) (js "finished") = true := by decide
  rw [handler_verified env store req _ hv hb]
  simp only [processPayment, getProp, hstatus, horder, hfin, hpre, hlen, if_true]
  split_ifs <;> simp [ok, storeOps_append, storeOps_verifiedTrace, storeOps]

/-- The record store call of the donation branch. -/
theorem storeOps_donation (env : Env) (store : StoreOp → Bool) (req : Request) (body : Json)
    (orderId : JSString) (hv : verified env req = true) (hb : req.body = some body)
    (hstatus : body.get (js "payment_status") = some (.str (js "finished")))
    (horder : body.get (js "order_id") = some (.str orderId))
    (hpre : startsWith orderId (js "donation_") = true) :
    storeOps (handler env store req).trace
      = [StoreOp.upsert "donations"
          [("order_id", some (.str orderId)), ("payment_id", body.get (js "payment_id")),
           ("amount", body.get (js "price_amount")), ("currency", body.get (js "price_currency")),
           ("status", some (.str (js "finished")))] "order_id"] := by
  obtain ⟨props, rfl⟩ := obj_of_get (by decide) hstatus
  have hfin : strictEquals (some (Json.str (js "finished"))) (js "finished") = true := by decide
  have hnp := not_premium_of_donation orderId hpre
  rw [handler_verified env store req _ hv hb]
  simp only [processPayment, getProp, hstatus, horder, hfin, hpre, hnp]
  split_ifs <;>
    simp [ok, storeOps_append, storeOps_verifiedTrace, storeOps] <;> simp_all

/-- The store after the calls of one invocation, applied once more. -/
theorem deliver_store_idem (env : Env) (s : Store) (req : Request) :
    (storeOps (handler env storeOk req).trace).foldl Store.apply
        ((storeOps (handler env storeOk req).trace).foldl Store.apply s)
      = (storeOps (handler env storeOk req).trace).foldl Store.apply s := by
  rcases handler_cases env storeOk req with ⟨h0, _⟩ | ⟨op, hops, _, hkind⟩
  · simp [h0]
  · simp only [hops, List.foldl_cons, List.foldl_nil]
    exact Store.apply_idem s op hkind

/-- C15: delivering the same verified notification twice over a record store
with update-by-id and upsert-by-order_id semantics that accepts every write is
idempotent: the second delivery gets the same response as the first (200 OK
whenever the first was answered 200), and the store after two deliveries
equals the store after one.  After a premium notification every account with
the extracted id has the flag set; after a donation notification there is
exactly one donation record with the order identifier, when there was at most
one before. -/
theorem C15_redelivery_is_idempotent
    (env : Env) (s : Store) (req : Request) (hv : verified env req = true) :
    (deliver env (deliver env s req).2 req).1.response = (deliver env s req).1.response ∧
    (deliver env (deliver env s req).2 req).2 = (deliver env s req).2 ∧
    ((deliver env s req).1.response.status = 200 →
      (deliver env (deliver env s req).2 req).1.response = ⟨"OK", 200⟩) ∧
    (∀ body orderId, req.body = some body →
      body.get (js "payment_status") = some (.str (js "finished")) →
      body.get (js "order_id") = some (.str orderId) →
      startsWith orderId (js "premium_") = true →
      ∀ a ∈ (deliver env (deliver env s req).2 req).2.user_profiles,
        a.id = (split orderId 95).getD 1 [] → a.is_premium = true) ∧
    (∀ body orderId, req.body = some body →
      body.get (js "payment_status") = some (.str (js "finished")) →
      body.get (js "order_id") = some (.str orderId) →
      startsWith orderId (js "donation_") = true →
      (s.donations.filter (fun d => d.order_id = orderId)).length ≤ 1 →
      ((deliver env (deliver env s req).2 req).2.donations.filter
        (fun d => d.order_id = orderId)).length = 1) := by
  have hstate : (deliver env (deliver env s req).2 req).2 = (deliver env s req).2 :=
    deliver_store_idem env s req
  refine ⟨rfl, hstate, ?_, ?_, ?_⟩
  · intro h200
    have hresp : (deliver env s req).1.response = ⟨"OK", 200⟩ := by
      simp only [deliver] at h200 ⊢
      rcases handler_cases env storeOk req with ⟨_, hr | hr | hr | hr⟩ | ⟨op, _, hr, _⟩
      · simp [hr] at h200
      · simp [hr] at h200
      · simp [hr] at h200
      · exact hr
      · rw [hr]
        simp [storeOk]
    exact hresp
  · intro body orderId hb hstatus horder hpre a ha hid
    rw [hstate] at ha
    simp only [deliver, storeOps_premium env storeOk req body orderId hv hb hstatus horder hpre,
      List.foldl_cons, List.foldl_nil, Store.apply, List.mem_map] at ha
    obtain ⟨a', _, rfl⟩ := ha
    by_cases h : a'.id = (split orderId 95).getD 1 []
    · simp [h]
    · simp only [h, if_false] at hid
  · intro body orderId hb hstatus horder hpre hcount
    rw [hstate]
    simp only [deliver, storeOps_donation env storeOk req body orderId hv hb hstatus horder hpre,
      List.foldl_cons, List.foldl_nil, Store.apply, column]
    exact upsertRow_count ⟨orderId, _, _, _, _⟩ s.donations hcount

/-- Witness for C15: the premium notification signed under `topsecret`,
delivered twice over `exampleStore`. -/
theorem C15_witness :
    (deliver ⟨some (js "topsecret")⟩ (deliver ⟨some (js "topsecret")⟩ exampleStore
        ⟨js "POST", some premiumSignature, some premiumBody⟩).2
        ⟨js "POST", some premiumSignature, some premiumBody⟩).2
      = (deliver ⟨some (js "topsecret")⟩ exampleStore
        ⟨js "POST", some premiumSignature, some premiumBody⟩).2 :=
  (C15_redelivery_is_idempotent ⟨some (js "topsecret")⟩ exampleStore
    ⟨js "POST", some premiumSignature, some premiumBody⟩
    (verified_of_generated _ _ premiumBody (js "topsecret") rfl (by decide) rfl rfl (by decide)
      premiumSignature_generated)).2.1

/-- The premium notification delivered over `exampleStore`, once or twice,
sets the flag of account 42 and nothing else. -/
theorem deliver_premium_example :
    (deliver ⟨none⟩ exampleStore ⟨js "POST", some (js "abc"), some premiumBody⟩).2.user_profiles
      = [⟨js "42", true⟩, ⟨js "43", false⟩] ∧
    (deliver ⟨none⟩ (deliver ⟨none⟩ exampleStore
        ⟨js "POST", some (js "abc"), some premiumBody⟩).2
        ⟨js "POST", some (js "abc"), some premiumBody⟩).2.user_profiles
      = [⟨js "42", true⟩, ⟨js "43", false⟩] :=
  ⟨rfl, rfl⟩

/-- The donation notification delivered over `exampleStore`, once or twice,
adds one record. -/
theorem deliver_donation_example :
    ((deliver ⟨none⟩ exampleStore
        ⟨js "POST", some (js "abc"), some donationBody⟩).2.donations.map (fun d => d.order_id))
      = [js "donation_1600000000", js "donation_1700000000"] ∧
    ((deliver ⟨none⟩ (deliver ⟨none⟩ exampleStore
        ⟨js "POST", some (js "abc"), some donationBody⟩).2
        ⟨js "POST", some (js "abc"), some donationBody⟩).2.donations.map (fun d => d.order_id))
      = [js "donation_1600000000", js "donation_1700000000"] := by
  decide

/-! ## The feedback mail forwarder (C19) -/

/-- C19: the send-feedback-email handler answers every request whose method is
not POST with 405 Method Not Allowed and an empty trace: the payload is not
read, no user profile is looked up and no mail request is sent. -/
theorem C19_feedback_non_post_is_405
    (env : Feedback.Env) (world : Feedback.World) (req : Feedback.Request)
    (hm : req.method ≠ js "POST") :
    (Feedback.handler env world req).response = ⟨js "Method Not Allowed", 405, none⟩ ∧
      (Feedback.handler env world req).trace = [] := by
  simp [Feedback.handler, hm]

/-- Witness for C19: a GET request with a complete payload. -/
theorem C19_witness :
    (Feedback.handler ⟨some (js "key"), none⟩ Feedback.quietWorld
        ⟨js "GET", some (.obj [(js "record", .obj [(js "feedback_text", .str (js "hi"))])])⟩).response
      = ⟨js "Method Not Allowed", 405, none⟩ ∧
    (Feedback.handler ⟨some (js "key"), none⟩ Feedback.quietWorld
        ⟨js "GET", some (.obj [(js "record", .obj [(js "feedback_text", .str (js "hi"))])])⟩).trace
      = [] :=
  C19_feedback_non_post_is_405 ⟨some (js "key"), none⟩ Feedback.quietWorld
    ⟨js "GET", some (.obj [(js "record", .obj [(js "feedback_text", .str (js "hi"))])])⟩
    (by decide)

/-- The same payload sent with POST is read and forwarded. -/
theorem Feedback.handler_post_example :
    ((Feedback.handler ⟨some (js "key"), none⟩ Feedback.quietWorld
        ⟨js "POST", some (.obj [(js "record", .obj [(js "feedback_text", .str (js "a\nb"))])])⟩
      ).response.status = 200) ∧
    ((Feedback.handler ⟨some (js "key"), none⟩ Feedback.quietWorld
        ⟨js "POST", some (.obj [(js "record", .obj [(js "feedback_text", .str (js "a\nb"))])])⟩
      ).trace.length = 5) := by
  decide

/-! ## The typewriter effect (C20) -/

/-- A title line of one character is typed, then deleted, and the next line starts. -/
theorem typeWriter_single_character (c : Nat) (others : List JSString) :
    ticks 1 (initTypewriter ([c] :: others)) = ⟨[c] :: others, 0, 1, true⟩ ∧
    ticks 2 (initTypewriter ([c] :: others)) = ⟨[] :: others, 1, 0, false⟩ := by
  constructor <;> simp [ticks, typeWriter, initTypewriter, substring]

/-- A title line of two or more characters is cut to its first character by
the first call, and every later call only increments `charIndex`. -/
theorem typeWriter_stuck (c d : Nat) (rest : JSString) (others : List JSString) (k : Nat) :
    ticks (k + 1) (initTypewriter ((c :: d :: rest) :: others))
      = ⟨[c] :: others, 0, (k : Int) + 1, false⟩ := by
  have hstep : ∀ j : Nat, typeWriter ⟨[c] :: others, 0, (j : Int) + 1, false⟩
      = (⟨[c] :: others, 0, (j : Int) + 2, false⟩, some 100) := by
    intro j
    have h1 : ((j : Int) + 2 == 1) = false := by
      simp only [beq_eq_false_iff_ne, ne_eq]
      omega
    have h2 : ((j : Int) + 1 + 1).toNat = j + 2 := by omega
    have h3 : (j : Int) + 1 + 1 = (j : Int) + 2 := by ring
    simp only [typeWriter, substring, List.length_cons, List.getD_cons_zero, List.set_cons_zero,
      Bool.not_false, Bool.true_and, Bool.false_and, h2, List.length_nil, Nat.zero_add,
      List.take_succ_cons, List.take_nil, Bool.false_eq_true, if_false, h3, ge_iff_le,
      Nat.le_zero_eq, Nat.add_one_ne_zero, Nat.reduceAdd, Nat.cast_one, List.take, h1]
  have hfirst : typeWriter (initTypewriter ((c :: d :: rest) :: others))
      = (⟨[c] :: others, 0, 1, false⟩, some 100) := by
    simp [typeWriter, initTypewriter, substring]
    omega
  have hiter : ∀ n j : Nat, ticks n ⟨[c] :: others, 0, (j : Int) + 1, false⟩
      = ⟨[c] :: others, 0, (j : Int) + (n : Int) + 1, false⟩ := by
    intro n
    induction n with
    | zero => intro j; simp [ticks]
    | succ n ih =>
      intro j
      have := ih (j + 1)
      simp only [ticks, hstep]
      rw [show ((j : Int) + 2) = ((j + 1 : Nat) : Int) + 1 by push_cast; ring, this]
      congr 1
      push_cast
      ring
  simp only [ticks, hfirst]
  have := hiter k 0
  simpa using this

/-- C20, at the failing input of one title line with the text `ab`: the first
call of `typeWriter` overwrites the line with `a`, and from then on every call
reads the text `a` back from the element, so `charIndex` (2, 3, …) never
equals the text length again: after any number of calls `isDeleting` is false
and `lineIndex` is 0, the line shows `a` and not `ab`, and the next line never
starts. -/
theorem C20_line_of_two_characters_is_never_typed_out :
    (∀ k : Nat, ticks (k + 1) (initTypewriter [js "ab"])
      = ⟨[js "a"], 0, (k : Int) + 1, false⟩) ∧
    (∀ n : Nat, (ticks n (initTypewriter [js "ab"])).isDeleting = false ∧
      (ticks n (initTypewriter [js "ab"])).lineIndex = 0) := by
  have hab : js "ab" = [97, 98] := by decide
  have ha : js "a" = [97] := by decide
  have hk : ∀ k : Nat, ticks (k + 1) (initTypewriter [js "ab"])
      = ⟨[js "a"], 0, (k : Int) + 1, false⟩ := by
    intro k
    rw [hab, ha]
    exact typeWriter_stuck 97 98 [] [] k
  refine ⟨hk, fun n => ?_⟩
  cases n with
  | zero => exact ⟨rfl, rfl⟩
  | succ k => rw [hk k]; exact ⟨rfl, rfl⟩

/-! ## The account identifier of a premium order (C21, C22) -/

/-- The first segment `split` gives: what was read so far and the text up to
the next separator. -/
theorem splitAux_head (sep : Nat) (s cur : JSString) :
    (splitAux sep s cur).head? = some (cur.reverse ++ s.takeWhile (fun u => u ≠ sep)) := by
  induction s generalizing cur with
  | nil => simp [splitAux]
  | cons c s ih =>
    simp only [splitAux]
    split_ifs with h
    · simp [h]
    · rw [ih]
      simp [List.takeWhile_cons, h]

/-- The segment of index 1 of an order identifier that starts with `premium_`
is the text after the underscore up to the next underscore. -/
theorem userId_of_premium (r : JSString) :
    (split (js "premium_" ++ r) 95).getD 1 [] = r.takeWhile (fun u => u ≠ 95) := by
  rw [split_premium]
  have h := splitAux_head 95 r []
  unfold split
  cases hs : splitAux 95 r [] with
  | nil => exact absurd hs (splitAux_ne_nil 95 r [])
  | cons u rest =>
    rw [hs] at h
    simp only [List.head?_cons, Option.some.injEq, List.reverse_nil, List.nil_append] at h
    simp [h]

/-- The guard `parts.length >= 2` of the premium branch always holds. -/
theorem split_length_of_premium (orderId : JSString)
    (hpre : startsWith orderId (js "premium_") = true) : (split orderId 95).length ≥ 2 := by
  obtain ⟨r, rfl⟩ := (startsWith_iff _ _).mp hpre
  rw [split_premium]
  cases h : split r 95 with
  | nil => exact absurd h (splitAux_ne_nil 95 r [])
  | cons u rest => simp

/-- C21: for every order_id that starts with `premium_` the guard
`parts.length >= 2` holds, so every verified finished notification with such
an order_id issues the account update (the path without action is not taken);
for the order_id `premium_` itself the update targets the empty account id. -/
theorem C21_premium_guard_always_holds
    (env : Env) (store : StoreOp → Bool) (req : Request) (body : Json) (orderId : JSString)
    (hv : verified env req = true) (hb : req.body = some body)
    (hstatus : body.get (js "payment_status") = some (.str (js "finished")))
    (horder : body.get (js "order_id") = some (.str orderId))
    (hpre : startsWith orderId (js "premium_") = true) :
    (split orderId 95).length ≥ 2 ∧
    storeOps (handler env store req).trace
      = [StoreOp.update "user_profiles" [("is_premium", .bool true)] "id"
          ((split orderId 95).getD 1 [])] ∧
    (orderId = js "premium_" → (split orderId 95).getD 1 [] = js "") :=
  ⟨split_length_of_premium orderId hpre,
    storeOps_premium env store req body orderId hv hb hstatus horder hpre,
    fun h => by rw [h]; decide⟩

/-- Witness for C21: the order identifier `premium_` updates the account with
the empty id. -/
theorem C21_witness :
    (split (js "premium_") 95).length ≥ 2 ∧
    storeOps (handler ⟨none⟩ storeOk
        ⟨js "POST", some (js "abc"), some (finishedBody (js "premium_"))⟩).trace
      = [StoreOp.update "user_profiles" [("is_premium", .bool true)] "id"
          ((split (js "premium_") 95).getD 1 [])] ∧
    (js "premium_" = js "premium_" → (split (js "premium_") 95).getD 1 [] = js "") :=
  C21_premium_guard_always_holds ⟨none⟩ storeOk
    ⟨js "POST", some (js "abc"), some (finishedBody (js "premium_"))⟩
    (finishedBody (js "premium_")) (js "premium_")
    (verified_of_no_secret _ _ (finishedBody (js "premium_")) rfl (by decide) rfl rfl)
    rfl rfl rfl (by decide)

/-- C22: the account id extracted from an order_id `premium_` followed by `r`
is the part of `r` before its first underscore (all of `r` when it has none);
it contains no underscore, and it is the id the update of a verified finished
notification targets.  For `premium_a_b_999` the id is `a`. -/
theorem C22_account_id_stops_at_the_next_underscore
    (env : Env) (store : StoreOp → Bool) (req : Request) (body : Json) (r : JSString)
    (hv : verified env req = true) (hb : req.body = some body)
    (hstatus : body.get (js "payment_status") = some (.str (js "finished")))
    (horder : body.get (js "order_id") = some (.str (js "premium_" ++ r))) :
    (split (js "premium_" ++ r) 95).getD 1 [] = r.takeWhile (fun u => u ≠ 95) ∧
    95 ∉ (split (js "premium_" ++ r) 95).getD 1 [] ∧
    storeOps (handler env store req).trace
      = [StoreOp.update "user_profiles" [("is_premium", .bool true)] "id"
          (r.takeWhile (fun u => u ≠ 95))] ∧
    (r = js "a_b_999" → (split (js "premium_" ++ r) 95).getD 1 [] = js "a") := by
  have hid := userId_of_premium r
  refine ⟨hid, ?_, ?_, ?_⟩
  · rw [hid]
    intro hmem
    have := List.mem_takeWhile_imp hmem
    simp at this
  · rw [← hid]
    exact storeOps_premium env store req body _ hv hb hstatus horder
      ((startsWith_iff _ _).mpr ⟨r, rfl⟩)
  · intro h
    rw [h]
    decide

/-- Witness for C22: the order identifier `premium_a_b_999` updates the account `a`. -/
theorem C22_witness :
    (split (js "premium_" ++ js "a_b_999") 95).getD 1 []
      = (js "a_b_999").takeWhile (fun u => u ≠ 95) ∧
    95 ∉ (split (js "premium_" ++ js "a_b_999") 95).getD 1 [] ∧
    storeOps (handler ⟨none⟩ storeOk
        ⟨js "POST", some (js "abc"), some (finishedBody (js "premium_" ++ js "a_b_999"))⟩).trace
      = [StoreOp.update "user_profiles" [("is_premium", .bool true)] "id"
          ((js "a_b_999").takeWhile (fun u => u ≠ 95))] ∧
    (js "a_b_999" = js "a_b_999" →
      (split (js "premium_" ++ js "a_b_999") 95).getD 1 [] = js "a") :=
  C22_account_id_stops_at_the_next_underscore ⟨none⟩ storeOk
    ⟨js "POST", some (js "abc"), some (finishedBody (js "premium_" ++ js "a_b_999"))⟩
    (finishedBody (js "premium_" ++ js "a_b_999")) (js "a_b_999")
    (verified_of_no_secret _ _ (finishedBody (js "premium_" ++ js "a_b_999")) rfl (by decide)
      rfl rfl)
    rfl rfl rfl

/-! ## Exceptions inside the `try` block (C25, C26) -/

/-- C25: a verified POST notification with payment_status "finished" whose
order_id is not a string issues no record store operation; it is answered
200 OK when order_id is absent or `null`, and 400 Bad Request (the `catch`
block runs, after the client was created) when order_id is any other value
that is not a string: a number, a boolean, an array or an object. -/
theorem C25_order_id_that_is_not_a_string
    (env : Env) (store : StoreOp → Bool) (req : Request) (body : Json)
    (hv : verified env req = true) (hb : req.body = some body)
    (hstatus : body.get (js "payment_status") = some (.str (js "finished"))) :
    ((body.get (js "order_id") = none ∨ body.get (js "order_id") = some .null) →
      (handler env store req).response = ⟨"OK", 200⟩ ∧
        storeOps (handler env store req).trace = []) ∧
    (∀ v, body.get (js "order_id") = some v → v ≠ .null → (∀ s, v ≠ .str s) →
      (handler env store req).response = ⟨"Bad Request", 400⟩ ∧
        storeOps (handler env store req).trace = [] ∧
        handler env store req = caught (verifiedTrace env ++ [.createClient])) := by
  obtain ⟨props, rfl⟩ := obj_of_get (by decide) hstatus
  have hfin : strictEquals (some (Json.str (js "finished"))) (js "finished") = true := by decide
  rw [handler_verified env store req _ hv hb]
  constructor
  · rintro (h | h) <;>
      simp [processPayment, getProp, hstatus, h, hfin, ok, storeOps_append,
        storeOps_verifiedTrace, storeOps]
  · intro v h hnull hstr
    cases v with
    | null => exact absurd rfl hnull
    | str s => exact absurd rfl (hstr s)
    | _ =>
      simp [processPayment, getProp, hstatus, h, hfin, caught, storeOps_append,
        storeOps_verifiedTrace, storeOps]

/-- Witness for C25: order_id absent, `null`, a number, a boolean, an array and
an object, with no secret configured. -/
theorem C25_witness :
    ((handler ⟨none⟩ storeOk ⟨js "POST", some (js "abc"), some (finishedWith none)⟩).response
        = ⟨"OK", 200⟩ ∧
      storeOps (handler ⟨none⟩ storeOk
        ⟨js "POST", some (js "abc"), some (finishedWith none)⟩).trace = []) ∧
    ((handler ⟨none⟩ storeOk
        ⟨js "POST", some (js "abc"), some (finishedWith (some .null))⟩).response = ⟨"OK", 200⟩ ∧
      storeOps (handler ⟨none⟩ storeOk
        ⟨js "POST", some (js "abc"), some (finishedWith (some .null))⟩).trace = []) ∧
    ((handler ⟨none⟩ storeOk
        ⟨js "POST", some (js "abc"), some (finishedWith (some (.num (js "7"))))⟩).response
        = ⟨"Bad Request", 400⟩) ∧
    ((handler ⟨none⟩ storeOk
        ⟨js "POST", some (js "abc"), some (finishedWith (some (.bool true)))⟩).response
        = ⟨"Bad Request", 400⟩) ∧
    ((handler ⟨none⟩ storeOk
        ⟨js "POST", some (js "abc"), some (finishedWith (some (.arr [])))⟩).response
        = ⟨"Bad Request", 400⟩) ∧
    ((handler ⟨none⟩ storeOk
        ⟨js "POST", some (js "abc"), some (finishedWith (some (.obj [])))⟩).response
        = ⟨"Bad Request", 400⟩) :=
  ⟨(C25_order_id_that_is_not_a_string ⟨none⟩ storeOk
      ⟨js "POST", some (js "abc"), some (finishedWith none)⟩ (finishedWith none)
      (verified_of_no_secret _ _ (finishedWith none) rfl (by decide) rfl rfl) rfl rfl).1
      (Or.inl rfl),
    (C25_order_id_that_is_not_a_string ⟨none⟩ storeOk
      ⟨js "POST", some (js "abc"), some (finishedWith (some .null))⟩ (finishedWith (some .null))
      (verified_of_no_secret _ _ (finishedWith (some .null)) rfl (by decide) rfl rfl) rfl rfl).1
      (Or.inr rfl),
    ((C25_order_id_that_is_not_a_string ⟨none⟩ storeOk
      ⟨js "POST", some (js "abc"), some (finishedWith (some (.num (js "7"))))⟩
      (finishedWith (some (.num (js "7"))))
      (verified_of_no_secret _ _ (finishedWith (some (.num (js "7")))) rfl (by decide) rfl rfl)
      rfl rfl).2 _ rfl (by intro h; cases h) (by intro s h; cases h)).1,
    ((C25_order_id_that_is_not_a_string ⟨none⟩ storeOk
      ⟨js "POST", some (js "abc"), some (finishedWith (some (.bool true)))⟩
      (finishedWith (some (.bool true)))
      (verified_of_no_secret _ _ (finishedWith (some (.bool true))) rfl (by decide) rfl rfl)
      rfl rfl).2 _ rfl (by intro h; cases h) (by intro s h; cases h)).1,
    ((C25_order_id_that_is_not_a_string ⟨none⟩ storeOk
      ⟨js "POST", some (js "abc"), some (finishedWith (some (.arr [])))⟩
      (finishedWith (some (.arr [])))
      (verified_of_no_secret _ _ (finishedWith (some (.arr []))) rfl (by decide) rfl rfl)
      rfl rfl).2 _ rfl (by intro h; cases h) (by intro s h; cases h)).1,
    ((C25_order_id_that_is_not_a_string ⟨none⟩ storeOk
      ⟨js "POST", some (js "abc"), some (finishedWith (some (.obj [])))⟩
      (finishedWith (some (.obj [])))
      (verified_of_no_secret _ _ (finishedWith (some (.obj []))) rfl (by decide) rfl rfl)
      rfl rfl).2 _ rfl (by intro h; cases h) (by intro s h; cases h)).1⟩

/-- C26: a POST request that carries a signature header (present and not
empty) and whose body is the JSON value `null` is answered 400 Bad Request
and issues no record store operation: when a secret is configured because
`Object.keys(null)` throws, when none is configured because reading
`payment_status` of `null` throws; in both cases the `catch` block runs. -/
theorem C26_null_body_is_400
    (env : Env) (store : StoreOp → Bool) (req : Request)
    (hm : req.method = js "POST") (hsig : truthy req.signature = true)
    (hb : req.body = some .null) :
    (handler env store req).response = ⟨"Bad Request", 400⟩ ∧
    storeOps (handler env store req).trace = [] ∧
    (truthy env.IPN_SECRET = true →
      Object.keys .null = none ∧ handler env store req = caught parsedTrace) ∧
    (truthy env.IPN_SECRET = false →
      getProp .null (js "payment_status") = none ∧
        handler env store req = caught skippedTrace) := by
  have hcases : (truthy env.IPN_SECRET = true → handler env store req = caught parsedTrace) ∧
      (truthy env.IPN_SECRET = false → handler env store req = caught skippedTrace) := by
    constructor
    · intro hs
      obtain ⟨sig, hsg, hne⟩ : ∃ sig, req.signature = some sig ∧ sig ≠ [] := by
        cases h : req.signature with
        | none => simp [h, truthy] at hsig
        | some sig =>
          cases sig with
          | nil => simp [h, truthy] at hsig
          | cons u us => exact ⟨_, rfl, by simp⟩
      obtain ⟨secret, hsec, hsne⟩ : ∃ secret, env.IPN_SECRET = some secret ∧ secret ≠ [] := by
        cases h : env.IPN_SECRET with
        | none => simp [h, truthy] at hs
        | some secret =>
          cases secret with
          | nil => simp [h, truthy] at hs
          | cons u us => exact ⟨_, rfl, by simp⟩
      rw [handler_checked env store req .null secret sig hm hsg hne hb hsec hsne]
      rfl
    · intro hs
      rw [handler_skipped env store req .null hm hsig hb hs]
      rfl
  refine ⟨?_, ?_, fun hs => ⟨rfl, hcases.1 hs⟩, fun hs => ⟨rfl, hcases.2 hs⟩⟩
  · cases hs : truthy env.IPN_SECRET with
    | true => rw [hcases.1 hs]; rfl
    | false => rw [hcases.2 hs]; rfl
  · cases hs : truthy env.IPN_SECRET with
    | true => rw [hcases.1 hs]; rfl
    | false => rw [hcases.2 hs]; rfl

/-- Witness for C26: the body `null` with the secret `topsecret` and with no
secret, over a store that would fail. -/
theorem C26_witness :
    ((handler ⟨some (js "topsecret")⟩ storeFailing
        ⟨js "POST", some premiumSignature, some .null⟩).response = ⟨"Bad Request", 400⟩ ∧
      storeOps (handler ⟨some (js "topsecret")⟩ storeFailing
        ⟨js "POST", some premiumSignature, some .null⟩).trace = []) ∧
    ((handler ⟨none⟩ storeFailing ⟨js "POST", some (js "abc"), some .null⟩).response
        = ⟨"Bad Request", 400⟩ ∧
      storeOps (handler ⟨none⟩ storeFailing ⟨js "POST", some (js "abc"), some .null⟩).trace
        = []) :=
  ⟨⟨(C26_null_body_is_400 ⟨some (js "topsecret")⟩ storeFailing
        ⟨js "POST", some premiumSignature, some .null⟩ rfl (by decide) rfl).1,
      (C26_null_body_is_400 ⟨some (js "topsecret")⟩ storeFailing
        ⟨js "POST", some premiumSignature, some .null⟩ rfl (by decide) rfl).2.1⟩,
    ⟨(C26_null_body_is_400 ⟨none⟩ storeFailing
        ⟨js "POST", some (js "abc"), some .null⟩ rfl (by decide) rfl).1,
      (C26_null_body_is_400 ⟨none⟩ storeFailing
        ⟨js "POST", some (js "abc"), some .null⟩ rfl (by decide) rfl).2.1⟩⟩

/-! ## The record check of the feedback mail forwarder (C27) -/

/-- Counterexample to C27: the JSON payload `null` has no `record` field, and
the POST request is answered 400 with the text of the TypeError that
`const { record } = payload` throws, not with `No record found in payload`. -/
theorem C27_counterexample :
    (Feedback.handler ⟨some (js "key"), none⟩ Feedback.v8World
        ⟨js "POST", some .null⟩).response.status = 400 ∧
    (Feedback.handler ⟨some (js "key"), none⟩ Feedback.v8World
        ⟨js "POST", some .null⟩).response.body
      = js ("\x7b\"error\":\"Cannot destructure property \x27record\x27 of \x27payload\x27 "
          ++ "as it is null.\"\x7d") ∧
    (Feedback.handler ⟨some (js "key"), none⟩ Feedback.v8World
        ⟨js "POST", some .null⟩).response.body
      ≠ js "\x7b\"error\":\"No record found in payload\"\x7d" := by
  decide

/-- C27 (amended): a POST request whose JSON payload is not `null` and has no
truthy `record` field is answered 400 with the JSON body
`{"error":"No record found in payload"}`; a POST request whose payload is
`null` is answered 400 with the message of the runtime's TypeError as error
text.  In both cases the trace holds the read of the payload and the error
log only: neither the profile lookup nor the mail request is issued. -/
theorem C27_no_record_is_400_without_lookup_or_mail
    (env : Feedback.Env) (world : Feedback.World) (req : Feedback.Request) (payload : Json)
    (hm : req.method = js "POST") (hp : req.payload = some payload)
    (hrec : payload = .null ∨ JSValue.isTruthy (payload.get (js "record")) = false) :
    (Feedback.handler env world req).response.status = 400 ∧
    (Feedback.handler env world req).response.contentType = some "application/json" ∧
    (Feedback.handler env world req).trace
      = [.json, .console "error" (js "Email Transmission Error:")] ∧
    (payload ≠ .null → (Feedback.handler env world req).response.body
      = js "\x7b\"error\":\"No record found in payload\"\x7d") ∧
    (payload = .null → (Feedback.handler env world req).response.body
      = JSON.stringify (.obj [(js "error", .str (world.message .destructure))])) := by
  have hno : (Feedback.caught world .noRecord [.json]).response.body
      = js "\x7b\"error\":\"No record found in payload\"\x7d" :=
    (by decide : JSON.stringify (.obj [(js "error", .str (js "No record found in payload"))])
      = js "\x7b\"error\":\"No record found in payload\"\x7d")
  have hcase : (payload = .null ∧
        Feedback.handler env world req = Feedback.caught world .destructure [.json]) ∨
      (payload ≠ .null ∧
        Feedback.handler env world req = Feedback.caught world .noRecord [.json]) := by
    cases payload with
    | null => exact Or.inl ⟨rfl, by simp [Feedback.handler, hm, hp]⟩
    | _ =>
      right
      refine ⟨(by intro h; cases h), ?_⟩
      rcases hrec with h | h
      · cases h
      · simp only [Feedback.handler, hm, hp, ne_eq, not_true_eq_false, if_false]
        split
        · rfl
        · rename_i record hr
          rw [hr] at h
          simp only [JSValue.isTruthy] at h
          simp [h]
  rcases hcase with ⟨hnull, h⟩ | ⟨hnn, h⟩
  · rw [h]
    exact ⟨rfl, rfl, rfl, fun hne => absurd hnull hne, fun _ => rfl⟩
  · rw [h]
    exact ⟨rfl, rfl, rfl, fun _ => hno, fun hnull => absurd hnull hnn⟩

/-- Witness for C27 (amended): an empty payload object, a payload whose record
is `null`, and the payload `null`. -/
theorem C27_witness :
    ((Feedback.handler ⟨some (js "key"), none⟩ Feedback.v8World
        ⟨js "POST", some (.obj [])⟩).response.body
      = js "\x7b\"error\":\"No record found in payload\"\x7d") ∧
    ((Feedback.handler ⟨some (js "key"), none⟩ Feedback.v8World
        ⟨js "POST", some (.obj [(js "record", .null)])⟩).response.body
      = js "\x7b\"error\":\"No record found in payload\"\x7d") ∧
    ((Feedback.handler ⟨some (js "key"), none⟩ Feedback.v8World
        ⟨js "POST", some .null⟩).trace
      = [.json, .console "error" (js "Email Transmission Error:")]) :=
  ⟨(C27_no_record_is_400_without_lookup_or_mail ⟨some (js "key"), none⟩ Feedback.v8World
      ⟨js "POST", some (.obj [])⟩ (.obj []) rfl rfl (Or.inr rfl)).2.2.2.1
      (by intro h; cases h),
    (C27_no_record_is_400_without_lookup_or_mail ⟨some (js "key"), none⟩ Feedback.v8World
      ⟨js "POST", some (.obj [(js "record", .null)])⟩ (.obj [(js "record", .null)]) rfl rfl
      (Or.inr rfl)).2.2.2.1 (by intro h; cases h),
    (C27_no_record_is_400_without_lookup_or_mail ⟨some (js "key"), none⟩ Feedback.v8World
      ⟨js "POST", some .null⟩ .null rfl rfl (Or.inl rfl)).2.2.1⟩

/-! ## Parsing what `JSON.stringify` wrote -/

theorem skipWhitespace_cons (c : Nat) (s : JSString) (h : isWhitespace c = false) :
    skipWhitespace (c :: s) = c :: s := by
  simp [skipWhitespace, h]

theorem hexValue_hexDigit (d : Nat) (h : d < 16) : hexValue (hexDigit d) = some d := by
  unfold hexValue hexDigit
  by_cases h10 : d < 10
  · rw [if_pos h10, if_pos (by omega)]
    congr 1
    omega
  · rw [if_neg h10, if_neg (by omega), if_pos (by omega)]
    congr 1
    omega

theorem parseStringBody_quote (s : JSString) : parseStringBody (0x22 :: s) = some ([], s) := by
  rw [parseStringBody.eq_def]
  simp

theorem parseStringBody_raw (u : Nat) (s : JSString) (h1 : u ≠ 0x22) (h2 : u ≠ 0x5C)
    (h3 : ¬ u < 0x20) :
    parseStringBody (u :: s) = (parseStringBody s).map (fun p => (u :: p.1, p.2)) := by
  rw [parseStringBody.eq_def]
  simp [h1, h2, h3]

theorem parseStringBody_escape (e x : Nat) (s : JSString) (h1 : e ≠ 0x75)
    (h2 : unescape e = some x) :
    parseStringBody (0x5C :: e :: s) = (parseStringBody s).map (fun p => (x :: p.1, p.2)) := by
  rw [parseStringBody.eq_def]
  simp [h1, h2]

theorem parseStringBody_unicode (a b c d : Nat) (x₁ x₂ x₃ x₄ : Nat) (s : JSString)
    (ha : hexValue a = some x₁) (hb : hexValue b = some x₂) (hc : hexValue c = some x₃)
    (hd : hexValue d = some x₄) :
    parseStringBody (0x5C :: 0x75 :: a :: b :: c :: d :: s)
      = (parseStringBody s).map
          (fun p => ((x₁ * 4096 + x₂ * 256 + x₃ * 16 + x₄) :: p.1, p.2)) := by
  rw [parseStringBody.eq_def]
  simp [ha, hb, hc, hd]

/-- Reading back the escape of one code unit. -/
theorem parseStringBody_escapeUnit (u : Nat) (t : JSString) :
    parseStringBody (escapeUnit u ++ t)
      = (parseStringBody t).map (fun p => (u :: p.1, p.2)) := by
  have hb : js "\\b" = [0x5C, 0x62] := by decide
  have ht : js "\\t" = [0x5C, 0x74] := by decide
  have hn : js "\\n" = [0x5C, 0x6E] := by decide
  have hf : js "\\f" = [0x5C, 0x66] := by decide
  have hr : js "\\r" = [0x5C, 0x72] := by decide
  have hq : js "\\\"" = [0x5C, 0x22] := by decide
  have hs : js "\\\\" = [0x5C, 0x5C] := by decide
  have hu : js "\\u" = [0x5C, 0x75] := by decide
  unfold escapeUnit
  split_ifs with h1 h2 h3 h4 h5 h6 h7 h8
  · subst h1; rw [hb]; exact parseStringBody_escape _ _ _ (by decide) (by decide)
  · subst h2; rw [ht]; exact parseStringBody_escape _ _ _ (by decide) (by decide)
  · subst h3; rw [hn]; exact parseStringBody_escape _ _ _ (by decide) (by decide)
  · subst h4; rw [hf]; exact parseStringBody_escape _ _ _ (by decide) (by decide)
  · subst h5; rw [hr]; exact parseStringBody_escape _ _ _ (by decide) (by decide)
  · subst h6; rw [hq]; exact parseStringBody_escape _ _ _ (by decide) (by decide)
  · subst h7; rw [hs]; exact parseStringBody_escape _ _ _ (by decide) (by decide)
  · have hlt : u < 65536 := by omega
    have e1 := hexValue_hexDigit (u / 4096 % 16) (Nat.mod_lt _ (by decide))
    have e2 := hexValue_hexDigit (u / 256 % 16) (Nat.mod_lt _ (by decide))
    have e3 := hexValue_hexDigit (u / 16 % 16) (Nat.mod_lt _ (by decide))
    have e4 := hexValue_hexDigit (u % 16) (Nat.mod_lt _ (by decide))
    have hval : u / 4096 % 16 * 4096 + u / 256 % 16 * 256 + u / 16 % 16 * 16 + u % 16 = u := by
      omega
    rw [hu]
    simp only [hex4, List.cons_append, List.nil_append]
    rw [parseStringBody_unicode _ _ _ _ _ _ _ _ _ e1 e2 e3 e4, hval]
  · have h20 : ¬ u < 0x20 := fun h => h8 (Or.inl h)
    exact parseStringBody_raw u t h6 h7 h20

theorem quoteUnits_single (u : Nat) : quoteUnits [u] = escapeUnit u := by
  simp only [quoteUnits, escapeUnit]

theorem quoteUnits_cons_cons (u v : Nat) (tail : JSString) :
    quoteUnits (u :: v :: tail)
      = if 0xD800 ≤ u ∧ u < 0xDC00 ∧ 0xDC00 ≤ v ∧ v < 0xE000 then u :: v :: quoteUnits tail
        else escapeUnit u ++ quoteUnits (v :: tail) := by
  simp only [quoteUnits, escapeUnit]

/-- Reading back a quoted string: the parser returns the string that was
quoted and the text after the closing quote. -/
theorem parseStringBody_quoteUnits (s rest : JSString) :
    parseStringBody (quoteUnits s ++ 0x22 :: rest) = some (s, rest) := by
  suffices h : ∀ n (s : JSString), s.length = n →
      parseStringBody (quoteUnits s ++ 0x22 :: rest) = some (s, rest) from h _ s rfl
  intro n
  induction n using Nat.strong_induction_on with
  | _ n ih =>
    intro s hn
    match s, hn with
    | [], _ => simp [quoteUnits, parseStringBody_quote]
    | [u], _ =>
      rw [quoteUnits_single, parseStringBody_escapeUnit, parseStringBody_quote]
      rfl
    | u :: v :: tail, hn =>
      rw [quoteUnits_cons_cons]
      split_ifs with hpair
      · simp only [List.cons_append]
        rw [parseStringBody_raw u _ (by omega) (by omega) (by omega),
          parseStringBody_raw v _ (by omega) (by omega) (by omega),
          ih tail.length (by simp at hn; omega) tail rfl]
        rfl
      · rw [List.append_assoc, parseStringBody_escapeUnit,
          ih (v :: tail).length (by simp at hn ⊢; omega) (v :: tail) rfl]
        rfl

/-! ## Induction on JSON values -/

/-- Induction on a JSON value, with the property at hand for every element of
an array and every property value of an object. -/
theorem Json.induction {P : Json → Prop} (hnull : P .null) (hbool : ∀ b, P (.bool b))
    (hnum : ∀ text, P (.num text)) (hstr : ∀ s, P (.str s))
    (harr : ∀ items, (∀ v ∈ items, P v) → P (.arr items))
    (hobj : ∀ props : List (JSString × Json), (∀ e ∈ props, P e.2) → P (.obj props)) :
    ∀ v, P v := by
  intro v
  refine @Json.rec P (fun items => ∀ v ∈ items, P v) (fun props => ∀ e ∈ props, P e.2)
    (fun e => P e.2) hnull hbool hnum hstr harr hobj ?_ ?_ ?_ ?_ ?_ v
  · intro v hv
    cases hv
  · intro head tail h1 h2 v hv
    rcases List.mem_cons.mp hv with rfl | hv
    · exact h1
    · exact h2 v hv
  · intro e he
    cases he
  · intro head tail h1 h2 e he
    rcases List.mem_cons.mp he with rfl | he
    · exact h1
    · exact h2 e he
  · intro k v h
    exact h

theorem stringifyItems_eq_map (items : List Json) :
    JSON.stringifyItems items = items.map JSON.stringify := by
  induction items with
  | nil => rfl
  | cons v vs ih => simp [JSON.stringifyItems, ih]

theorem normalizeItems_eq_map (items : List Json) :
    Json.normalizeItems items = items.map Json.normalize := by
  induction items with
  | nil => rfl
  | cons v vs ih => simp [Json.normalizeItems, ih]

theorem normalizeProps_eq_map (props : List (JSString × Json)) :
    Json.normalizeProps props = props.map (fun e => (e.1, Json.normalize e.2)) := by
  induction props with
  | nil => rfl
  | cons e ps ih =>
    obtain ⟨k, v⟩ := e
    simp [Json.normalizeProps, ih]

theorem wellFormedItems_iff (num : JSString → JSString) (items : List Json) :
    Json.wellFormedItems num items = true ↔ ∀ v ∈ items, Json.wellFormed num v = true := by
  induction items with
  | nil => simp [Json.wellFormedItems]
  | cons v vs ih => simp [Json.wellFormedItems, ih]

theorem wellFormedProps_iff (num : JSString → JSString) (props : List (JSString × Json)) :
    Json.wellFormedProps num props = true ↔ ∀ e ∈ props, Json.wellFormed num e.2 = true := by
  induction props with
  | nil => simp [Json.wellFormedProps]
  | cons e ps ih =>
    obtain ⟨k, v⟩ := e
    simp [Json.wellFormedProps, ih]

theorem wellFormed_arr (num : JSString → JSString) (items : List Json) :
    Json.wellFormed num (.arr items) = true ↔ ∀ v ∈ items, Json.wellFormed num v = true := by
  rw [Json.wellFormed, wellFormedItems_iff]

theorem wellFormed_obj (num : JSString → JSString) (props : List (JSString × Json)) :
    Json.wellFormed num (.obj props) = true ↔
      (props.map (fun e => e.1)).Nodup ∧ ∀ e ∈ props, Json.wellFormed num e.2 = true := by
  rw [Json.wellFormed, Bool.and_eq_true, decide_eq_true_iff, wellFormedProps_iff]

/-! ## The own property order and the values of the properties -/

/-- The own property order looks at the keys only. -/
theorem ownPropertyOrder_map {α β : Type} (g : α → β) (entries : List (JSString × α)) :
    ownPropertyOrder (entries.map (fun e => (e.1, g e.2)))
      = (ownPropertyOrder entries).map (fun e => (e.1, g e.2)) := by
  unfold ownPropertyOrder
  rw [List.map_append]
  congr 1
  · rw [List.map_map]
    have h1 : (entries.map (fun e => (e.1, g e.2))).filterMap
          (fun e => (arrayIndex e.1).map (fun i => (i, e)))
        = (entries.filterMap (fun e => (arrayIndex e.1).map (fun i => (i, e)))).map
            (fun p => (p.1, (p.2.1, g p.2.2))) := by
      rw [List.filterMap_map, List.map_filterMap]
      apply List.filterMap_congr
      intro e _
      simp only [Function.comp_apply]
      cases arrayIndex e.1 <;> rfl
    rw [h1, ← List.map_insertionSort (fun a b => a.1 ≤ b.1) (fun a b => a.1 ≤ b.1)
      (fun p : Nat × JSString × α => (p.1, (p.2.1, g p.2.2)))]
    · rw [List.map_map]
      rfl
    · intro a _ b _
      rfl
  · rw [List.filter_map]
    rfl

/-- Listing the properties of an object in own property order a second time
changes nothing. -/
theorem ownPropertyOrder_idem {α : Type} (entries : List (JSString × α)) :
    ownPropertyOrder (ownPropertyOrder entries) = ownPropertyOrder entries := by
  have hmapsnd : ∀ P : List (Nat × JSString × α),
      (∀ p ∈ P, (arrayIndex p.2.1).map (fun i => (i, p.2)) = some p) →
      (P.map (fun p => p.2)).filterMap (fun e => (arrayIndex e.1).map (fun i => (i, e))) = P := by
    intro P
    induction P with
    | nil => intro _; rfl
    | cons p P ih =>
      intro h
      simp only [List.map_cons, List.filterMap_cons, h p (List.mem_cons_self _ _)]
      rw [ih (fun q hq => h q (List.mem_cons_of_mem _ hq))]
  have hsorted : ∀ p ∈ (entries.filterMap (fun e => (arrayIndex e.1).map (fun i => (i, e)))).insertionSort
      (fun a b => a.1 ≤ b.1), (arrayIndex p.2.1).map (fun i => (i, p.2)) = some p := by
    intro p hp
    rw [(List.perm_insertionSort _ _).mem_iff, List.mem_filterMap] at hp
    obtain ⟨e, _, he⟩ := hp
    cases hi : arrayIndex e.1 with
    | none => simp [hi] at he
    | some i =>
      simp only [hi, Option.map_some', Option.some.injEq] at he
      subst he
      simp [hi]
  have hA : ∀ e ∈ ((entries.filterMap (fun e => (arrayIndex e.1).map (fun i => (i, e)))).insertionSort
      (fun a b => a.1 ≤ b.1)).map (fun p => p.2), (arrayIndex e.1).isNone = false := by
    intro e he
    obtain ⟨p, hp, rfl⟩ := List.mem_map.mp he
    have := hsorted p hp
    cases hi : arrayIndex p.2.1 with
    | none => simp [hi] at this
    | some i => rfl
  have hB : ∀ e ∈ entries.filter (fun e => (arrayIndex e.1).isNone),
      (arrayIndex e.1).map (fun i => (i, e)) = none := by
    intro e he
    have := (List.mem_filter.mp he).2
    cases hi : arrayIndex e.1 with
    | none => rfl
    | some i => simp [hi] at this
  haveI : IsTotal (Nat × JSString × α) (fun a b => a.1 ≤ b.1) := ⟨fun a b => Nat.le_total a.1 b.1⟩
  haveI : IsTrans (Nat × JSString × α) (fun a b => a.1 ≤ b.1) := ⟨fun _ _ _ => Nat.le_trans⟩
  conv_lhs => unfold ownPropertyOrder
  rw [List.filterMap_append, hmapsnd _ hsorted, List.filterMap_eq_nil_iff.mpr hB,
    List.append_nil, List.filter_append,
    List.Sorted.insertionSort_eq (List.sorted_insertionSort (fun a b : Nat × JSString × α => a.1 ≤ b.1) _),
    List.filter_eq_nil_iff.mpr (fun e he => by simp [hA e he]), List.nil_append, List.filter_filter]
  simp only [Bool.and_self]
  rfl

/-- Stringifying what a parse of the text gives is stringifying the value. -/
theorem stringify_normalize : ∀ v : Json, JSON.stringify v.normalize = JSON.stringify v := by
  apply Json.induction
  · rfl
  · intro b; rfl
  · intro text
    by_cases h : text = js "Infinity" ∨ text = js "-Infinity" ∨ text = js "NaN" <;>
      simp [Json.normalize, JSON.stringify, numberToJSON, h]
  · intro s; rfl
  · intro items ih
    simp only [Json.normalize, JSON.stringify, stringifyItems_eq_map, normalizeItems_eq_map,
      List.map_map]
    rw [List.map_congr_left (fun v hv => by simpa using ih v hv)]
  · intro props ih
    have key : ownPropertyOrder (JSON.stringifyProps (ownPropertyOrder (Json.normalizeProps props)))
        = ownPropertyOrder (JSON.stringifyProps props) := by
      rw [stringifyProps_eq_map, normalizeProps_eq_map, ownPropertyOrder_map Json.normalize,
        List.map_map, stringifyProps_eq_map]
      have h : (ownPropertyOrder props).map
            ((fun e : JSString × Json => (e.1, JSON.stringify e.2)) ∘
              (fun e : JSString × Json => (e.1, Json.normalize e.2)))
          = (ownPropertyOrder props).map (fun e => (e.1, JSON.stringify e.2)) := by
        apply List.map_congr_left
        intro e he
        simp [ih e ((ownPropertyOrder_perm props).mem_iff.mp he)]
      rw [h, ← ownPropertyOrder_map, ownPropertyOrder_idem]
    simp only [Json.normalize, JSON.stringify, key]

/-! ## Reading back a serialised value -/

theorem isNumberLiteral_ne_nil {t : JSString} (h : isNumberLiteral t = true) : t ≠ [] := by
  rintro rfl
  simp [isNumberLiteral] at h

/-- The text of a finite number that is well formed. -/
theorem wellFormed_num {num : JSString → JSString} {text : JSString}
    (h : Json.wellFormed num (.num text) = true) :
    (text = js "Infinity" ∨ text = js "-Infinity" ∨ text = js "NaN") ∨
      (¬ (text = js "Infinity" ∨ text = js "-Infinity" ∨ text = js "NaN") ∧
        text.all isNumberChar = true ∧ isNumberLiteral text = true ∧ num text = text) := by
  by_cases hn : text = js "Infinity" ∨ text = js "-Infinity" ∨ text = js "NaN"
  · exact Or.inl hn
  · refine Or.inr ⟨hn, ?_⟩
    simp only [Json.wellFormed, Bool.or_eq_true, Bool.and_eq_true, beq_iff_eq] at h
    rcases h with h | h
    · exact absurd (by tauto) hn
    · exact ⟨h.1.1, h.1.2, h.2⟩

/-- A number literal is read up to the first code unit that cannot continue it. -/
theorem parseNumber_append (num : JSString → JSString) (t rest : JSString)
    (hall : t.all isNumberChar = true) (hlit : isNumberLiteral t = true)
    (hrest : ∀ u ∈ rest.head?, isNumberChar u = false) :
    parseNumber num (t ++ rest) = some (.num (num t), rest) := by
  have hall' : ∀ a ∈ t, isNumberChar a = true := by simpa using hall
  have htake : (t ++ rest).takeWhile isNumberChar = t := by
    rw [List.takeWhile_append_of_pos hall']
    cases rest with
    | nil => simp
    | cons u r => simp [List.takeWhile_cons, hrest u (by simp)]
  have hdrop : (t ++ rest).dropWhile isNumberChar = rest := by
    rw [List.dropWhile_append_of_pos hall']
    cases rest with
    | nil => simp
    | cons u r => simp [List.dropWhile_cons, hrest u (by simp)]
  simp [parseNumber, htake, hdrop, hlit]

/-- The first code unit of a serialised value: a quote, a bracket, a brace,
the first letter of `true`, `false` or `null`, or a number character. -/
theorem stringify_head (num : JSString → JSString) (v : Json) (h : v.wellFormed num = true) :
    ∃ c t, JSON.stringify v = c :: t ∧
      (c = 0x22 ∨ c = 0x5B ∨ c = 0x7B ∨ c = 0x74 ∨ c = 0x66 ∨ c = 0x6E ∨ isNumberChar c = true) := by
  cases v with
  | null => exact ⟨0x6E, js "ull", by decide, by decide⟩
  | bool b =>
    cases b
    · exact ⟨0x66, js "alse", by decide, by decide⟩
    · exact ⟨0x74, js "rue", by decide, by decide⟩
  | num text =>
    rcases wellFormed_num h with hn | ⟨hn, hall, hlit, _⟩
    · refine ⟨0x6E, js "ull", ?_, by decide⟩
      simp only [JSON.stringify, numberToJSON, if_pos hn]
      decide
    · cases text with
      | nil => exact absurd rfl (isNumberLiteral_ne_nil hlit)
      | cons c t =>
        refine ⟨c, t, ?_, ?_⟩
        · simp only [JSON.stringify, numberToJSON, if_neg hn]
        · simp only [List.all_cons, Bool.and_eq_true] at hall
          simp [hall.1]
  | str s => exact ⟨0x22, quoteUnits s ++ js "\"", rfl, by decide⟩
  | arr items => exact ⟨0x5B, _, rfl, by decide⟩
  | obj props => exact ⟨0x7B, _, rfl, by decide⟩

theorem stringify_length_pos (num : JSString → JSString) (v : Json)
    (h : v.wellFormed num = true) : 1 ≤ (JSON.stringify v).length := by
  obtain ⟨c, t, hc, _⟩ := stringify_head num v h
  simp [hc]

/-- The first code unit of a serialised value is not whitespace and closes nothing. -/
theorem head_not_closing {c : Nat}
    (h : c = 0x22 ∨ c = 0x5B ∨ c = 0x7B ∨ c = 0x74 ∨ c = 0x66 ∨ c = 0x6E ∨ isNumberChar c = true) :
    isWhitespace c = false ∧ c ≠ 0x5D ∧ c ≠ 0x7D := by
  rcases h with rfl | rfl | rfl | rfl | rfl | rfl | h
  any_goals decide
  simp only [isNumberChar, Bool.or_eq_true, decide_eq_true_eq, beq_iff_eq] at h
  simp only [isWhitespace, Bool.or_eq_false_iff, beq_eq_false_iff_ne]
  omega

/-- Reading a value starts at its first code unit when that is not whitespace. -/
theorem parseValue_cons (num : JSString → JSString) (n c : Nat) (r : JSString)
    (h : isWhitespace c = false) :
    parseValue num (n + 1) (c :: r)
      = if c = 0x22 then (parseStringBody r).map (fun p => (Json.str p.1, p.2))
        else if c = 0x5B then
          match skipWhitespace r with
          | [] => none
          | d :: r₁ =>
            if d = 0x5D then some (.arr [], r₁)
            else (parseElements num n r).map (fun p => (Json.arr p.1, p.2))
        else if c = 0x7B then
          match skipWhitespace r with
          | [] => none
          | d :: r₁ =>
            if d = 0x7D then some (.obj [], r₁)
            else (parseMembers num n r []).map (fun p => (Json.obj p.1, p.2))
        else if startsWith (c :: r) (js "true") then some (.bool true, r.drop 3)
        else if startsWith (c :: r) (js "false") then some (.bool false, r.drop 4)
        else if startsWith (c :: r) (js "null") then some (.null, r.drop 3)
        else parseNumber num (c :: r) := by
  rw [parseValue, skipWhitespace_cons c r h]

/-- Reading the literal `null`. -/
theorem parseValue_null (num : JSString → JSString) (n : Nat) (rest : JSString) :
    parseValue num (n + 1) (js "null" ++ rest) = some (.null, rest) := by
  have h : js "null" ++ rest = 0x6E :: 0x75 :: 0x6C :: 0x6C :: rest := rfl
  rw [h, parseValue_cons _ _ _ _ (by decide)]
  simp [startsWith, js, utf16Units]

/-- Reading the literal `true`. -/
theorem parseValue_true (num : JSString → JSString) (n : Nat) (rest : JSString) :
    parseValue num (n + 1) (js "true" ++ rest) = some (.bool true, rest) := by
  have h : js "true" ++ rest = 0x74 :: 0x72 :: 0x75 :: 0x65 :: rest := rfl
  rw [h, parseValue_cons _ _ _ _ (by decide)]
  simp [startsWith, js, utf16Units]

/-- Reading the literal `false`. -/
theorem parseValue_false (num : JSString → JSString) (n : Nat) (rest : JSString) :
    parseValue num (n + 1) (js "false" ++ rest) = some (.bool false, rest) := by
  have h : js "false" ++ rest = 0x66 :: 0x61 :: 0x6C :: 0x73 :: 0x65 :: rest := rfl
  rw [h, parseValue_cons _ _ _ _ (by decide)]
  simp [startsWith, js, utf16Units]

/-- Reading a quoted string. -/
theorem parseValue_string (num : JSString → JSString) (n : Nat) (s rest : JSString) :
    parseValue num (n + 1) (quoteJSONString s ++ rest) = some (.str s, rest) := by
  have h : quoteJSONString s ++ rest = 0x22 :: (quoteUnits s ++ 0x22 :: rest) := by
    simp [quoteJSONString, js, utf16Units]
  rw [h, parseValue_cons _ _ _ _ (by decide), if_pos rfl, parseStringBody_quoteUnits]
  rfl

/-- Reading a number literal. -/
theorem parseValue_number (num : JSString → JSString) (n : Nat) (t rest : JSString)
    (hall : t.all isNumberChar = true) (hlit : isNumberLiteral t = true)
    (hrest : ∀ u ∈ rest.head?, isNumberChar u = false) :
    parseValue num (n + 1) (t ++ rest) = some (.num (num t), rest) := by
  cases t with
  | nil => exact absurd rfl (isNumberLiteral_ne_nil hlit)
  | cons c t =>
    have hc : isNumberChar c = true := by
      simp only [List.all_cons, Bool.and_eq_true] at hall
      exact hall.1
    have hc' : (48 ≤ c ∧ c ≤ 57) ∨ c = 0x2B ∨ c = 0x2D ∨ c = 0x2E ∨ c = 0x45 ∨ c = 0x65 := by
      simpa [isNumberChar, or_assoc] using hc
    have hws : isWhitespace c = false := (head_not_closing (Or.inr (Or.inr (Or.inr (Or.inr
      (Or.inr (Or.inr hc))))))).1
    rw [List.cons_append, parseValue_cons _ _ _ _ hws, if_neg (by omega), if_neg (by omega),
      if_neg (by omega)]
    have h1 : startsWith (c :: (t ++ rest)) (js "true") = false := by
      have : c ≠ 0x74 := by omega
      simp [startsWith, js, utf16Units, this]
    have h2 : startsWith (c :: (t ++ rest)) (js "false") = false := by
      have : c ≠ 0x66 := by omega
      simp [startsWith, js, utf16Units, this]
    have h3 : startsWith (c :: (t ++ rest)) (js "null") = false := by
      have : c ≠ 0x6E := by omega
      simp [startsWith, js, utf16Units, this]
    rw [h1, h2, h3]
    simp only [Bool.false_eq_true, if_false]
    rw [← List.cons_append]
    exact parseNumber_append num (c :: t) rest hall hlit hrest

theorem joinComma_cons_cons (x y : JSString) (l : List JSString) :
    joinComma (x :: y :: l) = x ++ 0x2C :: joinComma (y :: l) := by
  simp [joinComma, js, utf16Units]

/-- Reading back the elements of an array that has at least one. -/
theorem parseElements_stringify (num : JSString → JSString) (items : List Json)
    (hwf : ∀ v ∈ items, v.wellFormed num = true)
    (hP : ∀ v ∈ items, ∀ (n : Nat) (rest : JSString), (JSON.stringify v).length ≤ n →
        (∀ u ∈ rest.head?, isNumberChar u = false) →
        parseValue num n (JSON.stringify v ++ rest) = some (v.normalize, rest))
    (hne : items ≠ []) (m : Nat) (rest : JSString)
    (hm : (joinComma (items.map JSON.stringify)).length + 1 ≤ m) :
    parseElements num m (joinComma (items.map JSON.stringify) ++ 0x5D :: rest)
      = some (items.map Json.normalize, rest) := by
  induction items generalizing m with
  | nil => exact absurd rfl hne
  | cons v vs ih =>
    obtain ⟨m, rfl⟩ : ∃ k, m = k + 1 := ⟨m - 1, by omega⟩
    have hv := hP v (List.mem_cons_self _ _)
    have hpos := stringify_length_pos num v (hwf v (List.mem_cons_self _ _))
    cases vs with
    | nil =>
      simp only [List.map_cons, List.map_nil, joinComma] at hm ⊢
      rw [parseElements, hv m (0x5D :: rest) (by omega) (by simp [isNumberChar])]
      simp [skipWhitespace, isWhitespace]
    | cons w ws =>
      simp only [List.map_cons, joinComma_cons_cons, List.length_append, List.length_cons] at hm
      simp only [List.map_cons, joinComma_cons_cons, List.append_assoc, List.cons_append]
      rw [parseElements, hv m _ (by omega) (by simp [isNumberChar])]
      have hrec := ih (fun u hu => hwf u (List.mem_cons_of_mem _ hu))
        (fun u hu => hP u (List.mem_cons_of_mem _ hu)) (by simp) m
        (by simp only [List.map_cons]; omega)
      simp only [List.map_cons] at hrec
      simp [skipWhitespace, isWhitespace, hrec]

/-- Reading back the members of an object that has at least one: each is a
new property, created after the ones read before. -/
theorem parseMembers_stringify (num : JSString → JSString) (props : List (JSString × Json))
    (hwf : ∀ e ∈ props, e.2.wellFormed num = true)
    (hP : ∀ e ∈ props, ∀ (n : Nat) (rest : JSString), (JSON.stringify e.2).length ≤ n →
        (∀ u ∈ rest.head?, isNumberChar u = false) →
        parseValue num n (JSON.stringify e.2 ++ rest) = some (e.2.normalize, rest))
    (hne : props ≠ []) (m : Nat) (rest : JSString) (acc : List (JSString × Json))
    (hnd : (props.map (fun e => e.1)).Nodup)
    (hnew : ∀ e ∈ props, ∀ a ∈ acc, a.1 ≠ e.1)
    (hm : (joinComma (props.map
        (fun e => quoteJSONString e.1 ++ js ":" ++ JSON.stringify e.2))).length + 1 ≤ m) :
    parseMembers num m (joinComma (props.map
        (fun e => quoteJSONString e.1 ++ js ":" ++ JSON.stringify e.2)) ++ 0x7D :: rest) acc
      = some (acc ++ props.map (fun e => (e.1, e.2.normalize)), rest) := by
  induction props generalizing m acc with
  | nil => exact absurd rfl hne
  | cons e es ih =>
    obtain ⟨k, v⟩ := e
    obtain ⟨m, rfl⟩ : ∃ j, m = j + 1 := ⟨m - 1, by omega⟩
    have hv : ∀ (n : Nat) (rest : JSString), (JSON.stringify v).length ≤ n →
        (∀ u ∈ rest.head?, isNumberChar u = false) →
        parseValue num n (JSON.stringify v ++ rest) = some (v.normalize, rest) :=
      hP (k, v) (List.mem_cons_self _ _)
    have hentry : ∀ t : JSString, (quoteJSONString k ++ js ":" ++ JSON.stringify v) ++ t
        = 0x22 :: (quoteUnits k ++ 0x22 :: 0x3A :: (JSON.stringify v ++ t)) := by
      intro t
      simp [quoteJSONString, js, utf16Units]
    have hlen : (quoteJSONString k ++ js ":" ++ JSON.stringify v).length
        = (quoteUnits k).length + 3 + (JSON.stringify v).length := by
      simp [quoteJSONString, js, utf16Units]
      omega
    have hfresh : acc.any (fun a => a.1 == k) = false := by
      rw [List.any_eq_false]
      intro a ha
      simpa using hnew (k, v) (List.mem_cons_self _ _) a ha
    have hset : setProp acc k v.normalize = acc ++ [(k, v.normalize)] := by
      simp [setProp, hfresh]
    simp only [List.map_cons, List.nodup_cons] at hnd
    cases es with
    | nil =>
      simp only [List.map_cons, List.map_nil, joinComma] at hm ⊢
      rw [hlen] at hm
      rw [hentry, parseMembers]
      simp only [skipWhitespace_cons 0x22 _ (by decide), if_pos, parseStringBody_quoteUnits,
        skipWhitespace_cons 0x3A _ (by decide)]
      rw [hv m (0x7D :: rest) (by omega) (by simp [isNumberChar])]
      simp [skipWhitespace, isWhitespace, hset]
    | cons e₂ es =>
      simp only [List.map_cons, joinComma_cons_cons] at hm
      rw [List.length_append, hlen, List.length_cons] at hm
      simp only [List.map_cons, joinComma_cons_cons]
      rw [List.append_assoc, hentry, parseMembers]
      simp only [skipWhitespace_cons 0x22 _ (by decide), if_pos, parseStringBody_quoteUnits,
        skipWhitespace_cons 0x3A _ (by decide)]
      rw [List.cons_append, hv m _ (by omega) (by simp [isNumberChar])]
      have hrec := ih (fun u hu => hwf u (List.mem_cons_of_mem _ hu))
        (fun u hu => hP u (List.mem_cons_of_mem _ hu)) (by simp) m (acc ++ [(k, v.normalize)])
        hnd.2
        (by
          intro e he a ha
          rcases List.mem_append.mp ha with ha | ha
          · exact hnew e (List.mem_cons_of_mem _ he) a ha
          · simp only [List.mem_singleton] at ha
            subst ha
            intro hk
            exact hnd.1 (List.mem_map.mpr ⟨e, he, hk.symm⟩))
        (by simp only [List.map_cons]; omega)
      simp only [List.map_cons] at hrec
      simp only [skipWhitespace_cons 0x2C _ (by decide), hset, ↓reduceIte]
      rw [hrec]
      simp

theorem joinComma_head (c : Nat) (t : JSString) (xs : List JSString) (s : JSString) :
    ∃ t₂, joinComma ((c :: t) :: xs) ++ s = c :: t₂ := by
  cases xs with
  | nil => exact ⟨t ++ s, rfl⟩
  | cons y l => exact ⟨t ++ 0x2C :: (joinComma (y :: l) ++ s), by rw [joinComma_cons_cons]; simp⟩

/-- Reading back a serialised value: the parser returns what the value is
after a round trip and leaves the text that follows, when that text cannot
continue a number and the depth bound is at least the length of the value. -/
theorem parseValue_stringify (num : JSString → JSString) :
    ∀ v : Json, v.wellFormed num = true → ∀ (n : Nat) (rest : JSString),
      (JSON.stringify v).length ≤ n → (∀ u ∈ rest.head?, isNumberChar u = false) →
      parseValue num n (JSON.stringify v ++ rest) = some (v.normalize, rest) := by
  apply Json.induction
  · intro _ n rest hn _
    obtain ⟨n, rfl⟩ : ∃ k, n = k + 1 := ⟨n - 1, by simp [JSON.stringify, js, utf16Units] at hn; omega⟩
    exact parseValue_null num n rest
  · intro b _ n rest hn _
    obtain ⟨n, rfl⟩ : ∃ k, n = k + 1 :=
      ⟨n - 1, by cases b <;> simp [JSON.stringify, js, utf16Units] at hn <;> omega⟩
    cases b
    · exact parseValue_false num n rest
    · exact parseValue_true num n rest
  · intro text hwf n rest hn hrest
    have hpos := stringify_length_pos num _ hwf
    obtain ⟨n, rfl⟩ : ∃ k, n = k + 1 := ⟨n - 1, by omega⟩
    rcases wellFormed_num hwf with hnf | ⟨hnf, hall, hlit, hnum⟩
    · simp only [JSON.stringify, numberToJSON, if_pos hnf, Json.normalize]
      exact parseValue_null num n rest
    · simp only [JSON.stringify, numberToJSON, if_neg hnf, Json.normalize]
      rw [parseValue_number num n text rest hall hlit hrest, hnum]
  · intro s _ n rest hn _
    obtain ⟨n, rfl⟩ : ∃ k, n = k + 1 :=
      ⟨n - 1, by simp [JSON.stringify, quoteJSONString, js, utf16Units] at hn; omega⟩
    exact parseValue_string num n s rest
  · intro items ih hwf n rest hn _
    rw [wellFormed_arr] at hwf
    have hs : JSON.stringify (.arr items) ++ rest
        = 0x5B :: (joinComma (items.map JSON.stringify) ++ 0x5D :: rest) := by
      simp [JSON.stringify, stringifyItems_eq_map, js, utf16Units]
    have hl : (JSON.stringify (.arr items)).length
        = (joinComma (items.map JSON.stringify)).length + 2 := by
      simp [JSON.stringify, stringifyItems_eq_map, js, utf16Units]
    obtain ⟨n, rfl⟩ : ∃ k, n = k + 1 := ⟨n - 1, by omega⟩
    rw [hs, parseValue_cons _ _ _ _ (by decide), if_neg (by decide), if_pos rfl]
    cases items with
    | nil =>
      simp [joinComma, skipWhitespace, isWhitespace, Json.normalize, Json.normalizeItems]
    | cons v vs =>
      obtain ⟨c, t, hc, hhead⟩ := stringify_head num v (hwf v (List.mem_cons_self _ _))
      have hstart : ∃ t₂, joinComma ((v :: vs).map JSON.stringify) ++ 0x5D :: rest = c :: t₂ := by
        rw [List.map_cons, hc]
        exact joinComma_head c t _ _
      obtain ⟨t₂, ht₂⟩ := hstart
      have hclose := head_not_closing hhead
      rw [parseElements_stringify num (v :: vs) hwf (fun u hu => ih u hu (hwf u hu)) (by simp)
        n rest (by omega)]
      rw [ht₂, skipWhitespace_cons c _ hclose.1]
      simp [hclose.2.1, Json.normalize, normalizeItems_eq_map]
  · intro props ih hwf n rest hn _
    rw [wellFormed_obj] at hwf
    have hperm := ownPropertyOrder_perm props
    have hs : JSON.stringify (.obj props) ++ rest
        = 0x7B :: (joinComma ((ownPropertyOrder props).map
            (fun e => quoteJSONString e.1 ++ js ":" ++ JSON.stringify e.2)) ++ 0x7D :: rest) := by
      simp [JSON.stringify, stringifyProps_eq_map, ownPropertyOrder_map, js, utf16Units,
        Function.comp_def]
    have hl : (JSON.stringify (.obj props)).length
        = (joinComma ((ownPropertyOrder props).map
            (fun e => quoteJSONString e.1 ++ js ":" ++ JSON.stringify e.2))).length + 2 := by
      simp [JSON.stringify, stringifyProps_eq_map, ownPropertyOrder_map, js, utf16Units,
        Function.comp_def]
    have hnorm : Json.normalize (.obj props)
        = .obj ((ownPropertyOrder props).map (fun e => (e.1, e.2.normalize))) := by
      simp only [Json.normalize, normalizeProps_eq_map, ownPropertyOrder_map]
    obtain ⟨n, rfl⟩ : ∃ k, n = k + 1 := ⟨n - 1, by omega⟩
    rw [hs, parseValue_cons _ _ _ _ (by decide), if_neg (by decide), if_neg (by decide),
      if_pos rfl, hnorm]
    cases hopo : ownPropertyOrder props with
    | nil =>
      simp [joinComma, skipWhitespace, isWhitespace]
    | cons e es =>
      have hstart : ∃ t₂, joinComma (((e :: es)).map
          (fun e => quoteJSONString e.1 ++ js ":" ++ JSON.stringify e.2)) ++ 0x7D :: rest
          = 0x22 :: t₂ := by
        have hq : quoteJSONString e.1 ++ js ":" ++ JSON.stringify e.2
            = 0x22 :: (quoteUnits e.1 ++ 0x22 :: 0x3A :: JSON.stringify e.2) := by
          simp [quoteJSONString, js, utf16Units]
        rw [List.map_cons, hq]
        exact joinComma_head _ _ _ _
      obtain ⟨t₂, ht₂⟩ := hstart
      have hmem : ∀ u ∈ e :: es, u ∈ props := by
        intro u hu
        rw [← hopo] at hu
        exact hperm.mem_iff.mp hu
      have hnd : ((e :: es).map (fun e => e.1)).Nodup := by
        rw [← hopo]
        exact ((hperm.map _).nodup_iff).mpr hwf.1
      rw [parseMembers_stringify num (e :: es) (fun u hu => hwf.2 u (hmem u hu))
        (fun u hu => ih u (hmem u hu) (hwf.2 u (hmem u hu))) (by simp) n rest [] hnd
        (by simp) (by rw [hopo] at hl; omega)]
      rw [ht₂, skipWhitespace_cons 0x22 _ (by decide)]
      simp

/-- Parsing the text `JSON.stringify` wrote for a well-formed value gives the
value after a round trip. -/
theorem parse_stringify (num : JSString → JSString) (v : Json) (h : v.wellFormed num = true) :
    JSON.parse num (JSON.stringify v) = some v.normalize := by
  have := parseValue_stringify num v h (2 * (JSON.stringify v).length + 2) [] (by omega) (by simp)
  rw [List.append_nil] at this
  simp [JSON.parse, this, skipWhitespace]

/-! ## The canonical string and the round trip through `JSON.parse` -/

theorem lookup_map (g : Json → Json) (key : JSString) (props : List (JSString × Json)) :
    lookup key (props.map (fun e => (e.1, g e.2))) = (lookup key props).map g := by
  induction props with
  | nil => rfl
  | cons e ps ih =>
    obtain ⟨k, v⟩ := e
    by_cases h : k = key <;> simp [lookup, h, ih]

/-- The order of the keys of an object does not depend on the values. -/
theorem ownPropertyOrder_keys_map (g : Json → Json) (props : List (JSString × Json)) :
    (ownPropertyOrder (props.map (fun e => (e.1, g e.2)))).map (fun e => e.1)
      = (ownPropertyOrder props).map (fun e => e.1) := by
  rw [ownPropertyOrder_map, List.map_map]
  rfl

theorem normalize_obj (props : List (JSString × Json)) :
    Json.normalize (.obj props)
      = .obj ((ownPropertyOrder props).map (fun e => (e.1, e.2.normalize))) := by
  simp only [Json.normalize, normalizeProps_eq_map, ownPropertyOrder_map]

theorem sortedBodyString_obj (props : List (JSString × Json)) :
    sortedBodyString (.obj props)
      = some (JSON.stringify (.obj (sortedBody (.obj props)
          (sort ((ownPropertyOrder props).map (fun e => e.1)))))) := rfl

theorem sort_keys_perm (props : List (JSString × Json)) :
    (sort ((ownPropertyOrder props).map (fun e => e.1))).Perm (props.map (fun e => e.1)) :=
  (List.perm_insertionSort _ _).trans ((ownPropertyOrder_perm props).map _)

/-- The object `sortedBody` of an object body, as a list of properties. -/
theorem sortedBody_eq_filterMap (props : List (JSString × Json))
    (hnd : (props.map (fun e => e.1)).Nodup) :
    sortedBody (.obj props) (sort ((ownPropertyOrder props).map (fun e => e.1)))
      = (sort ((ownPropertyOrder props).map (fun e => e.1))).filterMap
          (fun k => (lookup k props).map (fun v => (k, v))) := by
  unfold sortedBody
  rw [sortedBody_fold props _ [] ((sort_keys_perm props).nodup_iff.mpr hnd) (by simp)]
  rfl

/-- The object `sortedBody` holds the properties of the body, rearranged. -/
theorem sortedBody_perm (props : List (JSString × Json))
    (hnd : (props.map (fun e => e.1)).Nodup) :
    (sortedBody (.obj props) (sort ((ownPropertyOrder props).map (fun e => e.1)))).Perm props := by
  rw [sortedBody_eq_filterMap props hnd]
  have := (sort_keys_perm props).filterMap (fun k => (lookup k props).map (fun v => (k, v)))
  rwa [filterMap_lookup_keys props hnd] at this

theorem stringify_obj_map_normalize (props : List (JSString × Json)) :
    JSON.stringify (.obj (props.map (fun e => (e.1, e.2.normalize))))
      = JSON.stringify (.obj props) := by
  simp only [JSON.stringify, stringifyProps_eq_map, List.map_map]
  congr 5
  apply List.map_congr_left
  intro e _
  simp [stringify_normalize]

/-- The canonical string of a body is that of the body after the round trip
of its values. -/
theorem sortedBodyString_map_normalize (props : List (JSString × Json))
    (hnd : (props.map (fun e => e.1)).Nodup) :
    sortedBodyString (.obj (props.map (fun e => (e.1, e.2.normalize))))
      = sortedBodyString (.obj props) := by
  have hnd' : ((props.map (fun e => (e.1, e.2.normalize))).map (fun e => e.1)).Nodup := by
    rw [List.map_map]
    exact hnd
  rw [sortedBodyString_obj, sortedBodyString_obj, sortedBody_eq_filterMap _ hnd',
    sortedBody_eq_filterMap _ hnd, ownPropertyOrder_keys_map]
  have h : (sort ((ownPropertyOrder props).map (fun e => e.1))).filterMap
        (fun k => (lookup k (props.map (fun e => (e.1, e.2.normalize)))).map (fun v => (k, v)))
      = ((sort ((ownPropertyOrder props).map (fun e => e.1))).filterMap
          (fun k => (lookup k props).map (fun v => (k, v)))).map
            (fun e => (e.1, e.2.normalize)) := by
    rw [List.map_filterMap]
    apply List.filterMap_congr
    intro k _
    rw [lookup_map]
    cases lookup k props <;> rfl
  rw [h, stringify_obj_map_normalize]

/-- Two serialised values that are the same text are the same value after
the round trip. -/
theorem normalize_eq_of_stringify_eq (num : JSString → JSString) (v₁ v₂ : Json)
    (h₁ : v₁.wellFormed num = true) (h₂ : v₂.wellFormed num = true)
    (h : JSON.stringify v₁ = JSON.stringify v₂) : v₁.normalize = v₂.normalize := by
  have e₁ := parse_stringify num v₁ h₁
  have e₂ := parse_stringify num v₂ h₂
  rw [h, e₂] at e₁
  exact (Option.some.inj e₁).symm

/-- Two arrangements of the same properties that list the keys in the same
order are the same list. -/
theorem eq_of_perm_of_keys : ∀ (l₁ l₂ : List (JSString × Json)), l₁.Perm l₂ →
    (l₁.map (fun e => e.1)).Nodup → l₁.map (fun e => e.1) = l₂.map (fun e => e.1) → l₁ = l₂
  | [], l₂, h, _, _ => h.nil_eq
  | e :: t₁, [], h, _, _ => absurd h.symm.nil_eq (by simp)
  | e :: t₁, e' :: t₂, h, hnd, hk => by
    simp only [List.map_cons, List.cons.injEq] at hk
    simp only [List.map_cons, List.nodup_cons] at hnd
    have he : e = e' := by
      rcases List.mem_cons.mp (h.mem_iff.mp (List.mem_cons_self e t₁)) with h1 | h1
      · exact h1
      · exact absurd (hk.2 ▸ List.mem_map.mpr ⟨e, h1, rfl⟩) hnd.1
    subst he
    rw [eq_of_perm_of_keys t₁ t₂ (List.Perm.cons_inv h) hnd.2 hk.2]

theorem lookup_middle (k : JSString) (v : Json) (pre post : List (JSString × Json))
    (h : k ∉ pre.map (fun e => e.1)) : lookup k (pre ++ (k, v) :: post) = some v := by
  induction pre with
  | nil => simp [lookup]
  | cons e ps ih =>
    obtain ⟨k', v'⟩ := e
    simp only [List.map_cons, List.mem_cons, not_or] at h
    simp [lookup, Ne.symm h.1, ih h.2]

/-! ## The values `JSON.parse` gives are well formed -/

theorem setProp_wellFormed (num : JSString → JSString) (acc : List (JSString × Json))
    (k : JSString) (v : Json) (hnd : (acc.map (fun e => e.1)).Nodup)
    (hacc : ∀ e ∈ acc, Json.wellFormed num e.2 = true) (hv : Json.wellFormed num v = true) :
    ((setProp acc k v).map (fun e => e.1)).Nodup ∧
      ∀ e ∈ setProp acc k v, Json.wellFormed num e.2 = true := by
  unfold setProp
  split_ifs with h
  · constructor
    · have : (acc.map (fun e => if e.1 = k then (k, v) else e)).map (fun e => e.1)
          = acc.map (fun e => e.1) := by
        rw [List.map_map]
        apply List.map_congr_left
        intro e _
        simp only [Function.comp_apply]
        split_ifs with hk
        · exact hk.symm
        · rfl
      rw [this]
      exact hnd
    · intro e he
      obtain ⟨e', he', rfl⟩ := List.mem_map.mp he
      split_ifs
      · exact hv
      · exact hacc e' he'
  · constructor
    · rw [List.map_append, List.nodup_append]
      refine ⟨hnd, by simp, ?_⟩
      intro a ha hb
      simp only [List.map_cons, List.map_nil, List.mem_singleton] at hb
      subst hb
      obtain ⟨e, he, rfl⟩ := List.mem_map.mp ha
      exact h (List.any_eq_true.mpr ⟨e, he, by simp⟩)
    · intro e he
      rcases List.mem_append.mp he with he | he
      · exact hacc e he
      · simp only [List.mem_singleton] at he
        subst he
        exact hv

/-- Every value the parser returns is well formed, when the number conversion
gives, for every number literal, the text of a number. -/
theorem wellFormed_of_parseValue (num : JSString → JSString)
    (hnum : ∀ t : JSString, t.all isNumberChar = true → isNumberLiteral t = true →
      Json.wellFormed num (.num (num t)) = true) :
    ∀ n : Nat,
      (∀ s v r, parseValue num n s = some (v, r) → Json.wellFormed num v = true) ∧
      (∀ s vs r, parseElements num n s = some (vs, r) →
        ∀ v ∈ vs, Json.wellFormed num v = true) ∧
      (∀ s acc ps r, parseMembers num n s acc = some (ps, r) →
        (acc.map (fun e => e.1)).Nodup → (∀ e ∈ acc, Json.wellFormed num e.2 = true) →
        (ps.map (fun e => e.1)).Nodup ∧ ∀ e ∈ ps, Json.wellFormed num e.2 = true) := by
  intro n
  induction n with
  | zero =>
    refine ⟨?_, ?_, ?_⟩
    · intro s v r h
      simp [parseValue] at h
    · intro s vs r h
      simp [parseElements] at h
    · intro s acc ps r h
      simp [parseMembers] at h
  | succ n ih =>
    obtain ⟨ihV, ihE, ihM⟩ := ih
    refine ⟨?_, ?_, ?_⟩
    · intro s v r h
      rw [parseValue] at h
      split at h
      · exact absurd h (by simp)
      · rename_i c r₀ _
        split_ifs at h with h1 h2 h3 h4 h5 h6
        · cases hp : parseStringBody r₀ with
          | none => simp [hp] at h
          | some p =>
            simp only [hp, Option.map_some', Option.some.injEq, Prod.mk.injEq] at h
            rw [← h.1]
            rfl
        · split at h
          · exact absurd h (by simp)
          · split_ifs at h
            · simp only [Option.some.injEq, Prod.mk.injEq] at h
              rw [← h.1]
              rfl
            · cases hp : parseElements num n r₀ with
              | none => simp [hp] at h
              | some p =>
                simp only [hp, Option.map_some', Option.some.injEq, Prod.mk.injEq] at h
                rw [← h.1, wellFormed_arr]
                exact ihE r₀ p.1 p.2 hp
        · split at h
          · exact absurd h (by simp)
          · split_ifs at h
            · simp only [Option.some.injEq, Prod.mk.injEq] at h
              rw [← h.1]
              rfl
            · cases hp : parseMembers num n r₀ [] with
              | none => simp [hp] at h
              | some p =>
                simp only [hp, Option.map_some', Option.some.injEq, Prod.mk.injEq] at h
                rw [← h.1, wellFormed_obj]
                exact ihM r₀ [] p.1 p.2 hp (by simp) (by simp)
        · simp only [Option.some.injEq, Prod.mk.injEq] at h
          rw [← h.1]
          rfl
        · simp only [Option.some.injEq, Prod.mk.injEq] at h
          rw [← h.1]
          rfl
        · simp only [Option.some.injEq, Prod.mk.injEq] at h
          rw [← h.1]
          rfl
        · unfold parseNumber at h
          split_ifs at h with hlit
          simp only [Option.some.injEq, Prod.mk.injEq] at h
          rw [← h.1]
          refine hnum _ ?_ hlit
          rw [List.all_eq_true]
          intro a ha
          exact List.mem_takeWhile_imp ha
    · intro s vs r h
      rw [parseElements] at h
      split at h
      · exact absurd h (by simp)
      · rename_i v₀ r₀ hv₀
        split at h
        · exact absurd h (by simp)
        · rename_i c₁ r₁ _
          split_ifs at h
          · cases hp : parseElements num n r₁ with
            | none => simp [hp] at h
            | some p =>
              simp only [hp, Option.map_some', Option.some.injEq, Prod.mk.injEq] at h
              rw [← h.1]
              intro v hv
              rcases List.mem_cons.mp hv with rfl | hv
              · exact ihV _ _ _ hv₀
              · exact ihE _ _ _ hp v hv
          · simp only [Option.some.injEq, Prod.mk.injEq] at h
            rw [← h.1]
            intro v hv
            simp only [List.mem_singleton] at hv
            subst hv
            exact ihV _ _ _ hv₀
    · intro s acc ps r h hnd hacc
      rw [parseMembers] at h
      split at h
      · exact absurd h (by simp)
      · split_ifs at h
        split at h
        · exact absurd h (by simp)
        · split at h
          · exact absurd h (by simp)
          · split_ifs at h
            split at h
            · exact absurd h (by simp)
            · rename_i v₀ r₀ hv₀
              have hset := fun k =>
                setProp_wellFormed num acc k v₀ hnd hacc (ihV _ _ _ hv₀)
              split at h
              · exact absurd h (by simp)
              · split_ifs at h
                · exact ihM _ _ _ _ h (hset _).1 (hset _).2
                · simp only [Option.some.injEq, Prod.mk.injEq] at h
                  rw [← h.1]
                  exact hset _

/-- Every value `JSON.parse` gives is well formed, when the number conversion
gives, for every number literal, the text of a number. -/
theorem wellFormed_of_parse (num : JSString → JSString)
    (hnum : ∀ t : JSString, t.all isNumberChar = true → isNumberLiteral t = true →
      Json.wellFormed num (.num (num t)) = true)
    (text : JSString) (v : Json) (h : JSON.parse num text = some v) :
    Json.wellFormed num v = true := by
  unfold JSON.parse at h
  split at h
  · exact absurd h (by simp)
  · rename_i v₀ rest hv₀
    split_ifs at h
    simp only [Option.some.injEq] at h
    rw [← h]
    exact (wellFormed_of_parseValue num hnum _).1 _ _ _ hv₀

/-- Bodies with the same canonical string have, under every key, values that
are the same after the round trip. -/
theorem lookup_normalize_of_sortedBodyString_eq (num : JSString → JSString)
    (p₁ p₂ : List (JSString × Json))
    (h₁ : Json.wellFormed num (.obj p₁) = true) (h₂ : Json.wellFormed num (.obj p₂) = true)
    (h : sortedBodyString (.obj p₁) = sortedBodyString (.obj p₂)) (k : JSString) :
    (lookup k p₁).map Json.normalize = (lookup k p₂).map Json.normalize := by
  have key : ∀ p : List (JSString × Json), Json.wellFormed num (.obj p) = true →
      Json.wellFormed num (.obj (sortedBody (.obj p)
          (sort ((ownPropertyOrder p).map (fun e => e.1))))) = true ∧
      lookup k ((ownPropertyOrder (sortedBody (.obj p)
          (sort ((ownPropertyOrder p).map (fun e => e.1))))).map
            (fun e => (e.1, e.2.normalize)))
        = (lookup k p).map Json.normalize := by
    intro p hp
    rw [wellFormed_obj] at hp
    have hS := sortedBody_perm p hp.1
    have hndS := ((hS.map (fun e => e.1)).nodup_iff).mpr hp.1
    refine ⟨(wellFormed_obj _ _).mpr ⟨hndS, fun e he => hp.2 e (hS.mem_iff.mp he)⟩, ?_⟩
    rw [lookup_map, lookup_eq_of_perm (ownPropertyOrder_perm _)
      ((((ownPropertyOrder_perm _).map (fun e => e.1)).nodup_iff).mpr hndS),
      lookup_eq_of_perm hS hndS]
  rw [sortedBodyString_obj, sortedBodyString_obj] at h
  have hn := normalize_eq_of_stringify_eq num _ _ (key p₁ h₁).1 (key p₂ h₂).1 (Option.some.inj h)
  rw [normalize_obj, normalize_obj] at hn
  rw [← (key p₁ h₁).2, ← (key p₂ h₂).2, Json.obj.inj hn]

/-- Bodies whose values are the same after the round trip, key by key in the
same arrangement, have the same canonical string. -/
theorem sortedBodyString_eq_of_map_normalize_eq (p₁ p₂ : List (JSString × Json))
    (h₁ : (p₁.map (fun e => e.1)).Nodup) (h₂ : (p₂.map (fun e => e.1)).Nodup)
    (h : p₁.map (fun e => (e.1, e.2.normalize)) = p₂.map (fun e => (e.1, e.2.normalize))) :
    sortedBodyString (.obj p₁) = sortedBodyString (.obj p₂) := by
  rw [← sortedBodyString_map_normalize p₁ h₁, ← sortedBodyString_map_normalize p₂ h₂, h]

/-! ## Nested objects (C23) and the round trip of the canonical string (C24) -/

/-- Counterexample to C23 as stated: the request texts `{"a":{"1":1,"2":2}}`
and `{"a":{"2":2,"1":1}}` differ only in the key order of the nested object,
and the two bodies have the same canonical string `{"a":{"1":1,"2":2}}`, so
the same generated signature under every secret. -/
theorem C23_counterexample :
    JSON.parse id (js "\x7b\"a\":\x7b\"1\":1,\"2\":2\x7d\x7d") = some nestedIndexBody ∧
    JSON.parse id (js "\x7b\"a\":\x7b\"2\":2,\"1\":1\x7d\x7d") = some nestedIndexBodySwapped ∧
    sortedBodyString nestedIndexBody = some (js "\x7b\"a\":\x7b\"1\":1,\"2\":2\x7d\x7d") ∧
    sortedBodyString nestedIndexBodySwapped = some (js "\x7b\"a\":\x7b\"1\":1,\"2\":2\x7d\x7d") ∧
    (∀ secret, generatedSignature secret nestedIndexBody
      = generatedSignature secret nestedIndexBodySwapped) := by
  have h₁ : sortedBodyString nestedIndexBody
      = some (js "\x7b\"a\":\x7b\"1\":1,\"2\":2\x7d\x7d") := by decide
  have h₂ : sortedBodyString nestedIndexBodySwapped
      = some (js "\x7b\"a\":\x7b\"1\":1,\"2\":2\x7d\x7d") := by decide
  refine ⟨rfl, rfl, h₁, h₂, fun secret => ?_⟩
  simp only [generatedSignature, h₁, h₂]

/-- C23 (amended): the canonicalisation sorts the top-level keys only; a nested
object is serialised as `JSON.stringify` lists it, in its own property order
(array-index keys first, in ascending numeric order, then the other keys in
creation order).  For two well-formed bodies that differ only in the order of
the properties of one nested object value, the canonical strings are equal
exactly when the two nested objects list their keys in the same own property
order; when the nested object has no array-index key, exactly when the two
nested objects are the same.  Equal canonical strings give equal generated
signatures under every secret. -/
theorem C23_nested_keys_are_serialised_in_own_property_order
    (num : JSString → JSString) (pre post : List (JSString × Json)) (key : JSString)
    (nested₁ nested₂ : List (JSString × Json)) (hperm : nested₁.Perm nested₂)
    (hwf : Json.wellFormed num (.obj (pre ++ (key, .obj nested₁) :: post)) = true) :
    (sortedBodyString (.obj (pre ++ (key, .obj nested₁) :: post))
        = sortedBodyString (.obj (pre ++ (key, .obj nested₂) :: post))
      ↔ (ownPropertyOrder nested₁).map (fun e => e.1)
          = (ownPropertyOrder nested₂).map (fun e => e.1)) ∧
    ((∀ e ∈ nested₁, arrayIndex e.1 = none) →
      (sortedBodyString (.obj (pre ++ (key, .obj nested₁) :: post))
          = sortedBodyString (.obj (pre ++ (key, .obj nested₂) :: post))
        ↔ nested₁ = nested₂)) ∧
    (sortedBodyString (.obj (pre ++ (key, .obj nested₁) :: post))
        = sortedBodyString (.obj (pre ++ (key, .obj nested₂) :: post)) →
      ∀ secret, generatedSignature secret (.obj (pre ++ (key, .obj nested₁) :: post))
        = generatedSignature secret (.obj (pre ++ (key, .obj nested₂) :: post))) := by
  have hwf₁ := (wellFormed_obj _ _).mp hwf
  have hkeys : (pre ++ (key, Json.obj nested₂) :: post).map (fun e => e.1)
      = (pre ++ (key, Json.obj nested₁) :: post).map (fun e => e.1) := by simp
  have hn₁ := (wellFormed_obj num nested₁).mp
    (hwf₁.2 (key, .obj nested₁) (by simp))
  have hn₂ : Json.wellFormed num (.obj nested₂) = true :=
    (wellFormed_obj _ _).mpr ⟨((hperm.map (fun e => e.1)).nodup_iff).mp hn₁.1,
      fun e he => hn₁.2 e (hperm.mem_iff.mpr he)⟩
  have hnd₂ : ((pre ++ (key, Json.obj nested₂) :: post).map (fun e => e.1)).Nodup := by
    rw [hkeys]
    exact hwf₁.1
  have hwf₂ : Json.wellFormed num (.obj (pre ++ (key, .obj nested₂) :: post)) = true := by
    refine (wellFormed_obj _ _).mpr ⟨hnd₂, fun e he => ?_⟩
    rcases List.mem_append.mp he with he | he
    · exact hwf₁.2 e (List.mem_append_left _ he)
    · rcases List.mem_cons.mp he with rfl | he
      · exact hn₂
      · exact hwf₁.2 e (List.mem_append_right _ (List.mem_cons_of_mem _ he))
  have hfresh : key ∉ pre.map (fun e => e.1) := by
    have := hwf₁.1
    rw [List.map_append, List.map_cons, List.nodup_append] at this
    intro hk
    exact this.2.2 hk (List.mem_cons_self _ _)
  have hpermO : (ownPropertyOrder nested₁).Perm (ownPropertyOrder nested₂) :=
    ((ownPropertyOrder_perm nested₁).trans hperm).trans (ownPropertyOrder_perm nested₂).symm
  have hndO : ((ownPropertyOrder nested₁).map (fun e => e.1)).Nodup :=
    (((ownPropertyOrder_perm nested₁).map (fun e => e.1)).nodup_iff).mpr hn₁.1
  have main : sortedBodyString (.obj (pre ++ (key, .obj nested₁) :: post))
        = sortedBodyString (.obj (pre ++ (key, .obj nested₂) :: post))
      ↔ (ownPropertyOrder nested₁).map (fun e => e.1)
          = (ownPropertyOrder nested₂).map (fun e => e.1) := by
    constructor
    · intro h
      have hl := lookup_normalize_of_sortedBodyString_eq num _ _ hwf hwf₂ h key
      rw [lookup_middle key _ pre post hfresh, lookup_middle key _ pre post hfresh] at hl
      simp only [Option.map_some', Option.some.injEq, normalize_obj, Json.obj.injEq] at hl
      have := congrArg (List.map (fun e : JSString × Json => e.1)) hl
      simpa [List.map_map, Function.comp_def] using this
    · intro h
      have hO := eq_of_perm_of_keys _ _ hpermO hndO h
      apply sortedBodyString_eq_of_map_normalize_eq _ _ hwf₁.1 hnd₂
      simp only [List.map_append, List.map_cons, normalize_obj, hO]
  refine ⟨main, fun hplain => ?_, fun h secret => ?_⟩
  · have hplain₂ : ∀ e ∈ nested₂, arrayIndex e.1 = none :=
      fun e he => hplain e (hperm.mem_iff.mpr he)
    rw [main, ownPropertyOrder_of_plain nested₁ hplain, ownPropertyOrder_of_plain nested₂ hplain₂]
    exact ⟨eq_of_perm_of_keys _ _ hperm hn₁.1, fun h => by rw [h]⟩
  · simp only [generatedSignature, h]

/-- Witness for C23: `nestedBody` and `nestedBodySwapped`, whose nested
objects have the keys `x`, `y` in either order, have different canonical
strings; `nestedIndexBody` and `nestedIndexBodySwapped`, whose nested objects
have the keys `1`, `2` in either order, have the same canonical string. -/
theorem C23_witness :
    [(js "x", Json.num (js "1")), (js "y", Json.num (js "2"))].Perm
      [(js "y", Json.num (js "2")), (js "x", Json.num (js "1"))] ∧
    Json.wellFormed id nestedBody = true ∧
    sortedBodyString nestedBody ≠ sortedBodyString nestedBodySwapped ∧
    Json.wellFormed id nestedIndexBody = true ∧
    sortedBodyString nestedIndexBody = sortedBodyString nestedIndexBodySwapped :=
  ⟨List.Perm.swap _ _ _, by decide,
    (C23_nested_keys_are_serialised_in_own_property_order id [] [] (js "a")
      [(js "x", .num (js "1")), (js "y", .num (js "2"))]
      [(js "y", .num (js "2")), (js "x", .num (js "1"))]
      (List.Perm.swap _ _ _) (by decide)).1.not.mpr (by decide),
    by decide,
    (C23_nested_keys_are_serialised_in_own_property_order id [] [] (js "a")
      [(js "1", .num (js "1")), (js "2", .num (js "2"))]
      [(js "2", .num (js "2")), (js "1", .num (js "1"))]
      (List.Perm.swap _ _ _) (by decide)).1.mpr (by decide)⟩

/-- The canonical strings of `nestedBody` and `nestedBodySwapped`: the keys
of the nested object are in the order the body has them. -/
theorem nested_key_order_example :
    sortedBodyString nestedBody = some (js "\x7b\"a\":\x7b\"x\":1,\"y\":2\x7d\x7d") ∧
    sortedBodyString nestedBodySwapped = some (js "\x7b\"a\":\x7b\"y\":2,\"x\":1\x7d\x7d") ∧
    sortedBodyString nestedBody ≠ sortedBodyString nestedBodySwapped := by
  decide

/-- The object `sortedBody` of a well-formed object body is well formed. -/
theorem wellFormed_sortedBody (num : JSString → JSString) (props : List (JSString × Json))
    (hwf : Json.wellFormed num (.obj props) = true) :
    Json.wellFormed num (.obj (sortedBody (.obj props)
      (sort ((ownPropertyOrder props).map (fun e => e.1))))) = true := by
  have hp := (wellFormed_obj _ _).mp hwf
  have hS := sortedBody_perm props hp.1
  exact (wellFormed_obj _ _).mpr
    ⟨((hS.map (fun e => e.1)).nodup_iff).mpr hp.1, fun e he => hp.2 e (hS.mem_iff.mp he)⟩

/-- The canonical string of what the object `sortedBody` is after the round
trip through `JSON.stringify` and `JSON.parse` is the canonical string of the body. -/
theorem sortedBodyString_normalize_sortedBody (props : List (JSString × Json))
    (hnd : (props.map (fun e => e.1)).Nodup) :
    sortedBodyString (Json.normalize (.obj (sortedBody (.obj props)
        (sort ((ownPropertyOrder props).map (fun e => e.1))))))
      = sortedBodyString (.obj props) := by
  have hS := sortedBody_perm props hnd
  have hndS := ((hS.map (fun e => e.1)).nodup_iff).mpr hnd
  rw [normalize_obj, ← ownPropertyOrder_map Json.normalize,
    sortedBodyString_eq_of_perm (ownPropertyOrder_perm _)
      ((((ownPropertyOrder_perm _).map (fun e => e.1)).nodup_iff).mpr
        (by rw [List.map_map]; exact hndS)),
    sortedBodyString_map_normalize _ hndS, sortedBodyString_eq_of_perm hS hndS]

/-- C24: for every JSON object body (a value `JSON.parse` can give: no key
twice, every number carried as the literal of that number), the canonical
string parses, and canonicalising the parsed value gives the same string again. -/
theorem C24_canonicalisation_is_idempotent (num : JSString → JSString)
    (props : List (JSString × Json)) (hwf : Json.wellFormed num (.obj props) = true) :
    ∃ canonical parsed,
      sortedBodyString (.obj props) = some canonical ∧
      JSON.parse num canonical = some parsed ∧
      sortedBodyString parsed = some canonical := by
  have hnd := ((wellFormed_obj _ _).mp hwf).1
  have hwfS := wellFormed_sortedBody num props hwf
  refine ⟨_, _, sortedBodyString_obj props, parse_stringify num _ hwfS, ?_⟩
  exact (sortedBodyString_normalize_sortedBody props hnd).trans (sortedBodyString_obj props)

/-- Witness for C24: the body `{"10":1,"9":2}`, whose canonical string is
`{"9":2,"10":1}`. -/
theorem C24_witness :
    Json.wellFormed id integerKeysBody = true ∧
    ∃ canonical parsed,
      sortedBodyString integerKeysBody = some canonical ∧
      JSON.parse id canonical = some parsed ∧
      sortedBodyString parsed = some canonical :=
  ⟨by decide, C24_canonicalisation_is_idempotent id
    [(js "10", .num (js "1")), (js "9", .num (js "2"))] (by decide)⟩

/-- The round trip of the canonical string, for the body of every request
text that parses to an object: the hypothesis on the number conversion is
that it gives, for every number literal, the text of a number. -/
theorem sortedBodyString_round_trip_of_parsed (num : JSString → JSString)
    (hnum : ∀ t : JSString, t.all isNumberChar = true → isNumberLiteral t = true →
      Json.wellFormed num (.num (num t)) = true)
    (text : JSString) (props : List (JSString × Json))
    (hparse : JSON.parse num text = some (.obj props)) :
    ∃ canonical parsed,
      sortedBodyString (.obj props) = some canonical ∧
      JSON.parse num canonical = some parsed ∧
      sortedBodyString parsed = some canonical := by
  have hwf := wellFormed_of_parse num hnum text _ hparse
  have hnd := ((wellFormed_obj _ _).mp hwf).1
  have hwfS := wellFormed_sortedBody num props hwf
  refine ⟨_, _, sortedBodyString_obj props, parse_stringify num _ hwfS, ?_⟩
  exact (sortedBodyString_normalize_sortedBody props hnd).trans (sortedBodyString_obj props)

/-- The round trip at the request text ` {"b" : [1.5, "x"], "a" : {"2" : null, "1" : true}} `,
with the number conversion that leaves a literal as it is written. -/
theorem sortedBodyString_round_trip_example :
    ∃ props canonical parsed,
      JSON.parse id (js " \x7b\"b\" : [1.5, \"x\"], \"a\" : \x7b\"2\" : null, \"1\" : true\x7d\x7d ")
        = some (.obj props) ∧
      sortedBodyString (.obj props) = some canonical ∧
      canonical = js "\x7b\"a\":\x7b\"1\":true,\"2\":null\x7d,\"b\":[1.5,\"x\"]\x7d" ∧
      JSON.parse id canonical = some parsed ∧
      sortedBodyString parsed = some canonical :=
  ⟨_, _, _, rfl, rfl, by decide, rfl, rfl⟩

set_option maxRecDepth 100000 in
/-- The signatures the handler generates for `nestedBody` and for
`nestedBodySwapped` under `topsecret` are two different digests. -/
theorem nested_key_order_changes_the_signature :
    generatedSignature (js "topsecret") nestedBody = some nestedSignature ∧
    generatedSignature (js "topsecret") nestedBodySwapped = some nestedSwappedSignature ∧
    nestedSignature ≠ nestedSwappedSignature := by
  decide

/-- The signature of `nestedBody` is accepted for `nestedBody` and rejected
for `nestedBodySwapped`. -/
theorem nested_key_order_signature_is_rejected :
    (handler ⟨some (js "topsecret")⟩ storeOk
        ⟨js "POST", some nestedSignature, some nestedBody⟩).response = ⟨"OK", 200⟩ ∧
    (handler ⟨some (js "topsecret")⟩ storeOk
        ⟨js "POST", some nestedSignature, some nestedBodySwapped⟩).response
      = ⟨"Unauthorized", 401⟩ := by
  obtain ⟨h₁, h₂, hne⟩ := nested_key_order_changes_the_signature
  constructor
  · rw [handler_checked ⟨some (js "topsecret")⟩ storeOk
      ⟨js "POST", some nestedSignature, some nestedBody⟩ nestedBody (js "topsecret")
      nestedSignature rfl rfl (by decide) rfl rfl (by decide), h₁]
    simp only [ne_eq, not_true_eq_false, if_false]
    rfl
  · rw [handler_checked ⟨some (js "topsecret")⟩ storeOk
      ⟨js "POST", some nestedSignature, some nestedBodySwapped⟩ nestedBodySwapped (js "topsecret")
      nestedSignature rfl rfl (by decide) rfl rfl (by decide), h₂]
    simp only [ne_eq]
    rw [if_pos (fun h => hne h.symm)]
    rfl
